import Mathlib

/-!
Verification of the drone-routing backend (grid pathfinding, wind-aware edge
costs, voxel collision queries, and the flight simulator) against its
natural-language specification.

The Python source is shallowly embedded:
* machine floats are idealised as exact numbers; coordinates and all purely
  order/field/floor-arithmetic code are embedded generically over a
  `LinearOrderedField` with a `FloorRing` (instantiated at `ℚ` where concrete
  evaluation is needed, at `ℝ` where square roots or trigonometry occur);
* numpy batch operations that are elementwise per edge/point are embedded as
  `List.map` of the per-element computation;
* Python dictionaries are embedded as update-functions `ℕ → Option α`,
  Python lists as `List`.
-/

set_option maxHeartbeats 1000000

namespace DroneRouting

/-- Python `int(x)` / numpy `.astype(int)`: truncation toward zero. -/
def pyInt {K : Type} [LinearOrderedField K] [FloorRing K] (x : K) : ℤ :=
  if 0 ≤ x then ⌊x⌋ else -⌊-x⌋

/-- Python `round(x)` for floats: round half to even (banker's rounding). -/
def pyRound {K : Type} [LinearOrderedField K] [FloorRing K] (x : K) : ℤ :=
  let f := ⌊x⌋
  let r := x - (f : K)
  if r < 1/2 then f
  else if (1:K)/2 < r then f + 1
  else if f % 2 = 0 then f else f + 1

/-- Python `max(lo, min(hi, x))` clamping (as written in the scalar sources). -/
def pyClamp {K : Type} [LinearOrder K] (lo hi x : K) : K :=
  max lo (min hi x)

/-- numpy `np.clip(x, lo, hi)`: equals `min hi (max lo x)`, so when `hi < lo`
the result is `hi` (numpy documents this behaviour). -/
def npClip {K : Type} [LinearOrder K] (x lo hi : K) : K :=
  min hi (max lo x)

/-! ## Vector3 (`backend/grid/node.py`) -/

/-- Triple of coordinates; embeds `Vector3`. The scalar type is generic so the
same code serves exact-rational evaluation and real-valued analysis. -/
structure Vec3 (K : Type) where
  x : K
  y : K
  z : K
deriving DecidableEq, Repr

namespace Vec3

variable {K : Type} [LinearOrderedField K]

/-- Componentwise addition (`Vector3.__add__`). -/
def add (a b : Vec3 K) : Vec3 K := ⟨a.x + b.x, a.y + b.y, a.z + b.z⟩

/-- Componentwise subtraction (`Vector3.__sub__`). -/
def sub (a b : Vec3 K) : Vec3 K := ⟨a.x - b.x, a.y - b.y, a.z - b.z⟩

/-- Scalar multiplication (`Vector3.__mul__`). -/
def smul (a : Vec3 K) (s : K) : Vec3 K := ⟨a.x * s, a.y * s, a.z * s⟩

/-- Scalar division (`Vector3.__truediv__`). -/
def sdiv (a : Vec3 K) (s : K) : Vec3 K := ⟨a.x / s, a.y / s, a.z / s⟩

/-- Negation (`Vector3.__neg__`). -/
def neg (a : Vec3 K) : Vec3 K := ⟨-a.x, -a.y, -a.z⟩

/-- Dot product (`Vector3.dot`). -/
def dot (a b : Vec3 K) : K := a.x * b.x + a.y * b.y + a.z * b.z

/-- Cross product (`Vector3.cross`). -/
def cross (a b : Vec3 K) : Vec3 K :=
  ⟨a.y * b.z - a.z * b.y, a.z * b.x - a.x * b.z, a.x * b.y - a.y * b.x⟩

/-- Squared length (`Vector3.magnitude_squared`). -/
def magSq (a : Vec3 K) : K := a.x ^ 2 + a.y ^ 2 + a.z ^ 2

/-- Zero vector. -/
def zero : Vec3 K := ⟨0, 0, 0⟩

/-- Coercion of an exact-rational vector into the real-valued model. -/
def toR (a : Vec3 ℚ) : Vec3 ℝ := ⟨(a.x : ℝ), (a.y : ℝ), (a.z : ℝ)⟩

end Vec3

/-- Length of a vector (`Vector3.magnitude`); real-valued since it takes a
square root. -/
noncomputable def Vec3.magnitude (a : Vec3 ℝ) : ℝ :=
  Real.sqrt (a.x ^ 2 + a.y ^ 2 + a.z ^ 2)

/-- Unit vector in the same direction (`Vector3.normalized`): returns the zero
vector when the magnitude is below `1e-9`, otherwise divides by the
magnitude. -/
noncomputable def Vec3.normalized (a : Vec3 ℝ) : Vec3 ℝ :=
  let mag := a.magnitude
  if mag < 1e-9 then ⟨0, 0, 0⟩ else a.sdiv mag

/-! ## Grid3D (`backend/grid/grid_3d.py`) -/

/-- Integer range `[lo, hi)` mirroring Python `range(lo, hi)`. -/
def rangeZ (lo hi : ℤ) : List ℤ :=
  (List.range (hi - lo).toNat).map fun k => lo + (k : ℤ)

/-- The 26-connectivity offsets, in the source's comprehension order
(`dx` outermost, `dz` innermost, origin excluded). -/
def NEIGHBOR_OFFSETS : List (ℤ × ℤ × ℤ) :=
  ([-1, 0, 1] : List ℤ).flatMap fun dx =>
    ([-1, 0, 1] : List ℤ).flatMap fun dy =>
      ([-1, 0, 1] : List ℤ).filterMap fun dz =>
        if dx = 0 ∧ dy = 0 ∧ dz = 0 then none else some (dx, dy, dz)

/-- A node of the pathfinding lattice (`GridNode`). -/
structure GridNode where
  id : ℕ
  position : Vec3 ℚ
  grid_index : ℕ × ℕ × ℕ
  is_valid : Bool
deriving DecidableEq, Repr

/-- The 3D pathfinding grid (`Grid3D`). The node dictionary is determined by
the bounds, the resolution and the per-id validity flags (node positions and
ids are derived data, created by `_create_nodes` in id order
`id = ix·ny·nz + iy·nz + iz`). `valid` captures the mutable `is_valid` state
of the nodes at the time of the call under scrutiny. -/
structure Grid3D where
  bounds_min : Vec3 ℚ
  bounds_max : Vec3 ℚ
  resolution : ℚ
  valid : ℕ → Bool

namespace Grid3D

/-- Grid dimension along x: `max(1, int(size.x / resolution) + 1)`. -/
def nx (g : Grid3D) : ℕ :=
  (max 1 (pyInt ((g.bounds_max.x - g.bounds_min.x) / g.resolution) + 1)).toNat

/-- Grid dimension along y. -/
def ny (g : Grid3D) : ℕ :=
  (max 1 (pyInt ((g.bounds_max.y - g.bounds_min.y) / g.resolution) + 1)).toNat

/-- Grid dimension along z. -/
def nz (g : Grid3D) : ℕ :=
  (max 1 (pyInt ((g.bounds_max.z - g.bounds_min.z) / g.resolution) + 1)).toNat

/-- Total number of nodes. -/
def totalNodes (g : Grid3D) : ℕ := g.nx * g.ny * g.nz

/-- Dense node id of a lattice index, as assigned by `_create_nodes`. -/
def idOf (g : Grid3D) (ix iy iz : ℕ) : ℕ := ix * (g.ny * g.nz) + iy * g.nz + iz

/-- World position of a lattice index (`_create_nodes`). -/
def posOf (g : Grid3D) (ix iy iz : ℕ) : Vec3 ℚ :=
  ⟨g.bounds_min.x + ix * g.resolution,
   g.bounds_min.y + iy * g.resolution,
   g.bounds_min.z + iz * g.resolution⟩

/-- Lattice index of a dense node id (inverse of `idOf` on the grid range). -/
def indexOfId (g : Grid3D) (i : ℕ) : ℕ × ℕ × ℕ :=
  (i / (g.ny * g.nz), i / g.nz % g.ny, i % g.nz)

/-- The node stored at a lattice index. -/
def mkNode (g : Grid3D) (ix iy iz : ℕ) : GridNode :=
  ⟨g.idOf ix iy iz, g.posOf ix iy iz, (ix, iy, iz), g.valid (g.idOf ix iy iz)⟩

/-- Dictionary lookup by lattice index (`get_node_by_index`): `none` for
indices outside the grid. -/
def getNodeByIndex (g : Grid3D) (ix iy iz : ℤ) : Option GridNode :=
  if 0 ≤ ix ∧ ix < (g.nx : ℤ) ∧ 0 ≤ iy ∧ iy < (g.ny : ℤ) ∧ 0 ≤ iz ∧ iz < (g.nz : ℤ) then
    some (g.mkNode ix.toNat iy.toNat iz.toNat)
  else none

/-- Dictionary lookup by id (`get_node_by_id`). -/
def getNodeById (g : Grid3D) (i : ℕ) : Option GridNode :=
  if i < g.totalNodes then
    some (g.mkNode (g.indexOfId i).1 (g.indexOfId i).2.1 (g.indexOfId i).2.2)
  else none

/-- Valid in-bounds 26-neighbours of a node (`get_neighbors`). -/
def getNeighbors (g : Grid3D) (n : GridNode) : List GridNode :=
  NEIGHBOR_OFFSETS.filterMap fun d =>
    let nix : ℤ := (n.grid_index.1 : ℤ) + d.1
    let niy : ℤ := (n.grid_index.2.1 : ℤ) + d.2.1
    let niz : ℤ := (n.grid_index.2.2 : ℤ) + d.2.2
    if 0 ≤ nix ∧ nix < (g.nx : ℤ) ∧ 0 ≤ niy ∧ niy < (g.ny : ℤ) ∧
        0 ≤ niz ∧ niz < (g.nz : ℤ) then
      match g.getNodeByIndex nix niy niz with
      | some nb => if nb.is_valid then some nb else none
      | none => none
    else none

/-- Ids of the valid 26-neighbours (`get_neighbor_ids`); empty for an unknown
id. -/
def getNeighborIds (g : Grid3D) (i : ℕ) : List ℕ :=
  match g.getNodeById i with
  | none => []
  | some n => (g.getNeighbors n).map GridNode.id

/-- All valid nodes in id order (`valid_nodes`; dict iteration follows
insertion order, which is id order). -/
def validNodes (g : Grid3D) : List GridNode :=
  (List.range g.totalNodes).filterMap fun i =>
    match g.getNodeById i with
    | some n => if n.is_valid then some n else none
    | none => none

/-- Rounded-and-clamped lattice index of a world position (the first half of
`get_node_at_position`). -/
def clampedIndex (g : Grid3D) (p : Vec3 ℚ) : ℤ × ℤ × ℤ :=
  let ix := pyRound ((p.x - g.bounds_min.x) / g.resolution)
  let iy := pyRound ((p.y - g.bounds_min.y) / g.resolution)
  let iz := pyRound ((p.z - g.bounds_min.z) / g.resolution)
  (max 0 (min ((g.nx : ℤ) - 1) ix),
   max 0 (min ((g.ny : ℤ) - 1) iy),
   max 0 (min ((g.nz : ℤ) - 1) iz))

/-- The valid nodes on the Chebyshev shell of radius `r` around a clamped
index (one `radius` pass of the `prefer_valid` search: offsets
`dx,dy,dz ∈ range(-r, r+1)` skipping those with no coordinate of
absolute value `r`, bounds-checked, validity-checked). -/
def shellCandidates (g : Grid3D) (ix iy iz r : ℤ) : List GridNode :=
  (rangeZ (-r) (r + 1)).flatMap fun dx =>
    (rangeZ (-r) (r + 1)).flatMap fun dy =>
      (rangeZ (-r) (r + 1)).filterMap fun dz =>
        if |dx| = r ∨ |dy| = r ∨ |dz| = r then
          let nix := ix + dx
          let niy := iy + dy
          let niz := iz + dz
          if 0 ≤ nix ∧ nix < (g.nx : ℤ) ∧ 0 ≤ niy ∧ niy < (g.ny : ℤ) ∧
              0 ≤ niz ∧ niz < (g.nz : ℤ) then
            match g.getNodeByIndex nix niy niz with
            | some nb => if nb.is_valid then some nb else none
            | none => none
          else none
        else none

end Grid3D

/-- The running minimum of the shell scan: the source compares Euclidean
magnitudes; since `Real.sqrt` is strictly monotone on squares, comparing the
exact squared distances selects the same node, and keeps the scan evaluable
over `ℚ`. `none` plays the role of the initial `best_dist = inf`. -/
def pickNearest (p : Vec3 ℚ) (l : List GridNode) : Option (GridNode × ℚ) :=
  l.foldl (fun best n =>
    let d := Vec3.magSq (Vec3.sub n.position p)
    match best with
    | none => some (n, d)
    | some (b, bd) => if d < bd then some (n, d) else some (b, bd)) none

/-- The `for radius in range(1, 6)` loop of `get_node_at_position`: return the
nearest valid node of the first radius whose shell has one. -/
def searchShells (g : Grid3D) (p : Vec3 ℚ) (ix iy iz : ℤ) : List ℤ → Option GridNode
  | [] => none
  | r :: rs =>
    match pickNearest p (g.shellCandidates ix iy iz r) with
    | some (n, _) => some n
    | none => searchShells g p ix iy iz rs

/-- Nearest-node lookup with bounded widening (`get_node_at_position`). -/
def Grid3D.getNodeAtPosition (g : Grid3D) (p : Vec3 ℚ)
    (preferValid : Bool := true) : Option GridNode :=
  let c := g.clampedIndex p
  let node := g.getNodeByIndex c.1 c.2.1 c.2.2
  match node with
  | some n =>
    if preferValid ∧ n.is_valid = false then
      match searchShells g p c.1 c.2.1 c.2.2 [1, 2, 3, 4, 5] with
      | some best => some best
      | none => some n
    else some n
  | none => none

/-! ## WindField (`backend/data/wind_field.py`) -/

/-- Wind field over a regular grid: a `(nx, ny, nz, 3)` velocity array, a
`(nx, ny, nz)` turbulence array, and world bounds. Arrays are embedded as
index functions (only indices below the declared shape are ever read). -/
structure WindField (K : Type) where
  wind_data : ℕ → ℕ → ℕ → Vec3 K
  turbulence_data : ℕ → ℕ → ℕ → K
  bounds_min : Vec3 K
  bounds_max : Vec3 K
  nx : ℕ
  ny : ℕ
  nz : ℕ

namespace WindField

variable {K : Type} [LinearOrderedField K] [FloorRing K]

/-- Cell size along one axis: `size / max(1, n - 1)` (constructor). -/
def cellSize1 (size : K) (n : ℕ) : K := size / (max 1 (n - 1) : ℕ)

/-- Cell sizes of the sample grid. -/
def cellSize (wf : WindField K) : Vec3 K :=
  ⟨cellSize1 (wf.bounds_max.x - wf.bounds_min.x) wf.nx,
   cellSize1 (wf.bounds_max.y - wf.bounds_min.y) wf.ny,
   cellSize1 (wf.bounds_max.z - wf.bounds_min.z) wf.nz⟩

/-- Continuous grid indices of a world position (`_position_to_index`):
`rel / cell_size` with a zero fallback for non-positive cell sizes. -/
def positionToIndex (wf : WindField K) (p : Vec3 K) : K × K × K :=
  let rel := Vec3.sub p wf.bounds_min
  let cs := wf.cellSize
  (if 0 < cs.x then rel.x / cs.x else 0,
   if 0 < cs.y then rel.y / cs.y else 0,
   if 0 < cs.z then rel.z / cs.z else 0)

/-- Accumulation of the eight-corner interpolation in the source's nested-loop
order (`result += wx*wy*wz * data[xi, yi, zi]`, `z` innermost); the batch
variant writes the same eight products explicitly in the same order. -/
def trilinearAccum (f : ℕ → ℕ → ℕ → Vec3 K) (xw yw zw : List (ℕ × K)) : Vec3 K :=
  xw.foldl (fun acc xp =>
    yw.foldl (fun acc2 yp =>
      zw.foldl (fun acc3 zp =>
        acc3.add ((f xp.1 yp.1 zp.1).smul (xp.2 * yp.2 * zp.2))) acc2) acc)
    Vec3.zero

/-- Scalar-valued analogue of `trilinearAccum` for turbulence. -/
def trilinearAccumS (f : ℕ → ℕ → ℕ → K) (xw yw zw : List (ℕ × K)) : K :=
  xw.foldl (fun acc xp =>
    yw.foldl (fun acc2 yp =>
      zw.foldl (fun acc3 zp =>
        acc3 + f xp.1 yp.1 zp.1 * (xp.2 * yp.2 * zp.2)) acc2) acc)
    0

/-- Corner data shared by the interpolation routines: clamp a continuous index
into `[0, n-1-1e-6]` with the given clamping function, truncate, and return
`(x0, x1, xf)`. -/
def corner (clampf : K → K → K → K) (n : ℕ) (i : K) : ℕ × ℕ × K :=
  let ic := clampf 0 ((n : K) - 1 - 1e-6) i
  let x0 := pyInt ic
  let x1 := min (x0 + 1) ((n : ℤ) - 1)
  (x0.toNat, x1.toNat, ic - (x0 : K))

/-- Trilinear wind interpolation at continuous indices
(`_trilinear_interpolate_wind`), with the scalar source's clamp
`max(0, min(n-1-eps, i))`. -/
def trilinearInterpolateWind (wf : WindField K) (ix iy iz : K) : Vec3 K :=
  let cx := corner (fun lo hi v => pyClamp lo hi v) wf.nx ix
  let cy := corner (fun lo hi v => pyClamp lo hi v) wf.ny iy
  let cz := corner (fun lo hi v => pyClamp lo hi v) wf.nz iz
  trilinearAccum wf.wind_data
    [(cx.1, 1 - cx.2.2), (cx.2.1, cx.2.2)]
    [(cy.1, 1 - cy.2.2), (cy.2.1, cy.2.2)]
    [(cz.1, 1 - cz.2.2), (cz.2.1, cz.2.2)]

/-- Trilinear turbulence interpolation (`_trilinear_interpolate_turbulence`). -/
def trilinearInterpolateTurbulence (wf : WindField K) (ix iy iz : K) : K :=
  let cx := corner (fun lo hi v => pyClamp lo hi v) wf.nx ix
  let cy := corner (fun lo hi v => pyClamp lo hi v) wf.ny iy
  let cz := corner (fun lo hi v => pyClamp lo hi v) wf.nz iz
  trilinearAccumS wf.turbulence_data
    [(cx.1, 1 - cx.2.2), (cx.2.1, cx.2.2)]
    [(cy.1, 1 - cy.2.2), (cy.2.1, cy.2.2)]
    [(cz.1, 1 - cz.2.2), (cz.2.1, cz.2.2)]

/-- Wind velocity at a world position (`get_wind_at`). -/
def getWindAt (wf : WindField K) (p : Vec3 K) : Vec3 K :=
  let idx := wf.positionToIndex p
  wf.trilinearInterpolateWind idx.1 idx.2.1 idx.2.2

/-- Turbulence intensity at a world position (`get_turbulence_at`). -/
def getTurbulenceAt (wf : WindField K) (p : Vec3 K) : K :=
  let idx := wf.positionToIndex p
  wf.trilinearInterpolateTurbulence idx.1 idx.2.1 idx.2.2

/-- Continuous indices in the batch routines
(`_positions_to_indices_batch`): numpy replaces non-positive cell sizes by
`1.0` before dividing (`np.where(cell_sizes > 0, cell_sizes, 1.0)`). -/
def positionToIndexNp (wf : WindField K) (p : Vec3 K) : K × K × K :=
  let rel := Vec3.sub p wf.bounds_min
  let cs := wf.cellSize
  (rel.x / (if 0 < cs.x then cs.x else 1),
   rel.y / (if 0 < cs.y then cs.y else 1),
   rel.z / (if 0 < cs.z then cs.z else 1))

/-- Per-point computation of `_trilinear_interpolate_wind_batch` (elementwise
in numpy); it clips with `np.clip` instead of the scalar `max(min(...))`. -/
def windBatchPointwise (wf : WindField K) (p : Vec3 K) : Vec3 K :=
  let idx := wf.positionToIndexNp p
  let cx := corner (fun lo hi v => npClip v lo hi) wf.nx idx.1
  let cy := corner (fun lo hi v => npClip v lo hi) wf.ny idx.2.1
  let cz := corner (fun lo hi v => npClip v lo hi) wf.nz idx.2.2
  trilinearAccum wf.wind_data
    [(cx.1, 1 - cx.2.2), (cx.2.1, cx.2.2)]
    [(cy.1, 1 - cy.2.2), (cy.2.1, cy.2.2)]
    [(cz.1, 1 - cz.2.2), (cz.2.1, cz.2.2)]

/-- Per-point computation of `_trilinear_interpolate_turbulence_batch`. -/
def turbulenceBatchPointwise (wf : WindField K) (p : Vec3 K) : K :=
  let idx := wf.positionToIndexNp p
  let cx := corner (fun lo hi v => npClip v lo hi) wf.nx idx.1
  let cy := corner (fun lo hi v => npClip v lo hi) wf.ny idx.2.1
  let cz := corner (fun lo hi v => npClip v lo hi) wf.nz idx.2.2
  trilinearAccumS wf.turbulence_data
    [(cx.1, 1 - cx.2.2), (cx.2.1, cx.2.2)]
    [(cy.1, 1 - cy.2.2), (cy.2.1, cy.2.2)]
    [(cz.1, 1 - cz.2.2), (cz.2.1, cz.2.2)]

/-- Batched wind lookup (`get_wind_batch`); elementwise over the points. -/
def getWindBatch (wf : WindField K) (ps : List (Vec3 K)) : List (Vec3 K) :=
  ps.map wf.windBatchPointwise

/-- Batched turbulence lookup (`get_turbulence_batch`). -/
def getTurbulenceBatch (wf : WindField K) (ps : List (Vec3 K)) : List K :=
  ps.map wf.turbulenceBatchPointwise

/-- World position of the stored sample `(i, j, k)` of the regular grid. -/
def samplePos (wf : WindField K) (i j k : ℕ) : Vec3 K :=
  ⟨wf.bounds_min.x + (i : K) * wf.cellSize.x,
   wf.bounds_min.y + (j : K) * wf.cellSize.y,
   wf.bounds_min.z + (k : K) * wf.cellSize.z⟩

end WindField

/-- Modelled from the spec: the contract of section 4.4, which the wind lookup
is claimed to satisfy, is a nearest-neighbour lookup over the stored samples
(the velocity of the stored sample whose position is closest to the query;
first minimum in index order; compares squared distances, equivalent to
Euclidean). Used only to compare against the code's `getWindAt`. -/
def specNearestSampleVelocity {K : Type} [LinearOrderedField K] [FloorRing K]
    (wf : WindField K) (p : Vec3 K) : Option (Vec3 K) :=
  let idxs := (List.range wf.nx).flatMap fun i =>
    (List.range wf.ny).flatMap fun j =>
      (List.range wf.nz).map fun k => (i, j, k)
  (idxs.foldl (fun best c =>
    let d := Vec3.magSq (Vec3.sub (wf.samplePos c.1 c.2.1 c.2.2) p)
    match best with
    | none => some (c, d)
    | some (b, bd) => if d < bd then some (c, d) else some (b, bd)) none).map
      fun b => wf.wind_data b.1.1 b.1.2.1 b.1.2.2

/-! ## VoxelGrid and MeshCollisionChecker (`backend/data/stl_loader.py`) -/

/-- Voxel occupancy grid (`VoxelGrid`). Constructed once from the mesh; the
collision queries under scrutiny only read the stored fields, so the grid is
embedded as data. -/
structure VoxelGrid (K : Type) where
  voxel_size : K
  min_bounds : Vec3 K
  max_bounds : Vec3 K
  nx : ℕ
  ny : ℕ
  nz : ℕ
  occupied : ℕ → ℕ → ℕ → Bool

namespace VoxelGrid

variable {K : Type} [LinearOrderedField K] [FloorRing K]
variable [DecidableEq K] [∀ a b : K, Decidable (a < b)] [∀ a b : K, Decidable (a ≤ b)]

/-- Voxel indices of a position (`_pos_to_voxel` and the batch variant):
truncate `(pos - min) / voxel_size` and clip into the grid. -/
def posToVoxel (vg : VoxelGrid K) (p : Vec3 K) : ℕ × ℕ × ℕ :=
  ((npClip (pyInt ((p.x - vg.min_bounds.x) / vg.voxel_size)) 0 ((vg.nx : ℤ) - 1)).toNat,
   (npClip (pyInt ((p.y - vg.min_bounds.y) / vg.voxel_size)) 0 ((vg.ny : ℤ) - 1)).toNat,
   (npClip (pyInt ((p.z - vg.min_bounds.z) / vg.voxel_size)) 0 ((vg.nz : ℤ) - 1)).toNat)

/-- Componentwise strict out-of-bounds test
(`np.any(pos < min_bounds) or np.any(pos > max_bounds)`). -/
def outOfBounds (vg : VoxelGrid K) (p : Vec3 K) : Bool :=
  p.x < vg.min_bounds.x ∨ p.y < vg.min_bounds.y ∨ p.z < vg.min_bounds.z ∨
  vg.max_bounds.x < p.x ∨ vg.max_bounds.y < p.y ∨ vg.max_bounds.z < p.z

/-- Point occupancy (`point_occupied`): out-of-bounds points are free,
otherwise look up the clipped voxel. The per-sample test of the batch segment
query (`in_bounds` mask and gathered occupancy) computes the same value. -/
def pointOccupied (vg : VoxelGrid K) (p : Vec3 K) : Bool :=
  if vg.outOfBounds p then false
  else
    let v := vg.posToVoxel p
    vg.occupied v.1 v.2.1 v.2.2

/-- Fast-path rejection shared by `segment_intersects` and
`segments_intersect_batch`: segments entirely above the mesh or entirely
outside the XZ extent (with one voxel of margin) are definitively clear. -/
def fastClear (vg : VoxelGrid K) (a b : Vec3 K) : Bool :=
  (vg.max_bounds.y + vg.voxel_size < min a.y b.y) ∨
  (max a.x b.x < vg.min_bounds.x - vg.voxel_size) ∨
  (vg.max_bounds.x + vg.voxel_size < min a.x b.x) ∨
  (max a.z b.z < vg.min_bounds.z - vg.voxel_size) ∨
  (vg.max_bounds.z + vg.voxel_size < min a.z b.z)

/-- Sample parameter `k` of `np.linspace(0, 1, s)`. -/
def sampleT (s k : ℕ) : K :=
  if s ≤ 1 then 0 else (k : K) / ((s : K) - 1)

/-- Per-edge computation of `segments_intersect_batch` (the numpy code is
elementwise per edge): fast rejection, then `s` uniformly spaced samples, each
flagged when in bounds and in an occupied voxel, reduced with OR. -/
def segmentIntersectsSampled (vg : VoxelGrid K) (a b : Vec3 K) (s : ℕ) : Bool :=
  if vg.fastClear a b then false
  else
    (List.range s).any fun k =>
      let t : K := sampleT s k
      let pos := a.add ((b.sub a).smul t)
      vg.pointOccupied pos

/-- Batched segment query (`segments_intersect_batch`, default
`num_samples_per_edge = 5`); chunked callers concatenate elementwise results,
so chunking is the identity here. -/
def segmentsIntersectBatch (vg : VoxelGrid K) (edges : List (Vec3 K × Vec3 K))
    (s : ℕ := 5) : List Bool :=
  edges.map fun e => vg.segmentIntersectsSampled e.1 e.2 s

end VoxelGrid

/-- Single-segment DDA query (`segment_intersects`): sample count depends on
the real segment length, hence real-valued. -/
noncomputable def VoxelGrid.segmentIntersects (vg : VoxelGrid ℝ)
    (a b : Vec3 ℝ) : Bool :=
  if vg.fastClear a b then false
  else
    let direction := b.sub a
    let length := direction.magnitude
    if length < 1e-9 then vg.pointOccupied a
    else
      let step := vg.voxel_size * 0.5
      let numSteps := max 2 (pyInt (length / step) + 1)
      (List.range numSteps.toNat).any fun i =>
        let t : ℝ := if 1 < numSteps then (i : ℝ) / ((numSteps : ℝ) - 1) else 0
        let pos := a.add (direction.smul t)
        vg.pointOccupied pos

/-- Collision checker backed by the voxelized mesh (`MeshCollisionChecker`). -/
structure MeshCollisionChecker (K : Type) where
  voxel_grid : VoxelGrid K

namespace MeshCollisionChecker

variable {K : Type} [LinearOrderedField K] [FloorRing K]
variable [DecidableEq K] [∀ a b : K, Decidable (a < b)] [∀ a b : K, Decidable (a ≤ b)]

/-- Occupancy query (`point_in_building`). -/
def pointInBuilding (mc : MeshCollisionChecker K) (p : Vec3 K) : Bool :=
  mc.voxel_grid.pointOccupied p

/-- Batched edge validity (`edges_valid_batch`): the negation of the batched
segment query, and nothing else. -/
def edgesValidBatch (mc : MeshCollisionChecker K)
    (edges : List (Vec3 K × Vec3 K)) (s : ℕ := 5) : List Bool :=
  (mc.voxel_grid.segmentsIntersectBatch edges s).map fun b => !b

end MeshCollisionChecker

/-- Sequential edge query (`edge_intersects_building`). -/
noncomputable def MeshCollisionChecker.edgeIntersectsBuilding
    (mc : MeshCollisionChecker ℝ) (a b : Vec3 ℝ) : Bool :=
  mc.voxel_grid.segmentIntersects a b

/-- Sequential node-edge validity (`node_edge_valid`): both endpoints valid and
the segment between their positions clear. -/
noncomputable def MeshCollisionChecker.nodeEdgeValid
    (mc : MeshCollisionChecker ℝ) (a b : GridNode) : Bool :=
  if a.is_valid = false ∨ b.is_valid = false then false
  else !(mc.edgeIntersectsBuilding a.position.toR b.position.toR)

/-! ## NaiveRouter valid-edge precomputation (`backend/routing/naive_router.py`) -/

/-- The potential directed edges of the grid: for every valid node, every valid
in-bounds 26-neighbour, with both endpoint positions (shared by
`NaiveRouter.precompute_valid_edges` and both cost precomputations). -/
def potentialEdges (g : Grid3D) : List (ℕ × ℕ × Vec3 ℚ × Vec3 ℚ) :=
  g.validNodes.flatMap fun node =>
    (g.getNeighbors node).filterMap fun nb =>
      if nb.is_valid then some (node.id, nb.id, node.position, nb.position)
      else none

/-- The ValidEdgeSet computed by `NaiveRouter.precompute_valid_edges` with a
mesh collision checker (which always has the batch method): potential edges
surviving `edges_valid_batch`; the 100000-edge chunking concatenates
elementwise results and is the identity here. Without a checker every
potential edge is kept. -/
def precomputeValidEdges (g : Grid3D)
    (checker : Option (MeshCollisionChecker ℚ)) : List (ℕ × ℕ) :=
  match checker with
  | some mc =>
    (potentialEdges g).filterMap fun e =>
      if mc.voxel_grid.segmentIntersectsSampled e.2.2.1 e.2.2.2 5 then none
      else some (e.1, e.2.1)
  | none => (potentialEdges g).map fun e => (e.1, e.2.1)

/-! ## CostCalculator (`backend/routing/cost_calculator.py`)

The calculator owns the default component list (`DistanceCost`,
`HeadwindCost(tailwind_benefit)`, `TurbulenceCost(threshold, exponent)`); the
subclass machinery reduces to these parameters. The turbulence exponent is
used as a power (default `2.0`), embedded as a natural exponent, for which
Python float `**` coincides with iterated multiplication in the idealisation
(including `0.0 ** 0.0 = 1.0 = x ^ 0`). -/

/-- Weight configuration (`WeightConfig`); `__post_init__` rejects negative
weights, which the theorems carry as hypotheses. -/
structure WeightConfig where
  distance : ℝ
  headwind : ℝ
  turbulence : ℝ

/-- Preset `speed_priority`. -/
def WeightConfig.speedPriority : WeightConfig := ⟨0.3, 0.6, 0.1⟩

/-- Preset `distance_only`. -/
def WeightConfig.distanceOnly : WeightConfig := ⟨1, 0, 0⟩

/-- The cost calculator with its wind field, weights and component
parameters. -/
structure CostCalculator where
  wind_field : WindField ℝ
  weights : WeightConfig
  tailwind_benefit : ℝ
  threshold : ℝ
  exponent : ℕ

namespace CostCalculator

/-- The `headwind` component (`HeadwindCost.compute`). -/
noncomputable def headwindCost (cc : CostCalculator)
    (startPos endPos : Vec3 ℝ) (distance : ℝ) : ℝ :=
  if distance < 1e-6 then 0
  else
    let travelDir := (endPos.sub startPos).normalized
    let midpoint := (startPos.add endPos).smul 0.5
    let wind := cc.wind_field.getWindAt midpoint
    let windAlignment := wind.dot travelDir
    if windAlignment < 0 then -windAlignment * distance
    else -cc.tailwind_benefit * windAlignment * distance

/-- The `turbulence` component (`TurbulenceCost.compute`). -/
noncomputable def turbulenceCost (cc : CostCalculator)
    (startPos endPos : Vec3 ℝ) (distance : ℝ) : ℝ :=
  let turbStart := cc.wind_field.getTurbulenceAt startPos
  let turbEnd := cc.wind_field.getTurbulenceAt endPos
  let midpoint := (startPos.add endPos).smul 0.5
  let turbMid := cc.wind_field.getTurbulenceAt midpoint
  let maxTurb := max (max turbStart turbEnd) turbMid
  if maxTurb ≤ cc.threshold then 0
  else (maxTurb - cc.threshold) ^ cc.exponent * distance

/-- Weighted total edge cost (`compute_edge_cost`): weighted component sum in
component order, components with zero weight skipped, clamped to be
non-negative. -/
noncomputable def computeEdgeCost (cc : CostCalculator)
    (startPos endPos : Vec3 ℝ) : ℝ :=
  let distance := (endPos.sub startPos).magnitude
  let t1 := if cc.weights.distance = 0 then 0 else cc.weights.distance * distance
  let t2 := if cc.weights.headwind = 0 then 0
    else cc.weights.headwind * cc.headwindCost startPos endPos distance
  let t3 := if cc.weights.turbulence = 0 then 0
    else cc.weights.turbulence * cc.turbulenceCost startPos endPos distance
  max 0 (t1 + t2 + t3)

/-- Sequential edge-cost precomputation (`precompute_edge_costs`): for every
valid node and valid neighbour, gate with the sequential `node_edge_valid`
check when a collision checker is present, then store the directed cost keyed
by `(node.id, neighbor.id)` (dict embedded as an insertion-ordered
association list; each directed key is produced at most once). -/
noncomputable def precomputeEdgeCosts (cc : CostCalculator) (g : Grid3D)
    (checker : Option (MeshCollisionChecker ℝ)) : List ((ℕ × ℕ) × ℝ) :=
  g.validNodes.flatMap fun node =>
    (g.getNeighbors node).filterMap fun nb =>
      match checker with
      | some mc =>
        if mc.nodeEdgeValid node nb then
          some ((node.id, nb.id), cc.computeEdgeCost node.position.toR nb.position.toR)
        else none
      | none =>
        some ((node.id, nb.id), cc.computeEdgeCost node.position.toR nb.position.toR)

/-- Per-edge value of the vectorized batch cost computation of
`precompute_edge_costs_vectorized` (the numpy code is elementwise per edge):
distances via `np.sqrt` of the squared sum, travel directions divided by
`max(distance, 1e-6)`, components added when their weight is positive, final
`np.maximum(0, ·)` clamp. GPU acceleration is unavailable in the model, so
the CPU batch wind lookups are used, as in the source's fallback. -/
noncomputable def vectorizedEdgeCost (cc : CostCalculator)
    (startPos endPos : Vec3 ℝ) : ℝ :=
  let midpoint := (startPos.add endPos).smul 0.5
  let diff := endPos.sub startPos
  let distance := diff.magnitude
  let safeDistance := max distance 1e-6
  let travelDir := diff.sdiv safeDistance
  let t1 := if 0 < cc.weights.distance then cc.weights.distance * distance else 0
  let t2 := if 0 < cc.weights.headwind then
      let wind := cc.wind_field.windBatchPointwise midpoint
      let windAlignment := wind.dot travelDir
      let hw := if windAlignment < 0 then -windAlignment * distance
        else -cc.tailwind_benefit * windAlignment * distance
      cc.weights.headwind * hw
    else 0
  let t3 := if 0 < cc.weights.turbulence then
      let turbStart := cc.wind_field.turbulenceBatchPointwise startPos
      let turbEnd := cc.wind_field.turbulenceBatchPointwise endPos
      let turbMid := cc.wind_field.turbulenceBatchPointwise midpoint
      let maxTurb := max (max turbStart turbEnd) turbMid
      let excess := max 0 (maxTurb - cc.threshold)
      cc.weights.turbulence * (excess ^ cc.exponent * distance)
    else 0
  max 0 (t1 + t2 + t3)

/-- Vectorized edge-cost precomputation (`precompute_edge_costs_vectorized`):
collect the potential edges, gate with the batched `edges_valid_batch` filter
when a checker is present (chunking over 100000-edge slices concatenates
elementwise results), then store the batch-computed cost per surviving
directed edge (batch slices of the cost loop likewise concatenate). -/
noncomputable def precomputeEdgeCostsVectorized (cc : CostCalculator)
    (g : Grid3D) (checker : Option (MeshCollisionChecker ℝ)) :
    List ((ℕ × ℕ) × ℝ) :=
  let potential := potentialEdges g
  let edgeList := match checker with
    | some mc => potential.filter fun (e : ℕ × ℕ × Vec3 ℚ × Vec3 ℚ) =>
        !(mc.voxel_grid.segmentIntersectsSampled e.2.2.1.toR e.2.2.2.toR 5)
    | none => potential
  edgeList.map fun (e : ℕ × ℕ × Vec3 ℚ × Vec3 ℚ) =>
    ((e.1, e.2.1), cc.vectorizedEdgeCost e.2.2.1.toR e.2.2.2.toR)

end CostCalculator

/-! ## DijkstraRouter (`backend/routing/dijkstra.py`)

The router is embedded generically over the cost field (the stored float costs
are exact rationals; the router only adds and compares them). The priority
queue is a list popped at its lexicographic `(cost, node_id)` minimum, which
is the observable behaviour of `heapq` on such tuples. The `while pq` loop is
run on explicit fuel; `dijkstraLoop_sufficient` below proves the chosen fuel
is never exhausted, so the fuel-out branch is unreachable and the embedding
agrees with the source loop. -/

/-- Snapshot of the search state (`ExplorationFrame`). -/
structure ExplorationFrame (α : Type) where
  step : ℕ
  current_node_id : ℕ
  current_position : List ℚ
  visited_ids : List ℕ
  frontier_ids : List ℕ
  current_best_path : List (List ℚ)
  current_cost : α

/-- Result of pathfinding (`PathResult`); the `float('inf')` default of
`total_cost` is `⊤`. -/
structure PathResult (α : Type) where
  success : Bool
  path : List (Vec3 ℚ) := []
  path_node_ids : List ℕ := []
  total_cost : WithTop α := ⊤
  nodes_explored : ℕ := 0
  frames : List (ExplorationFrame α) := []

section Dijkstra

variable {α : Type} [LinearOrderedField α] [DecidableEq α]
variable [∀ a b : α, Decidable (a < b)] [∀ a b : α, Decidable (a ≤ b)]

/-- Remove the lexicographic minimum of the queue (`heapq.heappop` on
`(cost, node_id)` tuples). -/
def popMin : List (α × ℕ) → Option ((α × ℕ) × List (α × ℕ))
  | [] => none
  | e :: rest =>
    match popMin rest with
    | none => some (e, [])
    | some (m, others) =>
      if e.1 < m.1 ∨ (e.1 = m.1 ∧ e.2 ≤ m.2) then some (e, rest)
      else some (m, e :: others)

/-- Follow `previous` pointers from a node (the `while current is not None`
collection loop of `_reconstruct_path` and `_capture_frame`). The Python loop
terminates because `previous` encodes a tree rooted at the start node (an
invariant proved below); the fuel `totalNodes + 1` is enough for any chain of
distinct nodes. -/
def reconstructIds (previous : ℕ → Option ℕ) : ℕ → ℕ → List ℕ
  | 0, _ => []
  | fuel + 1, v =>
    v :: (match previous v with
          | none => []
          | some u => reconstructIds previous fuel u)

/-- Positions of a reconstructed id list (`_reconstruct_path`, second half). -/
def pathPositions (g : Grid3D) (ids : List ℕ) : List (Vec3 ℚ) :=
  ids.filterMap fun i => (g.getNodeById i).map GridNode.position

/-- Snapshot capture (`_capture_frame`); `list(set(...))` of the frontier is
embedded as deduplication in first-occurrence order. -/
def captureFrame (g : Grid3D) (stepN cur : ℕ) (c : α) (visited : List ℕ)
    (pq : List (α × ℕ)) (previous : ℕ → Option ℕ) : ExplorationFrame α :=
  let currentNode := g.getNodeById cur
  let frontier := ((pq.map Prod.snd).filter fun v => ¬ v ∈ visited).dedup
  let chain := reconstructIds previous (g.totalNodes + 1) cur
  let bestPath := (chain.filterMap fun v =>
    (g.getNodeById v).map fun n => [n.position.x, n.position.y, n.position.z]).reverse
  ⟨stepN, cur,
   (match currentNode with
    | some n => [n.position.x, n.position.y, n.position.z]
    | none => [0, 0, 0]),
   visited, frontier, bestPath, c⟩

/-- Mutable relaxation state inside the neighbour loop. -/
structure RelaxState (α : Type) where
  pq : List (α × ℕ)
  costs : ℕ → Option α
  previous : ℕ → Option ℕ

/-- Relaxation of one neighbour (the body of the `for neighbor_id` loop):
skip visited nodes and absent edges, otherwise push and record when the new
cost improves. -/
def relaxOne (table : ℕ → ℕ → Option α) (visited : List ℕ) (c : α) (cur : ℕ)
    (st : RelaxState α) (v : ℕ) : RelaxState α :=
  if v ∈ visited then st
  else
    match table cur v with
    | none => st
    | some w =>
      let newCost := c + w
      let improves := match st.costs v with
        | none => true
        | some dv => newCost < dv
      if improves then
        ⟨(newCost, v) :: st.pq,
         fun x => if x = v then some newCost else st.costs x,
         fun x => if x = v then some cur else st.previous x⟩
      else st

/-- The whole neighbour loop. -/
def relaxAll (table : ℕ → ℕ → Option α) (visited : List ℕ) (c : α) (cur : ℕ)
    (st : RelaxState α) (neighbors : List ℕ) : RelaxState α :=
  neighbors.foldl (relaxOne table visited c cur) st

/-- Full search state of the Dijkstra loop. -/
structure DijkstraState (α : Type) where
  pq : List (α × ℕ)
  costs : ℕ → Option α
  previous : ℕ → Option ℕ
  visited : List ℕ
  frames : List (ExplorationFrame α)
  step : ℕ

/-- The `while pq` loop of `_dijkstra`, on explicit fuel (`none` = fuel ran
out, proved unreachable for the fuel used by `findPath`). -/
def dijkstraLoop (g : Grid3D) (table : ℕ → ℕ → Option α) (startId endId : ℕ)
    (capture : Bool) (captureInterval : ℕ) :
    ℕ → DijkstraState α → Option (PathResult α)
  | fuel, st =>
    match popMin st.pq with
    | none =>
      some { success := false, nodes_explored := st.visited.length,
             frames := st.frames }
    | some ((c, cur), rest) =>
      match fuel with
      | 0 => none
      | fuel' + 1 =>
        if cur ∈ st.visited then
          dijkstraLoop g table startId endId capture captureInterval fuel'
            { st with pq := rest }
        else
          let visited' := st.visited ++ [cur]
          let frames' := if capture ∧ st.step % captureInterval = 0 then
              st.frames ++ [captureFrame g st.step cur c visited' rest st.previous]
            else st.frames
          let step' := st.step + 1
          if cur = endId then
            let ids := (reconstructIds st.previous (g.totalNodes + 1) endId).reverse
            let frames'' := if capture then
                frames' ++ [captureFrame g step' cur c visited' rest st.previous]
              else frames'
            some { success := true, path := pathPositions g ids,
                   path_node_ids := ids, total_cost := (c : WithTop α),
                   nodes_explored := visited'.length, frames := frames'' }
          else
            let r := relaxAll table visited' c cur
              ⟨rest, st.costs, st.previous⟩ (g.getNeighborIds cur)
            dijkstraLoop g table startId endId capture captureInterval fuel'
              { pq := r.pq, costs := r.costs, previous := r.previous,
                visited := visited', frames := frames', step := step' }

/-- Initial search state of `_dijkstra`. -/
def initState (startId : ℕ) : DijkstraState α :=
  { pq := [(0, startId)],
    costs := fun v => if v = startId then some 0 else none,
    previous := fun _ => none,
    visited := [], frames := [], step := 0 }

/-- Fuel sufficient for the loop (proved below): the measure
`27·(unvisited nodes) + |pq|` starts at `27·totalNodes + 1` and strictly
decreases every iteration. -/
def dijkstraFuel (g : Grid3D) : ℕ := 27 * g.totalNodes + 1

/-- Core search (`DijkstraRouter._dijkstra`). -/
def dijkstraRun (g : Grid3D) (table : ℕ → ℕ → Option α)
    (startId endId : ℕ) (capture : Bool) (captureInterval : ℕ) : PathResult α :=
  match dijkstraLoop g table startId endId capture captureInterval
      (dijkstraFuel g) (initState startId) with
  | some r => r
  | none => { success := false }

/-- Replacement of the first and last waypoint by the caller's exact
positions (`find_path`, post-processing). -/
def setEndpoints (l : List (Vec3 ℚ)) (a b : Vec3 ℚ) : List (Vec3 ℚ) :=
  (l.set 0 a).set (l.length - 1) b

/-- Wind-aware pathfinding (`DijkstraRouter.find_path`): snap both endpoints
with `get_node_at_position` (`prefer_valid` defaulted true), fail when either
snapped node is missing or invalid, run the search, and overwrite the first
and last waypoint positions. -/
def findPath (g : Grid3D) (table : ℕ → ℕ → Option α)
    (start endP : Vec3 ℚ) (capture : Bool := true)
    (captureInterval : ℕ := 20) : PathResult α :=
  match g.getNodeAtPosition start, g.getNodeAtPosition endP with
  | some sn, some en =>
    if sn.is_valid = false then { success := false }
    else if en.is_valid = false then { success := false }
    else
      let result := dijkstraRun g table sn.id en.id capture captureInterval
      if result.success ∧ result.path ≠ [] then
        { result with path := setEndpoints result.path start endP }
      else result
  | _, _ => { success := false }

end Dijkstra

/-! ## FlightSimulator (`backend/simulation/flight_simulator.py`) and the
streaming loop (`backend/server/websocket_server.py`) -/

/-- Simulation parameters (`SimulationParams`), with the source defaults. -/
structure SimulationParams where
  max_airspeed : ℝ := 15
  min_airspeed : ℝ := 5
  acceleration : ℝ := 3
  max_turn_rate : ℝ := 90
  waypoint_threshold : ℝ := 5
  timestep : ℝ := 0.1
  max_time : ℝ := 600
  base_effort : ℝ := 0.1
  headwind_effort_factor : ℝ := 0.05
  correction_effort_factor : ℝ := 0.02

/-- Drone state (`DroneState`). -/
structure DroneState where
  position : Vec3 ℝ
  velocity : Vec3 ℝ
  heading : Vec3 ℝ
  airspeed : ℝ
  target_waypoint_index : ℕ

/-- One emitted frame (`FlightFrame`). -/
structure FlightFrame where
  time : ℝ
  position : Vec3 ℝ
  velocity : Vec3 ℝ
  heading : Vec3 ℝ
  wind : Vec3 ℝ
  drift : Vec3 ℝ
  correction : Vec3 ℝ
  effort : ℝ
  airspeed : ℝ
  groundspeed : ℝ
  waypoint_index : ℕ
  distance_to_waypoint : ℝ

/-- Complete flight output (`FlightData`). -/
structure FlightData where
  frames : List FlightFrame := []
  total_time : ℝ := 0
  total_distance : ℝ := 0
  average_groundspeed : ℝ := 0
  average_effort : ℝ := 0
  max_effort : ℝ := 0
  completed : Bool := false
  waypoints_reached : ℕ := 0

/-- Degrees to radians (`math.radians`). -/
noncomputable def radians (d : ℝ) : ℝ := d * Real.pi / 180

/-- Unit direction between two points (`_direction_to`, identical in the
simulator and the server): the fixed `(1, 0, 0)` below length `1e-6`. -/
noncomputable def directionTo (a b : Vec3 ℝ) : Vec3 ℝ :=
  let diff := b.sub a
  let mag := diff.magnitude
  if mag < 1e-6 then ⟨1, 0, 0⟩ else diff.sdiv mag

/-- Crab-angle correction (`_compute_corrected_heading`; the simulator uses a
70-degree limit, the server a 30-degree limit, otherwise the bodies compute
the same values). Returns `(corrected_heading, correction_vector)`. -/
noncomputable def computeCorrectedHeading (maxCrabDeg : ℝ)
    (desired wind : Vec3 ℝ) (airspeed : ℝ) : Vec3 ℝ × Vec3 ℝ :=
  let windSpeed := wind.magnitude
  if windSpeed < 0.1 then (desired, Vec3.zero)
  else
    let windDotDesired := wind.dot desired
    let windParallel := desired.smul windDotDesired
    let windPerpendicular := wind.sub windParallel
    let perpSpeed := windPerpendicular.magnitude
    if perpSpeed < 0.1 then (desired, Vec3.zero)
    else
      let maxSin := Real.sin (radians maxCrabDeg)
      let sinCrab := min maxSin (perpSpeed / airspeed)
      let crabAngle := Real.arcsin sinCrab
      let correctionDirection := (windPerpendicular.smul (-1)).normalized
      let cosCrab := Real.cos crabAngle
      let corrected :=
        ((desired.smul cosCrab).add (correctionDirection.smul sinCrab)).normalized
      (corrected, correctionDirection.smul sinCrab)

/-- Turn-rate limiting (`FlightSimulator._turn_toward`). -/
noncomputable def turnToward (current target : Vec3 ℝ) (maxAngleDeg : ℝ) : Vec3 ℝ :=
  let d := max (-1 : ℝ) (min 1 (current.dot target))
  let angle := Real.arccos d
  if angle < 1e-6 then target
  else
    let maxRad := radians maxAngleDeg
    if angle ≤ maxRad then target
    else
      let t := maxRad / angle
      ((current.smul (1 - t)).add (target.smul t)).normalized

/-- Turn-rate limiting of the server (`WebSocketServer._turn_toward`): also
normalizes its inputs and breaks 180-degree symmetry with a perpendicular. -/
noncomputable def turnTowardWS (current target : Vec3 ℝ) (maxAngle : ℝ) : Vec3 ℝ :=
  let currentNorm := current.normalized
  let targetNorm := target.normalized
  if currentNorm.magnitude < 0.1 then
    (if 0.1 < targetNorm.magnitude then targetNorm else ⟨1, 0, 0⟩)
  else if targetNorm.magnitude < 0.1 then currentNorm
  else
    let d := max (-1 : ℝ) (min 1 (currentNorm.dot targetNorm))
    let angle := Real.arccos d
    if angle < 1e-6 then targetNorm
    else
      let maxRad := radians maxAngle
      if angle ≤ maxRad then targetNorm
      else
        let t := maxRad / angle
        let result := (currentNorm.smul (1 - t)).add (targetNorm.smul t)
        let result2 :=
          if result.magnitude < 0.1 then
            let perp := currentNorm.cross ⟨0, 1, 0⟩
            let perp2 := if perp.magnitude < 0.1 then currentNorm.cross ⟨1, 0, 0⟩ else perp
            (currentNorm.smul 0.7).add (perp2.normalized.smul 0.3)
          else result
        result2.normalized

/-- Effort model of the simulator (`_compute_effort`). -/
noncomputable def computeEffort (params : SimulationParams)
    (wind heading correction : Vec3 ℝ) : ℝ :=
  let headwind := max 0 (-(wind.dot heading))
  let headwindEffort := headwind / params.max_airspeed * 0.5
  let correctionEffort := min 1 correction.magnitude * 0.3
  let effort := params.base_effort + headwindEffort + correctionEffort
  min 1 (max 0 effort)

/-- Mutable state of the `while time < max_time` loop of
`FlightSimulator.simulate`. -/
structure SimLoopState where
  time : ℝ
  step : ℕ
  state : DroneState
  frames : List FlightFrame
  total_distance : ℝ
  total_effort : ℝ

/-- One iteration of the simulate loop; `none` means the loop breaks (all
waypoints reached). The position is updated before the frame is recorded, as
in the source. -/
noncomputable def simStep (wf : WindField ℝ) (params : SimulationParams)
    (waypoints : List (Vec3 ℝ)) (recordInterval : ℕ)
    (s : SimLoopState) : Option SimLoopState :=
  if waypoints.length ≤ s.state.target_waypoint_index then none
  else
    let target := waypoints.getD s.state.target_waypoint_index Vec3.zero
    let wind := wf.getWindAt s.state.position
    let toTarget := target.sub s.state.position
    let distanceToTarget := toTarget.magnitude
    let adv : Option (ℕ × Vec3 ℝ × ℝ) :=
      if distanceToTarget < params.waypoint_threshold then
        let idx2 := s.state.target_waypoint_index + 1
        if waypoints.length ≤ idx2 then none
        else
          let t2 := waypoints.getD idx2 Vec3.zero
          let toT2 := t2.sub s.state.position
          some (idx2, toT2, toT2.magnitude)
      else some (s.state.target_waypoint_index, toTarget, distanceToTarget)
    match adv with
    | none => none
    | some (idx, toT, dist) =>
      let desired := toT.normalized
      let hc := computeCorrectedHeading 70 desired wind s.state.airspeed
      let heading := turnToward s.state.heading hc.1
        (params.max_turn_rate * params.timestep)
      let airVelocity := heading.smul s.state.airspeed
      let groundVelocity := airVelocity.add wind
      let groundspeed := groundVelocity.magnitude
      let drift := if 0.1 < groundspeed then
          wind.sub (desired.smul (wind.dot desired))
        else Vec3.zero
      let effort := computeEffort params wind heading hc.2
      let oldPosition := s.state.position
      let newPosition := oldPosition.add (groundVelocity.smul params.timestep)
      let segmentDistance := (newPosition.sub oldPosition).magnitude
      let frame : FlightFrame :=
        { time := s.time, position := newPosition, velocity := groundVelocity,
          heading := heading, wind := wind, drift := drift, correction := hc.2,
          effort := effort, airspeed := s.state.airspeed,
          groundspeed := groundspeed, waypoint_index := idx,
          distance_to_waypoint := dist }
      let frames' := if s.step % recordInterval = 0 then s.frames ++ [frame]
        else s.frames
      some { time := s.time + params.timestep, step := s.step + 1,
             state := { position := newPosition, velocity := groundVelocity,
                        heading := heading, airspeed := s.state.airspeed,
                        target_waypoint_index := idx },
             frames := frames',
             total_distance := s.total_distance + segmentDistance,
             total_effort := s.total_effort + effort }

/-- Waypoint advance of the simulate step (named restatement of the branch of
`simStep`, definitionally equal). -/
noncomputable def simAdv (params : SimulationParams)
    (waypoints : List (Vec3 ℝ)) (s : SimLoopState) : Option (ℕ × Vec3 ℝ × ℝ) :=
  let target := waypoints.getD s.state.target_waypoint_index Vec3.zero
  let toTarget := target.sub s.state.position
  let distanceToTarget := toTarget.magnitude
  if distanceToTarget < params.waypoint_threshold then
    let idx2 := s.state.target_waypoint_index + 1
    if waypoints.length ≤ idx2 then none
    else
      let t2 := waypoints.getD idx2 Vec3.zero
      let toT2 := t2.sub s.state.position
      some (idx2, toT2, toT2.magnitude)
  else some (s.state.target_waypoint_index, toTarget, distanceToTarget)

/-- The frame the simulate step records. -/
noncomputable def simFrame (wf : WindField ℝ) (params : SimulationParams)
    (s : SimLoopState) (idx : ℕ) (toT : Vec3 ℝ) (dist : ℝ) : FlightFrame :=
  let wind := wf.getWindAt s.state.position
  let desired := toT.normalized
  let hc := computeCorrectedHeading 70 desired wind s.state.airspeed
  let heading := turnToward s.state.heading hc.1
    (params.max_turn_rate * params.timestep)
  let airVelocity := heading.smul s.state.airspeed
  let groundVelocity := airVelocity.add wind
  let groundspeed := groundVelocity.magnitude
  let drift := if 0.1 < groundspeed then
      wind.sub (desired.smul (wind.dot desired))
    else Vec3.zero
  let effort := computeEffort params wind heading hc.2
  let newPosition := s.state.position.add (groundVelocity.smul params.timestep)
  { time := s.time, position := newPosition, velocity := groundVelocity,
    heading := heading, wind := wind, drift := drift, correction := hc.2,
    effort := effort, airspeed := s.state.airspeed,
    groundspeed := groundspeed, waypoint_index := idx,
    distance_to_waypoint := dist }

/-- The successor state the simulate step produces. -/
noncomputable def simNext (wf : WindField ℝ) (params : SimulationParams)
    (recordInterval : ℕ) (s : SimLoopState) (idx : ℕ) (toT : Vec3 ℝ)
    (dist : ℝ) : SimLoopState :=
  let wind := wf.getWindAt s.state.position
  let desired := toT.normalized
  let hc := computeCorrectedHeading 70 desired wind s.state.airspeed
  let heading := turnToward s.state.heading hc.1
    (params.max_turn_rate * params.timestep)
  let airVelocity := heading.smul s.state.airspeed
  let groundVelocity := airVelocity.add wind
  let effort := computeEffort params wind heading hc.2
  let oldPosition := s.state.position
  let newPosition := oldPosition.add (groundVelocity.smul params.timestep)
  let segmentDistance := (newPosition.sub oldPosition).magnitude
  { time := s.time + params.timestep, step := s.step + 1,
    state := { position := newPosition, velocity := groundVelocity,
               heading := heading, airspeed := s.state.airspeed,
               target_waypoint_index := idx },
    frames := if s.step % recordInterval = 0 then
        s.frames ++ [simFrame wf params s idx toT dist]
      else s.frames,
    total_distance := s.total_distance + segmentDistance,
    total_effort := s.total_effort + effort }

/-- The simulate loop on explicit fuel; the boolean is true when fuel ran out
with the loop guard still holding (proved impossible for the fuel used by
`simulate` when the timestep is positive). -/
noncomputable def simLoop (wf : WindField ℝ) (params : SimulationParams)
    (waypoints : List (Vec3 ℝ)) (recordInterval : ℕ) :
    ℕ → SimLoopState → SimLoopState × Bool
  | fuel, s =>
    if s.time < params.max_time then
      match fuel with
      | 0 => (s, true)
      | fuel' + 1 =>
        match simStep wf params waypoints recordInterval s with
        | none => (s, false)
        | some s' => simLoop wf params waypoints recordInterval fuel' s'
    else (s, false)

/-- Fuel for the simulate loop: the iteration count the spec guarantees. -/
noncomputable def simFuel (params : SimulationParams) : ℕ :=
  ⌈params.max_time / params.timestep⌉₊

/-- Maximum effort over the frames (`max(..., default=0)`; efforts are clamped
non-negative so the fold with initial 0 agrees). -/
noncomputable def maxEffortOf (l : List FlightFrame) : ℝ :=
  l.foldl (fun m f => max m f.effort) 0

/-- Initial drone state of `simulate`. -/
noncomputable def simInit (params : SimulationParams)
    (waypoints : List (Vec3 ℝ)) : SimLoopState :=
  { time := 0, step := 0,
    state := { position := waypoints.getD 0 Vec3.zero,
               velocity := Vec3.zero,
               heading := directionTo (waypoints.getD 0 Vec3.zero)
                 (waypoints.getD 1 Vec3.zero),
               airspeed := params.max_airspeed,
               target_waypoint_index := 1 },
    frames := [], total_distance := 0, total_effort := 0 }

/-- Whole-flight simulation (`FlightSimulator.simulate`). -/
noncomputable def simulate (wf : WindField ℝ) (params : SimulationParams)
    (waypoints : List (Vec3 ℝ)) (recordInterval : ℕ := 1) : FlightData :=
  if waypoints.length < 2 then { completed := false }
  else
    let r := simLoop wf params waypoints recordInterval (simFuel params)
      (simInit params waypoints)
    let s := r.1
    { frames := s.frames, total_time := s.time,
      total_distance := s.total_distance,
      average_groundspeed := s.total_distance / max 0.1 s.time,
      average_effort := s.total_effort / max 1 (s.step : ℝ),
      max_effort := maxEffortOf s.frames,
      completed := decide (waypoints.length ≤ s.state.target_waypoint_index),
      waypoints_reached := s.state.target_waypoint_index }

/-! ### Streaming loop (`WebSocketServer.stream_simulation`) -/

/-- Dynamic airspeed of the streaming loop (`websocket_server.py`, lines
817-826): `headwind_component = -wind·desired`,
`required = headwind_component + min_desired_groundspeed`,
`airspeed = max(base, min(max_boost, required))`. -/
noncomputable def dynamicAirspeed (wind desired : Vec3 ℝ)
    (baseAirspeed maxBoostAirspeed minDesiredGroundspeed : ℝ) : ℝ :=
  let headwindComponent := -(wind.dot desired)
  let requiredAirspeed := headwindComponent + minDesiredGroundspeed
  max baseAirspeed (min maxBoostAirspeed requiredAirspeed)

/-- Waypoint-advance loop of the streaming step (`while distance_to_target <
threshold`): each pass increments the index; it stops when the index leaves
the path or, via the skip counter, after 101 passes — the fuel argument,
started at 101, is that counter. Returns `(index, target, to_target,
distance)`. -/
noncomputable def advanceWaypoints (path : List (Vec3 ℝ)) (threshold : ℝ)
    (pos : Vec3 ℝ) : ℕ → ℕ → Vec3 ℝ → Vec3 ℝ → ℝ → ℕ × Vec3 ℝ × Vec3 ℝ × ℝ
  | fuel, idx, target, toT, dist =>
    if dist < threshold then
      match fuel with
      | 0 => (idx, target, toT, dist)
      | fuel' + 1 =>
        let idx' := idx + 1
        if path.length ≤ idx' then (idx', target, toT, dist)
        else
          let t' := path.getD idx' Vec3.zero
          let toT' := t'.sub pos
          advanceWaypoints path threshold pos fuel' idx' t' toT' toT'.magnitude
    else (idx, target, toT, dist)

/-- Mutable state of the streaming loop. -/
structure StreamState where
  time : ℝ
  step : ℕ
  state : DroneState
  frames : List FlightFrame

/-- One iteration of `stream_simulation`'s `while time < max_time` loop;
`none` means the loop breaks (all waypoints reached). The frame is recorded
before the position update, as in the source; the NaN/Inf guard of the source
is identically false in exact arithmetic and is omitted. -/
noncomputable def streamStep (wf : WindField ℝ)
    (baseAirspeed maxBoost minDesired timestep maxTurnRate threshold : ℝ)
    (path : List (Vec3 ℝ)) (s : StreamState) : Option StreamState :=
  if path.length ≤ s.state.target_waypoint_index then none
  else
    let target := path.getD s.state.target_waypoint_index Vec3.zero
    let wind := wf.getWindAt s.state.position
    let toTarget := target.sub s.state.position
    let adv := advanceWaypoints path threshold s.state.position 101
      s.state.target_waypoint_index target toTarget toTarget.magnitude
    if path.length ≤ adv.1 then none
    else
      let desired0 := adv.2.2.1.normalized
      let desired1 := if desired0.magnitude < 0.1 then s.state.heading else desired0
      let desired2 := if desired1.magnitude < 0.1 then
          ((path.getD (path.length - 1) Vec3.zero).sub s.state.position).normalized
        else desired1
      let desired := if desired2.magnitude < 0.1 then ⟨-1, 0, 0⟩ else desired2
      let airspeed := dynamicAirspeed wind desired baseAirspeed maxBoost minDesired
      let hc := computeCorrectedHeading 30 desired wind airspeed
      let heading1 := turnTowardWS s.state.heading hc.1 (maxTurnRate * timestep)
      let heading := if heading1.magnitude < 0.1 then desired else heading1
      let airVelocity := heading.smul airspeed
      let groundVelocity0 := airVelocity.add wind
      let groundspeed0 := groundVelocity0.magnitude
      let gv : Vec3 ℝ × ℝ := if groundspeed0 < 10 then (desired.smul 10, 10)
        else (groundVelocity0, groundspeed0)
      let drift := if 0.1 < gv.2 then wind.sub (desired.smul (wind.dot desired))
        else Vec3.zero
      let headwind := max 0 (-(wind.dot heading))
      let headwindEffort := headwind / baseAirspeed * 0.3
      let correctionEffort := min 1 hc.2.magnitude * 0.2
      let boostFrac := (airspeed - baseAirspeed) / (maxBoost - baseAirspeed)
      let boostEffort := max 0 boostFrac * 0.4
      let effort := min 1 (0.1 + headwindEffort + correctionEffort + boostEffort)
      let frame : FlightFrame :=
        { time := s.time, position := s.state.position, velocity := gv.1,
          heading := heading, wind := wind, drift := drift, correction := hc.2,
          effort := effort, airspeed := airspeed, groundspeed := gv.2,
          waypoint_index := adv.1, distance_to_waypoint := adv.2.2.2 }
      let oldPosition := s.state.position
      let newPosition0 := oldPosition.add (gv.1.smul timestep)
      let movement := (newPosition0.sub oldPosition).magnitude
      let np : Vec3 ℝ × Vec3 ℝ := if movement < 0.05 then
          let finalTarget := path.getD (path.length - 1) Vec3.zero
          let toFinal0 := (finalTarget.sub oldPosition).normalized
          let toFinal := if toFinal0.magnitude < 0.1 then ⟨-1, 0, 0⟩ else toFinal0
          (oldPosition.add (toFinal.smul 0.5), toFinal)
        else (newPosition0, heading)
      some { time := s.time + timestep, step := s.step + 1,
             state := { position := np.1, velocity := gv.1, heading := np.2,
                        airspeed := airspeed, target_waypoint_index := adv.1 },
             frames := s.frames ++ [frame] }

/-- The streaming loop on explicit fuel, analogous to `simLoop`. -/
noncomputable def streamLoop (wf : WindField ℝ)
    (baseAirspeed maxBoost minDesired timestep maxTurnRate threshold maxTime : ℝ)
    (path : List (Vec3 ℝ)) : ℕ → StreamState → StreamState × Bool
  | fuel, s =>
    if s.time < maxTime then
      match fuel with
      | 0 => (s, true)
      | fuel' + 1 =>
        match streamStep wf baseAirspeed maxBoost minDesired timestep maxTurnRate
            threshold path s with
        | none => (s, false)
        | some s' => streamLoop wf baseAirspeed maxBoost minDesired timestep
            maxTurnRate threshold maxTime path fuel' s'
    else (s, false)

/-! ### Named forms of the streaming step's intermediate values (definitionally
equal restatements of `streamStep`'s branches, for reasoning about it without
expanding the let chain) -/

/-- Wind sampled by the streaming step. -/
noncomputable def streamWind (wf : WindField ℝ) (s : StreamState) : Vec3 ℝ :=
  wf.getWindAt s.state.position

/-- Waypoint advance performed by the streaming step. -/
noncomputable def streamAdv (th : ℝ) (path : List (Vec3 ℝ))
    (s : StreamState) : ℕ × Vec3 ℝ × Vec3 ℝ × ℝ :=
  advanceWaypoints path th s.state.position 101 s.state.target_waypoint_index
    (path.getD s.state.target_waypoint_index Vec3.zero)
    ((path.getD s.state.target_waypoint_index Vec3.zero).sub s.state.position)
    (((path.getD s.state.target_waypoint_index Vec3.zero).sub
      s.state.position).magnitude)

/-- Desired direction of the streaming step (with its three fallbacks). -/
noncomputable def streamDesired (th : ℝ) (path : List (Vec3 ℝ))
    (s : StreamState) : Vec3 ℝ :=
  let adv := streamAdv th path s
  let desired0 := adv.2.2.1.normalized
  let desired1 := if desired0.magnitude < 0.1 then s.state.heading else desired0
  let desired2 := if desired1.magnitude < 0.1 then
      ((path.getD (path.length - 1) Vec3.zero).sub s.state.position).normalized
    else desired1
  if desired2.magnitude < 0.1 then ⟨-1, 0, 0⟩ else desired2

/-- The frame the streaming step emits. -/
noncomputable def streamFrame (wf : WindField ℝ)
    (base maxBoost minD ts mtr th : ℝ) (path : List (Vec3 ℝ))
    (s : StreamState) : FlightFrame :=
  let wind := streamWind wf s
  let adv := streamAdv th path s
  let desired := streamDesired th path s
  let airspeed := dynamicAirspeed wind desired base maxBoost minD
  let hc := computeCorrectedHeading 30 desired wind airspeed
  let heading1 := turnTowardWS s.state.heading hc.1 (mtr * ts)
  let heading := if heading1.magnitude < 0.1 then desired else heading1
  let airVelocity := heading.smul airspeed
  let groundVelocity0 := airVelocity.add wind
  let groundspeed0 := groundVelocity0.magnitude
  let gv : Vec3 ℝ × ℝ := if groundspeed0 < 10 then (desired.smul 10, 10)
    else (groundVelocity0, groundspeed0)
  let drift := if 0.1 < gv.2 then wind.sub (desired.smul (wind.dot desired))
    else Vec3.zero
  let headwind := max 0 (-(wind.dot heading))
  let headwindEffort := headwind / base * 0.3
  let correctionEffort := min 1 hc.2.magnitude * 0.2
  let boostFrac := (airspeed - base) / (maxBoost - base)
  let boostEffort := max 0 boostFrac * 0.4
  let effort := min 1 (0.1 + headwindEffort + correctionEffort + boostEffort)
  { time := s.time, position := s.state.position, velocity := gv.1,
    heading := heading, wind := wind, drift := drift, correction := hc.2,
    effort := effort, airspeed := airspeed, groundspeed := gv.2,
    waypoint_index := adv.1, distance_to_waypoint := adv.2.2.2 }

/-- The successor state the streaming step produces. -/
noncomputable def streamNext (wf : WindField ℝ)
    (base maxBoost minD ts mtr th : ℝ) (path : List (Vec3 ℝ))
    (s : StreamState) : StreamState :=
  let wind := streamWind wf s
  let adv := streamAdv th path s
  let desired := streamDesired th path s
  let airspeed := dynamicAirspeed wind desired base maxBoost minD
  let hc := computeCorrectedHeading 30 desired wind airspeed
  let heading1 := turnTowardWS s.state.heading hc.1 (mtr * ts)
  let heading := if heading1.magnitude < 0.1 then desired else heading1
  let airVelocity := heading.smul airspeed
  let groundVelocity0 := airVelocity.add wind
  let groundspeed0 := groundVelocity0.magnitude
  let gv : Vec3 ℝ × ℝ := if groundspeed0 < 10 then (desired.smul 10, 10)
    else (groundVelocity0, groundspeed0)
  let oldPosition := s.state.position
  let newPosition0 := oldPosition.add (gv.1.smul ts)
  let movement := (newPosition0.sub oldPosition).magnitude
  let np : Vec3 ℝ × Vec3 ℝ := if movement < 0.05 then
      let finalTarget := path.getD (path.length - 1) Vec3.zero
      let toFinal0 := (finalTarget.sub oldPosition).normalized
      let toFinal := if toFinal0.magnitude < 0.1 then ⟨-1, 0, 0⟩ else toFinal0
      (oldPosition.add (toFinal.smul 0.5), toFinal)
    else (newPosition0, heading)
  { time := s.time + ts, step := s.step + 1,
    state := { position := np.1, velocity := gv.1, heading := np.2,
               airspeed := airspeed, target_waypoint_index := adv.1 },
    frames := s.frames ++ [streamFrame wf base maxBoost minD ts mtr th path s] }

/-- Sum of consecutive frame distances for the summary. -/
noncomputable def framesDistance (l : List FlightFrame) : ℝ :=
  (l.zip l.tail).foldl (fun acc p => acc + (p.2.position.sub p.1.position).magnitude) 0

/-- The per-route streaming simulation (`stream_simulation`): dynamic-airspeed
parameters `base = config.drone_airspeed`, `max_boost = 200`,
`min_desired_groundspeed = 15`, turn rate 360 deg/s, waypoint threshold 5,
`max_time` from the default parameters (600 s). -/
noncomputable def streamSimulation (wf : WindField ℝ)
    (baseAirspeed timestep maxTime : ℝ) (path : List (Vec3 ℝ)) : FlightData :=
  if path.length < 2 then { completed := true, waypoints_reached := path.length }
  else
    let init : StreamState :=
      { time := 0, step := 0,
        state := { position := path.getD 0 Vec3.zero, velocity := Vec3.zero,
                   heading := directionTo (path.getD 0 Vec3.zero)
                     (path.getD 1 Vec3.zero),
                   airspeed := baseAirspeed, target_waypoint_index := 1 },
        frames := [] }
    let r := streamLoop wf baseAirspeed 200 15 timestep 360 5 maxTime path
      (⌈maxTime / timestep⌉₊) init
    let s := r.1
    { frames := s.frames, total_time := s.time,
      total_distance := framesDistance s.frames,
      average_groundspeed := framesDistance s.frames / max 0.1 s.time,
      average_effort := (s.frames.foldl (fun a f => a + f.effort) 0) /
        max 1 (s.frames.length : ℝ),
      max_effort := maxEffortOf s.frames,
      completed := decide (path.length ≤ s.state.target_waypoint_index),
      waypoints_reached := s.state.target_waypoint_index }

/-! ## Spec-level predicates and concrete instances used by the theorems -/

/-- Sum of the stored directed edge costs along a node-id sequence; `none`
when some consecutive pair is not in the table. A path of fewer than two
nodes has cost 0. -/
def pathSum {α : Type} [LinearOrderedField α] (table : ℕ → ℕ → Option α) :
    List ℕ → Option α
  | [] => some 0
  | [_] => some 0
  | u :: v :: rest =>
    (table u v).bind fun w => (pathSum table (v :: rest)).map fun d => w + d

/-- Association-list lookup for edge-cost tables produced by the
precomputations (first binding wins, as in a dict built without duplicate
keys). -/
def tableLookup {α : Type} (l : List ((ℕ × ℕ) × α)) (u v : ℕ) : Option α :=
  (l.find? fun kv => kv.1 = (u, v)).map Prod.snd

/-- Counterexample wind field for the nearest-neighbour claim: two samples on
the x axis, velocities `(0,0,0)` at `x = 0` and `(8,0,0)` at `x = 10`. -/
def cexWindField : WindField ℚ :=
  { wind_data := fun i _ _ => if i = 0 then ⟨0, 0, 0⟩ else ⟨8, 0, 0⟩,
    turbulence_data := fun _ _ _ => 0,
    bounds_min := ⟨0, 0, 0⟩, bounds_max := ⟨10, 0, 0⟩,
    nx := 2, ny := 1, nz := 1 }

/-- Query position strictly between the two samples, nearer to the first. -/
def cexWindQuery : Vec3 ℚ := ⟨5/2, 0, 0⟩

/-- Rational wind field with positive cell sizes (2×2×2 samples over
`[0,10]³`), for evaluating the interpolation at a stored sample. -/
def witSampleField : WindField ℚ :=
  { wind_data := fun i j k => ⟨(i : ℚ) + 7, (j : ℚ) - 3, (k : ℚ) * 2⟩,
    turbulence_data := fun _ _ _ => 0,
    bounds_min := ⟨0, 0, 0⟩, bounds_max := ⟨10, 10, 10⟩,
    nx := 2, ny := 2, nz := 2 }

/-- Counterexample voxel grid for the batch-validity claim: a fully occupied
2×2×2 grid over `[0,10]³`. -/
def cexVoxelGrid : VoxelGrid ℚ :=
  { voxel_size := 5, min_bounds := ⟨0, 0, 0⟩, max_bounds := ⟨10, 10, 10⟩,
    nx := 2, ny := 2, nz := 2, occupied := fun _ _ _ => true }

/-- An edge flying entirely above the counterexample voxel grid. -/
def cexHighEdge : Vec3 ℚ × Vec3 ℚ := (⟨0, 100, 0⟩, ⟨10, 100, 0⟩)

/-- Two-node grid (nodes at `(0,0,0)` and `(20,0,0)`, resolution 20) used to
compare the two edge-cost precomputations. -/
def cexGrid : Grid3D :=
  { bounds_min := ⟨0, 0, 0⟩, bounds_max := ⟨20, 0, 0⟩, resolution := 20,
    valid := fun _ => true }

/-- Voxel grid whose single occupied voxel spans `x ∈ [2,3]`: the sequential
9-sample segment query of the 20 m edge hits it at `x = 2.5`, while all five
batch samples `x ∈ {0,5,10,15,20}` fall outside its bounds. -/
def cexNarrowVoxel : VoxelGrid ℝ :=
  { voxel_size := 5, min_bounds := ⟨2, 0, 0⟩, max_bounds := ⟨3, 5, 5⟩,
    nx := 1, ny := 1, nz := 1, occupied := fun _ _ _ => true }

/-- Collision checker over the narrow voxel grid. -/
def cexChecker : MeshCollisionChecker ℝ := ⟨cexNarrowVoxel⟩

/-- Trivial real-valued wind field (calm air, one sample). -/
def calmWindField : WindField ℝ :=
  { wind_data := fun _ _ _ => ⟨0, 0, 0⟩, turbulence_data := fun _ _ _ => 0,
    bounds_min := ⟨0, 0, 0⟩, bounds_max := ⟨1, 1, 1⟩, nx := 1, ny := 1, nz := 1 }

/-- Distance-only cost calculator over calm air, with the default component
parameters. -/
def cexCalc : CostCalculator :=
  { wind_field := calmWindField, weights := WeightConfig.distanceOnly,
    tailwind_benefit := 0.5, threshold := 0.2, exponent := 2 }

/-- Well-formed real-valued wind field with positive cell sizes (2×2×2 samples
over `[0,100]³`), for the precomputation-agreement witness. -/
def witWindField : WindField ℝ :=
  { wind_data := fun _ _ _ => ⟨3, 0, 4⟩, turbulence_data := fun _ _ _ => 0,
    bounds_min := ⟨0, 0, 0⟩, bounds_max := ⟨100, 100, 100⟩,
    nx := 2, ny := 2, nz := 2 }

/-- Cost calculator for the precomputation-agreement witness. -/
def witCalc : CostCalculator :=
  { wind_field := witWindField, weights := WeightConfig.speedPriority,
    tailwind_benefit := 0.5, threshold := 0.2, exponent := 2 }

/-- Three-node line grid (resolution 1 over `[0,2]` on the x axis) with the
middle node invalid; exercises the shell search. -/
def witSnapGrid : Grid3D :=
  { bounds_min := ⟨0, 0, 0⟩, bounds_max := ⟨2, 0, 0⟩, resolution := 1,
    valid := fun i => i ≠ 1 }

/-- Three-node line grid with every node valid, for the Dijkstra witness. -/
def witRouteGrid : Grid3D :=
  { bounds_min := ⟨0, 0, 0⟩, bounds_max := ⟨2, 0, 0⟩, resolution := 1,
    valid := fun _ => true }

/-- Edge-cost table on `witRouteGrid`: unit costs on `0 ↔ 1`, cost 2 on
`1 ↔ 2`; every key joins 26-neighbours. -/
def witRouteTable : ℕ → ℕ → Option ℚ := fun u v =>
  if (u, v) = (0, 1) then some 1
  else if (u, v) = (1, 0) then some 1
  else if (u, v) = (1, 2) then some 2
  else if (u, v) = (2, 1) then some 2
  else none

/-! ## General lemmas -/

theorem Vec3.ext_iff {K : Type} {a b : Vec3 K} :
    a = b ↔ a.x = b.x ∧ a.y = b.y ∧ a.z = b.z := by
  cases a; cases b; simp

theorem Vec3.magnitude_nonneg (a : Vec3 ℝ) : 0 ≤ a.magnitude :=
  Real.sqrt_nonneg _

theorem Vec3.magnitude_eq_sqrt_magSq (a : Vec3 ℝ) :
    a.magnitude = Real.sqrt a.magSq := rfl

theorem Vec3.magSq_nonneg {K : Type} [LinearOrderedField K] (a : Vec3 K) :
    0 ≤ a.magSq := by
  unfold Vec3.magSq
  positivity

/-- Magnitude comparisons coincide with squared-magnitude comparisons. -/
theorem Vec3.magnitude_lt_magnitude_iff (a b : Vec3 ℝ) :
    a.magnitude < b.magnitude ↔ a.magSq < b.magSq := by
  rw [Vec3.magnitude_eq_sqrt_magSq, Vec3.magnitude_eq_sqrt_magSq]
  exact Real.sqrt_lt_sqrt_iff a.magSq_nonneg

theorem Vec3.magnitude_le_magnitude_iff (a b : Vec3 ℝ) :
    a.magnitude ≤ b.magnitude ↔ a.magSq ≤ b.magSq := by
  rw [← not_lt, ← not_lt, Vec3.magnitude_lt_magnitude_iff b a]

/-! ## C10 — totality of Vector3.normalized -/

/-- C10: `Vector3.normalized` is total: below magnitude `1e-9` it returns the
zero vector instead of dividing, otherwise it returns the vector divided by
its magnitude, and in that branch the magnitude is nonzero, so no division by
zero can occur. -/
theorem normalized_total (v : Vec3 ℝ) :
    (v.magnitude < 1e-9 → v.normalized = ⟨0, 0, 0⟩) ∧
    (¬ v.magnitude < 1e-9 →
      v.normalized = v.sdiv v.magnitude ∧ v.magnitude ≠ 0) := by
  constructor
  · intro h
    simp only [Vec3.normalized, if_pos h]
  · intro h
    refine ⟨by simp only [Vec3.normalized, if_neg h], ?_⟩
    have h9 : (1e-9 : ℝ) ≤ v.magnitude := not_lt.mp h
    have : (0 : ℝ) < 1e-9 := by norm_num
    linarith [this.trans_le h9]

/-- Witness for C10 at `v = (3, 4, 0)` (magnitude 5). -/
theorem normalized_total_witness :
    ¬ (Vec3.mk (3:ℝ) 4 0).magnitude < 1e-9 ∧
      (Vec3.mk (3:ℝ) 4 0).normalized =
        Vec3.sdiv ⟨3, 4, 0⟩ (Vec3.mk (3:ℝ) 4 0).magnitude := by
  have hm : (Vec3.mk (3:ℝ) 4 0).magnitude = 5 := by
    unfold Vec3.magnitude
    rw [show (3:ℝ)^2 + 4^2 + 0^2 = 5^2 by norm_num]
    exact Real.sqrt_sq (by norm_num)
  have hlt : ¬ (Vec3.mk (3:ℝ) 4 0).magnitude < 1e-9 := by
    rw [hm]; norm_num
  exact ⟨hlt, ((normalized_total ⟨3, 4, 0⟩).2 hlt).1⟩

/-! ## C2 — non-negativity of every produced edge cost -/

/-- C2: for every grid, wind field and non-negative weight configuration,
every edge-cost value produced by `compute_edge_cost`, by
`precompute_edge_costs` and by `precompute_edge_costs_vectorized` — hence
every value stored in the edge-cost table — is at least 0, even when the
tailwind benefit makes the headwind component negative. -/
theorem edge_costs_nonneg (cc : CostCalculator) (g : Grid3D)
    (checker : Option (MeshCollisionChecker ℝ))
    (hd : 0 ≤ cc.weights.distance) (hh : 0 ≤ cc.weights.headwind)
    (ht : 0 ≤ cc.weights.turbulence) :
    (∀ s e : Vec3 ℝ, 0 ≤ cc.computeEdgeCost s e) ∧
    (∀ kv ∈ cc.precomputeEdgeCosts g checker, 0 ≤ kv.2) ∧
    (∀ kv ∈ cc.precomputeEdgeCostsVectorized g checker, 0 ≤ kv.2) := by
  have hcompute : ∀ s e : Vec3 ℝ, 0 ≤ cc.computeEdgeCost s e := by
    intro s e
    unfold CostCalculator.computeEdgeCost
    exact le_max_left 0 _
  have hvec : ∀ s e : Vec3 ℝ, 0 ≤ cc.vectorizedEdgeCost s e := by
    intro s e
    unfold CostCalculator.vectorizedEdgeCost
    exact le_max_left 0 _
  refine ⟨hcompute, ?_, ?_⟩
  · intro kv hkv
    unfold CostCalculator.precomputeEdgeCosts at hkv
    rw [List.mem_flatMap] at hkv
    obtain ⟨node, -, hmem⟩ := hkv
    rw [List.mem_filterMap] at hmem
    obtain ⟨nb, -, hsome⟩ := hmem
    rcases checker with _ | mc
    · dsimp only at hsome
      simp only [Option.some.injEq] at hsome
      rw [← hsome]
      exact hcompute _ _
    · dsimp only at hsome
      by_cases hvalid : mc.nodeEdgeValid node nb = true
      · simp only [hvalid, if_true, Option.some.injEq] at hsome
        rw [← hsome]
        exact hcompute _ _
      · rw [if_neg hvalid] at hsome
        cases hsome
  · intro kv hkv
    unfold CostCalculator.precomputeEdgeCostsVectorized at hkv
    rw [List.mem_map] at hkv
    obtain ⟨e, -, hsome⟩ := hkv
    rw [← hsome]
    exact hvec _ _

/-- Witness for C2 at the speed-priority weights over the two-node grid. -/
theorem edge_costs_nonneg_witness :
    (0 ≤ witCalc.weights.distance ∧ 0 ≤ witCalc.weights.headwind ∧
      0 ≤ witCalc.weights.turbulence) ∧
    ∀ kv ∈ witCalc.precomputeEdgeCostsVectorized cexGrid none, 0 ≤ kv.2 := by
  have hd : (0:ℝ) ≤ witCalc.weights.distance := by
    norm_num [witCalc, WeightConfig.speedPriority]
  have hh : (0:ℝ) ≤ witCalc.weights.headwind := by
    norm_num [witCalc, WeightConfig.speedPriority]
  have ht : (0:ℝ) ≤ witCalc.weights.turbulence := by
    norm_num [witCalc, WeightConfig.speedPriority]
  exact ⟨⟨hd, hh, ht⟩, (edge_costs_nonneg witCalc cexGrid none hd hh ht).2.2⟩

/-! ## C4 — the wind lookup interpolates; it is not nearest-neighbour -/

/-- C4 counterexample: at the query `(2.5, 0, 0)` between the two stored
samples, `get_wind_at` returns the trilinear blend `(2, 0, 0)`, which differs
from the nearest stored sample's velocity `(0, 0, 0)` and indeed from every
stored sample velocity — refuting the claim that the lookup returns the
velocity of the nearest stored sample with no interpolation. -/
theorem wind_lookup_not_nearest_cex :
    WindField.getWindAt cexWindField cexWindQuery = ⟨2, 0, 0⟩ ∧
    specNearestSampleVelocity cexWindField cexWindQuery = some ⟨0, 0, 0⟩ ∧
    WindField.getWindAt cexWindField cexWindQuery ≠ ⟨0, 0, 0⟩ ∧
    (∀ i, i < cexWindField.nx → ∀ j, j < cexWindField.ny →
      ∀ k, k < cexWindField.nz →
        WindField.getWindAt cexWindField cexWindQuery ≠
          cexWindField.wind_data i j k) := by
  have hidx : cexWindField.positionToIndex cexWindQuery = (1/4, 0, 0) := by
    norm_num [cexWindField, cexWindQuery, WindField.positionToIndex,
      WindField.cellSize, WindField.cellSize1, Vec3.sub, Prod.ext_iff]
  have hcx : WindField.corner (K := ℚ) (fun lo hi v => pyClamp lo hi v) 2 (1/4)
      = (0, 1, 1/4) := by
    norm_num [WindField.corner, pyClamp, pyInt, Prod.ext_iff]
  have hcy : WindField.corner (K := ℚ) (fun lo hi v => pyClamp lo hi v) 1 0
      = (0, 0, 0) := by
    norm_num [WindField.corner, pyClamp, pyInt, Prod.ext_iff]
  have hwind : WindField.getWindAt cexWindField cexWindQuery = ⟨2, 0, 0⟩ := by
    unfold WindField.getWindAt WindField.trilinearInterpolateWind
    rw [hidx]
    dsimp only
    rw [show cexWindField.nx = 2 from rfl, show cexWindField.ny = 1 from rfl,
      show cexWindField.nz = 1 from rfl, hcx, hcy]
    dsimp only
    norm_num [WindField.trilinearAccum, cexWindField, Vec3.add, Vec3.smul, Vec3.zero,
      Vec3.ext_iff, List.foldl]
  have hnear : specNearestSampleVelocity cexWindField cexWindQuery
      = some ⟨0, 0, 0⟩ := by
    norm_num [specNearestSampleVelocity, cexWindField, cexWindQuery,
      WindField.samplePos, WindField.cellSize, WindField.cellSize1,
      List.range_succ, Vec3.sub, Vec3.magSq, List.foldl, List.map]
  refine ⟨hwind, hnear, ?_, ?_⟩
  · rw [hwind]
    simp [Vec3.ext_iff]
  · intro i hi j hj k hk
    simp only [cexWindField] at hi
    rw [hwind]
    interval_cases i <;> simp [cexWindField, Vec3.ext_iff]

theorem trilinearAccum_zero_fracs {K : Type} [LinearOrderedField K]
    (f : ℕ → ℕ → ℕ → Vec3 K) (x0 x1 y0 y1 z0 z1 : ℕ) :
    WindField.trilinearAccum f [(x0, 1 - (0:K)), (x1, (0:K))]
      [(y0, 1 - (0:K)), (y1, (0:K))] [(z0, 1 - (0:K)), (z1, (0:K))] =
      f x0 y0 z0 := by
  simp only [WindField.trilinearAccum, List.foldl, Vec3.add, Vec3.smul, Vec3.zero]
  rw [Vec3.ext_iff]
  refine ⟨?_, ?_, ?_⟩ <;> ring

theorem corner_at_sample {K : Type} [LinearOrderedField K] [FloorRing K]
    (n i : ℕ) (h : i + 1 < n) :
    WindField.corner (fun lo hi v => pyClamp lo hi v) n ((i : K)) =
      (i, i + 1, 0) := by
  have h2 : (i : K) + 2 ≤ (n : K) := by
    have : i + 2 ≤ n := h
    exact_mod_cast this
  have hle : (i : K) ≤ (n : K) - 1 - 1e-6 := by linarith [show (1e-6 : K) ≤ 1 by norm_num]
  have hclamp : pyClamp 0 ((n : K) - 1 - 1e-6) (i : K) = (i : K) := by
    unfold pyClamp
    rw [min_eq_right hle, max_eq_right (Nat.cast_nonneg i)]
  have hfloor : pyInt ((i : K)) = (i : ℤ) := by
    unfold pyInt
    rw [if_pos (Nat.cast_nonneg i)]
    exact_mod_cast Int.floor_natCast i
  unfold WindField.corner
  dsimp only
  rw [hclamp, hfloor]
  have hmin : min ((i : ℤ) + 1) ((n : ℤ) - 1) = (i : ℤ) + 1 := by
    apply min_eq_left
    have : (i : ℤ) + 2 ≤ (n : ℤ) := by exact_mod_cast (show i + 2 ≤ n from h)
    linarith
  rw [hmin]
  refine Prod.ext ?_ (Prod.ext ?_ ?_)
  · show ((i : ℤ)).toNat = i
    omega
  · show ((i : ℤ) + 1).toNat = i + 1
    omega
  · show (i : K) - (((i : ℤ) : K)) = 0
    push_cast
    ring

/-- C4 amended: the wind lookup converts the position to continuous grid
indices, clamps them, and returns the trilinear interpolation of the eight
surrounding stored samples; in particular at a stored interior sample point
(positive cell sizes, index below the last sample) it returns that sample's
stored velocity exactly. -/
theorem wind_lookup_trilinear_at_samples {K : Type} [LinearOrderedField K]
    [FloorRing K] (wf : WindField K) (i j k : ℕ)
    (hcx : 0 < wf.cellSize.x) (hcy : 0 < wf.cellSize.y) (hcz : 0 < wf.cellSize.z)
    (hi : i + 1 < wf.nx) (hj : j + 1 < wf.ny) (hk : k + 1 < wf.nz) :
    wf.getWindAt (wf.samplePos i j k) = wf.wind_data i j k := by
  have hidx : wf.positionToIndex (wf.samplePos i j k) = ((i : K), (j : K), (k : K)) := by
    unfold WindField.positionToIndex WindField.samplePos Vec3.sub
    simp only [if_pos hcx, if_pos hcy, if_pos hcz]
    refine Prod.ext ?_ (Prod.ext ?_ ?_)
    · field_simp
    · field_simp
    · field_simp
  unfold WindField.getWindAt
  rw [hidx]
  unfold WindField.trilinearInterpolateWind
  dsimp only
  rw [corner_at_sample wf.nx i hi, corner_at_sample wf.ny j hj,
    corner_at_sample wf.nz k hk]
  dsimp only
  exact trilinearAccum_zero_fracs wf.wind_data i (i+1) j (j+1) k (k+1)

/-- Witness for the amended C4 at the sample `(0,0,0)` of a 2×2×2 field. -/
theorem wind_lookup_trilinear_at_samples_witness :
    (0 < witSampleField.cellSize.x ∧ 0 + 1 < witSampleField.nx) ∧
    witSampleField.getWindAt (witSampleField.samplePos 0 0 0) =
      witSampleField.wind_data 0 0 0 := by
  have hcx : 0 < witSampleField.cellSize.x := by
    norm_num [witSampleField, WindField.cellSize, WindField.cellSize1]
  have hcy : 0 < witSampleField.cellSize.y := by
    norm_num [witSampleField, WindField.cellSize, WindField.cellSize1]
  have hcz : 0 < witSampleField.cellSize.z := by
    norm_num [witSampleField, WindField.cellSize, WindField.cellSize1]
  exact ⟨⟨hcx, by norm_num [witSampleField]⟩,
    wind_lookup_trilinear_at_samples witSampleField 0 0 0 hcx hcy hcz
      (by norm_num [witSampleField]) (by norm_num [witSampleField])
      (by norm_num [witSampleField])⟩

/-! ## C5 — edges_valid_batch does not require endpoints in bounds -/

/-- C5 counterexample: the edge from `(0,100,0)` to `(10,100,0)` flies above a
fully occupied voxel grid over `[0,10]³`; `edges_valid_batch` reports it valid
even though both endpoints are outside the voxel-grid bounds, refuting the
claimed conjunct "both endpoints lie inside the voxel grid bounds". -/
theorem edges_valid_batch_bounds_cex :
    MeshCollisionChecker.edgesValidBatch ⟨cexVoxelGrid⟩ [cexHighEdge] = [true] ∧
    cexVoxelGrid.segmentIntersectsSampled cexHighEdge.1 cexHighEdge.2 5 = false ∧
    cexVoxelGrid.outOfBounds cexHighEdge.1 = true ∧
    cexVoxelGrid.outOfBounds cexHighEdge.2 = true := by
  have hfast : cexVoxelGrid.fastClear cexHighEdge.1 cexHighEdge.2 = true := by
    simp only [VoxelGrid.fastClear, cexVoxelGrid, cexHighEdge, decide_eq_true_eq]
    norm_num
  have hseg : cexVoxelGrid.segmentIntersectsSampled cexHighEdge.1 cexHighEdge.2 5
      = false := by
    unfold VoxelGrid.segmentIntersectsSampled
    rw [if_pos hfast]
  have hb1 : cexVoxelGrid.outOfBounds cexHighEdge.1 = true := by
    simp only [VoxelGrid.outOfBounds, cexVoxelGrid, cexHighEdge, decide_eq_true_eq]
    norm_num
  have hb2 : cexVoxelGrid.outOfBounds cexHighEdge.2 = true := by
    simp only [VoxelGrid.outOfBounds, cexVoxelGrid, cexHighEdge, decide_eq_true_eq]
    norm_num
  exact ⟨by simp [MeshCollisionChecker.edgesValidBatch,
    VoxelGrid.segmentsIntersectBatch, hseg], hseg, hb1, hb2⟩

theorem sampleT_mem_unit {K : Type} [LinearOrderedField K] (s kk : ℕ) :
    0 ≤ (VoxelGrid.sampleT s kk : K) ∧
      (kk < s → (VoxelGrid.sampleT s kk : K) ≤ 1) := by
  unfold VoxelGrid.sampleT
  by_cases h1 : s ≤ 1
  · simp [h1]
  · rw [if_neg h1]
    have hs : (2 : K) ≤ (s : K) := by
      have : 2 ≤ s := by omega
      exact_mod_cast this
    constructor
    · exact div_nonneg (Nat.cast_nonneg kk) (by linarith)
    · intro hks
      rw [div_le_one (by linarith)]
      have : (kk : K) ≤ (s : K) - 1 := by
        have : (kk : ℕ) + 1 ≤ s := hks
        have := (Nat.cast_le (α := K)).mpr this
        push_cast at this
        linarith
      exact this

theorem interp_between {K : Type} [LinearOrderedField K] {a b t : K}
    (h0 : 0 ≤ t) (h1 : t ≤ 1) :
    min a b ≤ a + (b - a) * t ∧ a + (b - a) * t ≤ max a b := by
  rcases le_total a b with hab | hab
  · rw [min_eq_left hab, max_eq_right hab]
    constructor <;> nlinarith
  · rw [min_eq_right hab, max_eq_left hab]
    constructor <;> nlinarith

/-- Fast-rejected segments have every sample out of bounds, hence free. -/
theorem fastClear_samples_free {K : Type} [LinearOrderedField K] [FloorRing K]
    [DecidableEq K] [∀ a b : K, Decidable (a < b)] [∀ a b : K, Decidable (a ≤ b)]
    (vg : VoxelGrid K) (hsize : 0 ≤ vg.voxel_size) (a b : Vec3 K)
    (hfast : vg.fastClear a b = true) {t : K} (h0 : 0 ≤ t) (h1 : t ≤ 1) :
    vg.pointOccupied (a.add ((b.sub a).smul t)) = false := by
  have hx := interp_between (a := a.x) (b := b.x) h0 h1
  have hy := interp_between (a := a.y) (b := b.y) h0 h1
  have hz := interp_between (a := a.z) (b := b.z) h0 h1
  unfold VoxelGrid.fastClear at hfast
  unfold VoxelGrid.pointOccupied VoxelGrid.outOfBounds Vec3.add Vec3.sub Vec3.smul
  simp only [Bool.or_eq_true, decide_eq_true_eq] at hfast ⊢
  rw [if_pos]
  rcases hfast with h | h | h | h | h
  · right; right; right; right; left
    calc vg.max_bounds.y < min a.y b.y - vg.voxel_size + vg.voxel_size := by linarith
    _ ≤ a.y + (b.y - a.y) * t := by linarith [hy.1]
  · left
    calc a.x + (b.x - a.x) * t ≤ max a.x b.x := hx.2
    _ < vg.min_bounds.x := by linarith
  · right; right; right; left
    calc vg.max_bounds.x < min a.x b.x - vg.voxel_size + vg.voxel_size := by linarith
    _ ≤ a.x + (b.x - a.x) * t := by linarith [hx.1]
  · right; right; left
    calc a.z + (b.z - a.z) * t ≤ max a.z b.z := hz.2
    _ < vg.min_bounds.z := by linarith
  · right; right; right; right; right
    calc vg.max_bounds.z < min a.z b.z - vg.voxel_size + vg.voxel_size := by linarith
    _ ≤ a.z + (b.z - a.z) * t := by linarith [hz.1]

/-- C5 amended: with a non-negative voxel size, `edges_valid_batch` marks edge
`i` valid exactly when none of its five uniformly spaced sample points lies in
bounds inside an occupied voxel (the fast-rejection path only accepts edges
all of whose samples are out of bounds); endpoint in-bounds membership is not
required. -/
theorem edges_valid_batch_spec {K : Type} [LinearOrderedField K] [FloorRing K]
    [DecidableEq K] [∀ a b : K, Decidable (a < b)] [∀ a b : K, Decidable (a ≤ b)]
    (mc : MeshCollisionChecker K) (hsize : 0 ≤ mc.voxel_grid.voxel_size)
    (edges : List (Vec3 K × Vec3 K)) :
    mc.edgesValidBatch edges 5 = edges.map fun e =>
      (List.range 5).all fun kk =>
        !(mc.voxel_grid.pointOccupied
          (e.1.add ((e.2.sub e.1).smul (VoxelGrid.sampleT 5 kk)))) := by
  unfold MeshCollisionChecker.edgesValidBatch VoxelGrid.segmentsIntersectBatch
  rw [List.map_map]
  apply List.map_congr_left
  intro e _
  simp only [Function.comp_apply]
  unfold VoxelGrid.segmentIntersectsSampled
  by_cases hfast : mc.voxel_grid.fastClear e.1 e.2 = true
  · rw [if_pos hfast]
    symm
    simp only [Bool.not_false, List.all_eq_true, List.mem_range, Bool.not_eq_eq_eq_not,
      Bool.not_true]
    intro kk hkk
    have hmem := sampleT_mem_unit (K := K) 5 kk
    exact fastClear_samples_free mc.voxel_grid hsize e.1 e.2 hfast
      hmem.1 (hmem.2 hkk)
  · rw [if_neg hfast]
    rcases hany : ((List.range 5).any fun kk =>
        mc.voxel_grid.pointOccupied (e.1.add ((e.2.sub e.1).smul
          (VoxelGrid.sampleT 5 kk)))) with _ | _
    · symm
      simp only [Bool.not_false, List.all_eq_true, List.mem_range, Bool.not_eq_eq_eq_not,
        Bool.not_true]
      intro kk hkk
      simpa using List.any_eq_false.mp hany kk (List.mem_range.mpr hkk)
    · symm
      simp only [Bool.not_true]
      rw [List.all_eq_false]
      obtain ⟨kk, hkkmem, hkk⟩ := List.any_eq_true.mp hany
      exact ⟨kk, hkkmem, by simp [hkk]⟩

/-- Witness for the amended C5 over the counterexample grid and edge. -/
theorem edges_valid_batch_spec_witness :
    (0 : ℚ) ≤ cexVoxelGrid.voxel_size ∧
    MeshCollisionChecker.edgesValidBatch ⟨cexVoxelGrid⟩ [cexHighEdge] =
      [cexHighEdge].map (fun e =>
        (List.range 5).all fun kk =>
          !(cexVoxelGrid.pointOccupied
            (e.1.add ((e.2.sub e.1).smul (VoxelGrid.sampleT 5 kk))))) :=
  ⟨by norm_num [cexVoxelGrid],
   edges_valid_batch_spec ⟨cexVoxelGrid⟩ (by norm_num [cexVoxelGrid]) [cexHighEdge]⟩

/-! ## C8 — symmetry of the precomputed valid-edge set -/

theorem neg_mem_offsets :
    ∀ d ∈ NEIGHBOR_OFFSETS, (-d.1, -d.2.1, -d.2.2) ∈ NEIGHBOR_OFFSETS := by
  decide

theorem indexOfId_idOf (g : Grid3D) {ix iy iz : ℕ} (hy : iy < g.ny)
    (hz : iz < g.nz) : g.indexOfId (g.idOf ix iy iz) = (ix, iy, iz) := by
  unfold Grid3D.indexOfId Grid3D.idOf
  have hnz : 0 < g.nz := by omega
  have hyz : 0 < g.ny * g.nz := Nat.mul_pos (by omega) hnz
  have h1 : ix * (g.ny * g.nz) + iy * g.nz + iz =
      (iy * g.nz + iz) + ix * (g.ny * g.nz) := by ring
  have h2 : ix * (g.ny * g.nz) + iy * g.nz + iz =
      iz + (iy + ix * g.ny) * g.nz := by ring
  have hlt : iy * g.nz + iz < g.ny * g.nz := by
    calc iy * g.nz + iz < iy * g.nz + g.nz := by omega
    _ = (iy + 1) * g.nz := by ring
    _ ≤ g.ny * g.nz := Nat.mul_le_mul_right _ hy
  refine Prod.ext ?_ (Prod.ext ?_ ?_)
  · show (ix * (g.ny * g.nz) + iy * g.nz + iz) / (g.ny * g.nz) = ix
    rw [h1, Nat.add_mul_div_right _ _ hyz, Nat.div_eq_of_lt hlt, Nat.zero_add]
  · show (ix * (g.ny * g.nz) + iy * g.nz + iz) / g.nz % g.ny = iy
    rw [h2, Nat.add_mul_div_right _ _ hnz, Nat.div_eq_of_lt hz, Nat.zero_add,
      Nat.add_mul_mod_self_right, Nat.mod_eq_of_lt hy]
  · show (ix * (g.ny * g.nz) + iy * g.nz + iz) % g.nz = iz
    rw [h2, Nat.add_mul_mod_self_right, Nat.mod_eq_of_lt hz]

theorem idOf_lt_totalNodes (g : Grid3D) {ix iy iz : ℕ} (hx : ix < g.nx)
    (hy : iy < g.ny) (hz : iz < g.nz) : g.idOf ix iy iz < g.totalNodes := by
  unfold Grid3D.idOf Grid3D.totalNodes
  have hlt : iy * g.nz + iz < g.ny * g.nz := by
    calc iy * g.nz + iz < iy * g.nz + g.nz := by omega
    _ = (iy + 1) * g.nz := by ring
    _ ≤ g.ny * g.nz := Nat.mul_le_mul_right _ hy
  calc ix * (g.ny * g.nz) + iy * g.nz + iz
      = ix * (g.ny * g.nz) + (iy * g.nz + iz) := by ring
    _ < ix * (g.ny * g.nz) + g.ny * g.nz := by omega
    _ = (ix + 1) * (g.ny * g.nz) := by ring
    _ ≤ g.nx * (g.ny * g.nz) := Nat.mul_le_mul_right _ hx
    _ = g.nx * g.ny * g.nz := by ring

theorem mem_validNodes {g : Grid3D} {n : GridNode} :
    n ∈ g.validNodes ↔ n.is_valid = true ∧
      ∃ ix iy iz, ix < g.nx ∧ iy < g.ny ∧ iz < g.nz ∧ n = g.mkNode ix iy iz := by
  unfold Grid3D.validNodes
  simp only [List.mem_filterMap, List.mem_range]
  constructor
  · rintro ⟨i, hi, hmatch⟩
    unfold Grid3D.getNodeById at hmatch
    rw [if_pos hi] at hmatch
    dsimp only at hmatch
    by_cases hv : (g.mkNode (g.indexOfId i).1 (g.indexOfId i).2.1
        (g.indexOfId i).2.2).is_valid = true
    · rw [if_pos hv] at hmatch
      cases hmatch
      have h0 : 0 < g.nx * g.ny * g.nz := lt_of_le_of_lt (Nat.zero_le i) hi
      have hnz : 0 < g.nz := by
        rcases Nat.eq_zero_or_pos g.nz with h | h
        · rw [h, Nat.mul_zero] at h0; exact absurd h0 (lt_irrefl 0)
        · exact h
      have hny : 0 < g.ny := by
        rcases Nat.eq_zero_or_pos g.ny with h | h
        · rw [h, Nat.mul_zero, Nat.zero_mul] at h0; exact absurd h0 (lt_irrefl 0)
        · exact h
      refine ⟨hv, (g.indexOfId i).1, (g.indexOfId i).2.1, (g.indexOfId i).2.2,
        ?_, ?_, ?_, rfl⟩
      · show i / (g.ny * g.nz) < g.nx
        rw [Nat.div_lt_iff_lt_mul (Nat.mul_pos hny hnz)]
        calc i < g.nx * g.ny * g.nz := hi
        _ = g.nx * (g.ny * g.nz) := by ring
      · exact Nat.mod_lt _ hny
      · exact Nat.mod_lt _ hnz
    · rw [if_neg hv] at hmatch
      cases hmatch
  · rintro ⟨hv, ix, iy, iz, hx, hy, hz, rfl⟩
    refine ⟨g.idOf ix iy iz, idOf_lt_totalNodes g hx hy hz, ?_⟩
    unfold Grid3D.getNodeById
    rw [if_pos (idOf_lt_totalNodes g hx hy hz), indexOfId_idOf g hy hz]
    dsimp only
    rw [if_pos hv]

theorem mem_getNeighbors {g : Grid3D} {n nb : GridNode} :
    nb ∈ g.getNeighbors n ↔ ∃ d ∈ NEIGHBOR_OFFSETS,
      (0 ≤ (n.grid_index.1 : ℤ) + d.1 ∧ (n.grid_index.1 : ℤ) + d.1 < (g.nx : ℤ) ∧
       0 ≤ (n.grid_index.2.1 : ℤ) + d.2.1 ∧
       (n.grid_index.2.1 : ℤ) + d.2.1 < (g.ny : ℤ) ∧
       0 ≤ (n.grid_index.2.2 : ℤ) + d.2.2 ∧
       (n.grid_index.2.2 : ℤ) + d.2.2 < (g.nz : ℤ)) ∧
      nb = g.mkNode ((n.grid_index.1 : ℤ) + d.1).toNat
        ((n.grid_index.2.1 : ℤ) + d.2.1).toNat
        ((n.grid_index.2.2 : ℤ) + d.2.2).toNat ∧
      nb.is_valid = true := by
  unfold Grid3D.getNeighbors
  simp only [List.mem_filterMap]
  constructor
  · rintro ⟨d, hd, hmk⟩
    by_cases hb : 0 ≤ (n.grid_index.1 : ℤ) + d.1 ∧
        (n.grid_index.1 : ℤ) + d.1 < (g.nx : ℤ) ∧
        0 ≤ (n.grid_index.2.1 : ℤ) + d.2.1 ∧
        (n.grid_index.2.1 : ℤ) + d.2.1 < (g.ny : ℤ) ∧
        0 ≤ (n.grid_index.2.2 : ℤ) + d.2.2 ∧
        (n.grid_index.2.2 : ℤ) + d.2.2 < (g.nz : ℤ)
    · rw [if_pos hb] at hmk
      unfold Grid3D.getNodeByIndex at hmk
      rw [if_pos hb] at hmk
      dsimp only at hmk
      by_cases hv : (g.mkNode ((n.grid_index.1 : ℤ) + d.1).toNat
          ((n.grid_index.2.1 : ℤ) + d.2.1).toNat
          ((n.grid_index.2.2 : ℤ) + d.2.2).toNat).is_valid = true
      · rw [if_pos hv] at hmk
        cases hmk
        exact ⟨d, hd, hb, rfl, hv⟩
      · rw [if_neg hv] at hmk
        cases hmk
    · rw [if_neg hb] at hmk
      cases hmk
  · rintro ⟨d, hd, hb, rfl, hv⟩
    refine ⟨d, hd, ?_⟩
    dsimp only
    rw [if_pos hb]
    unfold Grid3D.getNodeByIndex
    rw [if_pos hb]
    dsimp only
    rw [if_pos hv]

theorem neighbors_valid {g : Grid3D} {n nb : GridNode}
    (h : nb ∈ g.getNeighbors n) : nb.is_valid = true := by
  obtain ⟨d, _, _, _, hv⟩ := mem_getNeighbors.mp h
  exact hv

theorem neighbor_swap {g : Grid3D} {node nb : GridNode}
    (hn : node ∈ g.validNodes) (hnb : nb ∈ g.getNeighbors node) :
    nb ∈ g.validNodes ∧ node ∈ g.getNeighbors nb := by
  obtain ⟨hnv, ix, iy, iz, hx, hy, hz, rfl⟩ := mem_validNodes.mp hn
  obtain ⟨d, hd, hb, rfl, hv⟩ := mem_getNeighbors.mp hnb
  have hgi : (g.mkNode ix iy iz).grid_index = (ix, iy, iz) := rfl
  rw [hgi] at hb hv ⊢
  obtain ⟨hb1, hb2, hb3, hb4, hb5, hb6⟩ := hb
  dsimp only at hb1 hb2 hb3 hb4 hb5 hb6
  have hmem : g.mkNode ((ix : ℤ) + d.1).toNat ((iy : ℤ) + d.2.1).toNat
      ((iz : ℤ) + d.2.2).toNat ∈ g.validNodes := by
    refine mem_validNodes.mpr ⟨hv, ((ix : ℤ) + d.1).toNat,
      ((iy : ℤ) + d.2.1).toNat, ((iz : ℤ) + d.2.2).toNat, ?_, ?_, ?_, rfl⟩
    · omega
    · omega
    · omega
  refine ⟨hmem, ?_⟩
  refine mem_getNeighbors.mpr ⟨(-d.1, -d.2.1, -d.2.2), neg_mem_offsets d hd, ?_, ?_, hnv⟩
  · show 0 ≤ ((((ix : ℤ) + d.1).toNat : ℤ)) + -d.1 ∧
        ((((ix : ℤ) + d.1).toNat : ℤ)) + -d.1 < (g.nx : ℤ) ∧
        0 ≤ ((((iy : ℤ) + d.2.1).toNat : ℤ)) + -d.2.1 ∧
        ((((iy : ℤ) + d.2.1).toNat : ℤ)) + -d.2.1 < (g.ny : ℤ) ∧
        0 ≤ ((((iz : ℤ) + d.2.2).toNat : ℤ)) + -d.2.2 ∧
        ((((iz : ℤ) + d.2.2).toNat : ℤ)) + -d.2.2 < (g.nz : ℤ)
    omega
  · show g.mkNode ix iy iz =
      g.mkNode (((((ix : ℤ) + d.1).toNat : ℤ) + -d.1).toNat)
        (((((iy : ℤ) + d.2.1).toNat : ℤ) + -d.2.1).toNat)
        (((((iz : ℤ) + d.2.2).toNat : ℤ) + -d.2.2).toNat)
    have e1 : ((((ix : ℤ) + d.1).toNat : ℤ) + -d.1).toNat = ix := by omega
    have e2 : ((((iy : ℤ) + d.2.1).toNat : ℤ) + -d.2.1).toNat = iy := by omega
    have e3 : ((((iz : ℤ) + d.2.2).toNat : ℤ) + -d.2.2).toNat = iz := by omega
    rw [e1, e2, e3]

theorem fastClear_symm {K : Type} [LinearOrderedField K]
    [∀ a b : K, Decidable (a < b)] (vg : VoxelGrid K) (a b : Vec3 K) :
    vg.fastClear b a = vg.fastClear a b := by
  unfold VoxelGrid.fastClear
  rw [min_comm b.y a.y, max_comm b.x a.x, min_comm b.x a.x,
    max_comm b.z a.z, min_comm b.z a.z]

theorem sample_point_reverse {K : Type} [LinearOrderedField K]
    (a b : Vec3 K) (k : ℕ) (hk : k < 5) :
    b.add ((a.sub b).smul (VoxelGrid.sampleT 5 k)) =
      a.add ((b.sub a).smul (VoxelGrid.sampleT 5 (4 - k))) := by
  unfold VoxelGrid.sampleT
  rw [if_neg (by norm_num), if_neg (by norm_num)]
  have hc : ((4 - k : ℕ) : K) = 4 - (k : K) := by
    have h4 : k ≤ 4 := by omega
    push_cast [h4]
    ring
  rw [hc]
  rw [show (((5 : ℕ) : K)) - 1 = 4 by norm_num]
  rw [Vec3.ext_iff]
  unfold Vec3.add Vec3.sub Vec3.smul
  refine ⟨?_, ?_, ?_⟩ <;>
    · dsimp only
      field_simp
      ring

theorem segmentIntersectsSampled_symm {K : Type} [LinearOrderedField K]
    [FloorRing K] [DecidableEq K] [∀ a b : K, Decidable (a < b)]
    [∀ a b : K, Decidable (a ≤ b)] (vg : VoxelGrid K) (a b : Vec3 K) :
    vg.segmentIntersectsSampled b a 5 = vg.segmentIntersectsSampled a b 5 := by
  unfold VoxelGrid.segmentIntersectsSampled
  rw [fastClear_symm]
  by_cases hf : vg.fastClear a b = true
  · rw [if_pos hf, if_pos hf]
  · rw [if_neg hf, if_neg hf]
    rw [Bool.eq_iff_iff, List.any_eq_true, List.any_eq_true]
    constructor
    · rintro ⟨k, hk, hocc⟩
      rw [List.mem_range] at hk
      refine ⟨4 - k, List.mem_range.mpr (by omega), ?_⟩
      dsimp only at hocc ⊢
      rw [← sample_point_reverse a b k hk]
      exact hocc
    · rintro ⟨k, hk, hocc⟩
      rw [List.mem_range] at hk
      refine ⟨4 - k, List.mem_range.mpr (by omega), ?_⟩
      dsimp only at hocc ⊢
      rw [sample_point_reverse a b (4 - k) (by omega),
        show 4 - (4 - k) = k from by omega]
      exact hocc

theorem mem_potentialEdges {g : Grid3D} {e : ℕ × ℕ × Vec3 ℚ × Vec3 ℚ} :
    e ∈ potentialEdges g ↔ ∃ node nb, node ∈ g.validNodes ∧
      nb ∈ g.getNeighbors node ∧
      e = (node.id, nb.id, node.position, nb.position) := by
  unfold potentialEdges
  simp only [List.mem_flatMap, List.mem_filterMap]
  constructor
  · rintro ⟨node, hn, nb, hnb, he⟩
    rw [if_pos (neighbors_valid hnb)] at he
    cases he
    exact ⟨node, nb, hn, hnb, rfl⟩
  · rintro ⟨node, nb, hn, hnb, rfl⟩
    exact ⟨node, hn, nb, hnb, by rw [if_pos (neighbors_valid hnb)]⟩

/-- C8: the ValidEdgeSet computed by `NaiveRouter.precompute_valid_edges` is
symmetric: `(u,v)` is a member exactly when `(v,u)` is. The potential-edge
enumeration is symmetric because grid adjacency is (each offset has its
negation among the 26 offsets), and the five-sample occlusion test of
`segments_intersect_batch` evaluates the same five points on the reversed
segment. -/
theorem valid_edge_set_symm (g : Grid3D)
    (checker : Option (MeshCollisionChecker ℚ)) (u v : ℕ) :
    (u, v) ∈ precomputeValidEdges g checker ↔
      (v, u) ∈ precomputeValidEdges g checker := by
  suffices H : ∀ u v : ℕ, (u, v) ∈ precomputeValidEdges g checker →
      (v, u) ∈ precomputeValidEdges g checker from ⟨H u v, H v u⟩
  intro u v h
  match checker with
  | none =>
    unfold precomputeValidEdges at h ⊢
    rw [List.mem_map] at h ⊢
    obtain ⟨e, he, hid⟩ := h
    obtain ⟨node, nb, hn, hnb, rfl⟩ := mem_potentialEdges.mp he
    cases hid
    obtain ⟨hnb', hn'⟩ := neighbor_swap hn hnb
    exact ⟨(nb.id, node.id, nb.position, node.position),
      mem_potentialEdges.mpr ⟨nb, node, hnb', hn', rfl⟩, rfl⟩
  | some mc =>
    unfold precomputeValidEdges at h ⊢
    rw [List.mem_filterMap] at h ⊢
    obtain ⟨e, he, hkeep⟩ := h
    obtain ⟨node, nb, hn, hnb, rfl⟩ := mem_potentialEdges.mp he
    by_cases hseg : mc.voxel_grid.segmentIntersectsSampled
        node.position nb.position 5 = true
    · rw [if_pos hseg] at hkeep
      cases hkeep
    · rw [if_neg hseg] at hkeep
      cases hkeep
      obtain ⟨hnb', hn'⟩ := neighbor_swap hn hnb
      refine ⟨(nb.id, node.id, nb.position, node.position),
        mem_potentialEdges.mpr ⟨nb, node, hnb', hn', rfl⟩, ?_⟩
      rw [if_neg ?_]
      rw [segmentIntersectsSampled_symm]
      exact hseg

/-! ## C3 — shell search of `get_node_at_position` -/

theorem toR_sub (a b : Vec3 ℚ) : (Vec3.sub a b).toR = Vec3.sub a.toR b.toR := by
  unfold Vec3.toR Vec3.sub
  rw [Vec3.ext_iff]
  refine ⟨?_, ?_, ?_⟩ <;> dsimp only <;> push_cast <;> ring

theorem toR_magSq (a : Vec3 ℚ) : a.toR.magSq = ((a.magSq : ℚ) : ℝ) := by
  unfold Vec3.toR Vec3.magSq
  push_cast
  ring

theorem pickNearest_go (p : Vec3 ℚ) (l : List GridNode) :
    ∀ (bn : GridNode) (bd : ℚ),
    ∃ cn cd,
      List.foldl (fun best n =>
        let d := Vec3.magSq (Vec3.sub n.position p)
        match best with
        | none => some (n, d)
        | some (b, bd) => if d < bd then some (n, d) else some (b, bd))
        (some (bn, bd)) l = some (cn, cd) ∧
      ((cn = bn ∧ cd = bd) ∨
        (cn ∈ l ∧ cd = Vec3.magSq (Vec3.sub cn.position p))) ∧
      cd ≤ bd ∧ ∀ m ∈ l, cd ≤ Vec3.magSq (Vec3.sub m.position p) := by
  induction l with
  | nil =>
    intro bn bd
    exact ⟨bn, bd, rfl, Or.inl ⟨rfl, rfl⟩, le_refl _, by simp⟩
  | cons n t ih =>
    intro bn bd
    rw [List.foldl_cons]
    dsimp only
    by_cases hlt : Vec3.magSq (Vec3.sub n.position p) < bd
    · rw [if_pos hlt]
      obtain ⟨cn, cd, hfold, hsrc, hle, hmin⟩ :=
        ih n (Vec3.magSq (Vec3.sub n.position p))
      refine ⟨cn, cd, hfold, ?_, le_of_lt (lt_of_le_of_lt hle hlt), ?_⟩
      · rcases hsrc with ⟨h1, h2⟩ | ⟨h1, h2⟩
        · subst h1
          exact Or.inr ⟨List.mem_cons_self _ _, h2⟩
        · exact Or.inr ⟨List.mem_cons_of_mem _ h1, h2⟩
      · intro m hm
        rcases List.mem_cons.mp hm with rfl | hm
        · exact hle
        · exact hmin m hm
    · rw [if_neg hlt]
      obtain ⟨cn, cd, hfold, hsrc, hle, hmin⟩ := ih bn bd
      refine ⟨cn, cd, hfold, ?_, hle, ?_⟩
      · rcases hsrc with h | ⟨h1, h2⟩
        · exact Or.inl h
        · exact Or.inr ⟨List.mem_cons_of_mem _ h1, h2⟩
      intro m hm
      rcases List.mem_cons.mp hm with rfl | hm
      · exact le_trans hle (not_lt.mp hlt)
      · exact hmin m hm

theorem pickNearest_spec (p : Vec3 ℚ) (l : List GridNode) (hl : l ≠ []) :
    ∃ cn cd, pickNearest p l = some (cn, cd) ∧ cn ∈ l ∧
      ∀ m ∈ l, Vec3.magSq (Vec3.sub cn.position p) ≤
        Vec3.magSq (Vec3.sub m.position p) := by
  obtain ⟨n, t, rfl⟩ := List.exists_cons_of_ne_nil hl
  unfold pickNearest
  rw [List.foldl_cons]
  dsimp only
  obtain ⟨cn, cd, hfold, hsrc, hle, hmin⟩ :=
    pickNearest_go p t n (Vec3.magSq (Vec3.sub n.position p))
  have hcd : cd = Vec3.magSq (Vec3.sub cn.position p) := by
    rcases hsrc with ⟨h1, h2⟩ | ⟨_, h2⟩
    · rw [h2, h1]
    · exact h2
  refine ⟨cn, cd, hfold, ?_, ?_⟩
  · rcases hsrc with ⟨h1, _⟩ | ⟨h1, _⟩
    · subst h1
      exact List.mem_cons_self _ _
    · exact List.mem_cons_of_mem _ h1
  · intro m hm
    rcases List.mem_cons.mp hm with rfl | hm
    · rw [← hcd]
      exact hle
    · rw [← hcd]
      exact hmin m hm

theorem searchShells_cons_empty (g : Grid3D) (p : Vec3 ℚ) (ix iy iz r : ℤ)
    (rs : List ℤ) (h : g.shellCandidates ix iy iz r = []) :
    searchShells g p ix iy iz (r :: rs) = searchShells g p ix iy iz rs := by
  show (match pickNearest p (g.shellCandidates ix iy iz r) with
    | some (n, _) => some n
    | none => searchShells g p ix iy iz rs) = searchShells g p ix iy iz rs
  rw [h]
  rfl

theorem searchShells_cons_found (g : Grid3D) (p : Vec3 ℚ) (ix iy iz r : ℤ)
    (rs : List ℤ) (h : g.shellCandidates ix iy iz r ≠ []) :
    ∃ m, searchShells g p ix iy iz (r :: rs) = some m ∧
      m ∈ g.shellCandidates ix iy iz r ∧
      ∀ m' ∈ g.shellCandidates ix iy iz r,
        Vec3.magSq (Vec3.sub m.position p) ≤
          Vec3.magSq (Vec3.sub m'.position p) := by
  obtain ⟨cn, cd, hpick, hmem, hmin⟩ := pickNearest_spec p _ h
  refine ⟨cn, ?_, hmem, hmin⟩
  show (match pickNearest p (g.shellCandidates ix iy iz r) with
    | some (n, _) => some n
    | none => searchShells g p ix iy iz rs) = some cn
  rw [hpick]

theorem shellCandidates_valid {g : Grid3D} {ix iy iz r : ℤ} {m : GridNode}
    (h : m ∈ g.shellCandidates ix iy iz r) : m.is_valid = true := by
  unfold Grid3D.shellCandidates at h
  simp only [List.mem_flatMap, List.mem_filterMap] at h
  obtain ⟨dx, _, dy, _, dz, _, hmk⟩ := h
  by_cases habs : |dx| = r ∨ |dy| = r ∨ |dz| = r
  · rw [if_pos habs] at hmk
    by_cases hb : 0 ≤ ix + dx ∧ ix + dx < (g.nx : ℤ) ∧ 0 ≤ iy + dy ∧
        iy + dy < (g.ny : ℤ) ∧ 0 ≤ iz + dz ∧ iz + dz < (g.nz : ℤ)
    · rw [if_pos hb] at hmk
      unfold Grid3D.getNodeByIndex at hmk
      rw [if_pos hb] at hmk
      dsimp only at hmk
      by_cases hv : (g.mkNode (ix + dx).toNat (iy + dy).toNat
          (iz + dz).toNat).is_valid = true
      · rw [if_pos hv] at hmk
        cases hmk
        exact hv
      · rw [if_neg hv] at hmk
        cases hmk
    · rw [if_neg hb] at hmk
      cases hmk
  · rw [if_neg habs] at hmk
    cases hmk

/-- C3: `get_node_at_position` with `prefer_valid` returns the clamped node
when it is valid; when it is invalid it scans the Chebyshev shells of radius
1 to 5 around the rounded-and-clamped index, returning the clamped node when
all five shells hold no valid node, and otherwise a valid node of the first
non-empty shell at the smallest Euclidean distance from the query point. -/
theorem node_at_position_shell_search (g : Grid3D) (p : Vec3 ℚ) (n0 : GridNode)
    (h0 : g.getNodeByIndex (g.clampedIndex p).1 (g.clampedIndex p).2.1
      (g.clampedIndex p).2.2 = some n0) :
    (n0.is_valid = true → g.getNodeAtPosition p = some n0) ∧
    (n0.is_valid = false →
      ((∀ r ∈ ([1, 2, 3, 4, 5] : List ℤ),
          g.shellCandidates (g.clampedIndex p).1 (g.clampedIndex p).2.1
            (g.clampedIndex p).2.2 r = []) →
        g.getNodeAtPosition p = some n0) ∧
      (∀ r ∈ ([1, 2, 3, 4, 5] : List ℤ),
        g.shellCandidates (g.clampedIndex p).1 (g.clampedIndex p).2.1
          (g.clampedIndex p).2.2 r ≠ [] →
        (∀ r' ∈ ([1, 2, 3, 4, 5] : List ℤ), r' < r →
          g.shellCandidates (g.clampedIndex p).1 (g.clampedIndex p).2.1
            (g.clampedIndex p).2.2 r' = []) →
        ∃ m, g.getNodeAtPosition p = some m ∧ m.is_valid = true ∧
          m ∈ g.shellCandidates (g.clampedIndex p).1 (g.clampedIndex p).2.1
            (g.clampedIndex p).2.2 r ∧
          ∀ m' ∈ g.shellCandidates (g.clampedIndex p).1 (g.clampedIndex p).2.1
            (g.clampedIndex p).2.2 r,
            (Vec3.sub m.position p).toR.magnitude ≤
              (Vec3.sub m'.position p).toR.magnitude)) := by
  have hred : g.getNodeAtPosition p =
      (if (true : Bool) = true ∧ n0.is_valid = false then
        match searchShells g p (g.clampedIndex p).1 (g.clampedIndex p).2.1
            (g.clampedIndex p).2.2 [1, 2, 3, 4, 5] with
        | some best => some best
        | none => some n0
      else some n0) := by
    unfold Grid3D.getNodeAtPosition
    dsimp only
    rw [h0]
  constructor
  · intro hv
    rw [hred, if_neg]
    rintro ⟨-, hfalse⟩
    rw [hv] at hfalse
    cases hfalse
  · intro hinv
    constructor
    · intro hempty
      rw [hred, if_pos ⟨rfl, hinv⟩]
      rw [searchShells_cons_empty _ _ _ _ _ _ _ (hempty 1 (by norm_num)),
        searchShells_cons_empty _ _ _ _ _ _ _ (hempty 2 (by norm_num)),
        searchShells_cons_empty _ _ _ _ _ _ _ (hempty 3 (by norm_num)),
        searchShells_cons_empty _ _ _ _ _ _ _ (hempty 4 (by norm_num)),
        searchShells_cons_empty _ _ _ _ _ _ _ (hempty 5 (by norm_num))]
      rfl
    · intro r hr hne hprev
      have hfin : ∀ rs : List ℤ,
          (∃ m, searchShells g p (g.clampedIndex p).1 (g.clampedIndex p).2.1
              (g.clampedIndex p).2.2 rs = some m ∧
            m ∈ g.shellCandidates (g.clampedIndex p).1 (g.clampedIndex p).2.1
              (g.clampedIndex p).2.2 r ∧
            ∀ m' ∈ g.shellCandidates (g.clampedIndex p).1 (g.clampedIndex p).2.1
              (g.clampedIndex p).2.2 r,
              Vec3.magSq (Vec3.sub m.position p) ≤
                Vec3.magSq (Vec3.sub m'.position p)) →
          searchShells g p (g.clampedIndex p).1 (g.clampedIndex p).2.1
            (g.clampedIndex p).2.2 [1, 2, 3, 4, 5] =
            searchShells g p (g.clampedIndex p).1 (g.clampedIndex p).2.1
              (g.clampedIndex p).2.2 rs →
          ∃ m, g.getNodeAtPosition p = some m ∧ m.is_valid = true ∧
            m ∈ g.shellCandidates (g.clampedIndex p).1 (g.clampedIndex p).2.1
              (g.clampedIndex p).2.2 r ∧
            ∀ m' ∈ g.shellCandidates (g.clampedIndex p).1 (g.clampedIndex p).2.1
              (g.clampedIndex p).2.2 r,
              (Vec3.sub m.position p).toR.magnitude ≤
                (Vec3.sub m'.position p).toR.magnitude := by
        rintro rs ⟨m, hm, hmem, hmin⟩ hchain
        refine ⟨m, ?_, shellCandidates_valid hmem, hmem, ?_⟩
        · rw [hred, if_pos ⟨rfl, hinv⟩, hchain, hm]
        · intro m' hm'
          rw [Vec3.magnitude_le_magnitude_iff, toR_magSq, toR_magSq,
            Rat.cast_le]
          exact hmin m' hm'
      have h12 : (1 : ℤ) < 2 := by norm_num
      fin_cases hr
      · obtain ⟨m, hm, hmem, hmin⟩ := searchShells_cons_found g p _ _ _ 1
          [2, 3, 4, 5] hne
        exact hfin [1, 2, 3, 4, 5] ⟨m, hm, hmem, hmin⟩ rfl
      · obtain ⟨m, hm, hmem, hmin⟩ := searchShells_cons_found g p _ _ _ 2
          [3, 4, 5] hne
        exact hfin [2, 3, 4, 5] ⟨m, hm, hmem, hmin⟩
          (searchShells_cons_empty _ _ _ _ _ _ _
            (hprev 1 (by norm_num) (by norm_num)))
      · obtain ⟨m, hm, hmem, hmin⟩ := searchShells_cons_found g p _ _ _ 3
          [4, 5] hne
        refine hfin [3, 4, 5] ⟨m, hm, hmem, hmin⟩ ?_
        rw [searchShells_cons_empty _ _ _ _ _ _ _
            (hprev 1 (by norm_num) (by norm_num)),
          searchShells_cons_empty _ _ _ _ _ _ _
            (hprev 2 (by norm_num) (by norm_num))]
      · obtain ⟨m, hm, hmem, hmin⟩ := searchShells_cons_found g p _ _ _ 4
          [5] hne
        refine hfin [4, 5] ⟨m, hm, hmem, hmin⟩ ?_
        rw [searchShells_cons_empty _ _ _ _ _ _ _
            (hprev 1 (by norm_num) (by norm_num)),
          searchShells_cons_empty _ _ _ _ _ _ _
            (hprev 2 (by norm_num) (by norm_num)),
          searchShells_cons_empty _ _ _ _ _ _ _
            (hprev 3 (by norm_num) (by norm_num))]
      · obtain ⟨m, hm, hmem, hmin⟩ := searchShells_cons_found g p _ _ _ 5
          [] hne
        refine hfin [5] ⟨m, hm, hmem, hmin⟩ ?_
        rw [searchShells_cons_empty _ _ _ _ _ _ _
            (hprev 1 (by norm_num) (by norm_num)),
          searchShells_cons_empty _ _ _ _ _ _ _
            (hprev 2 (by norm_num) (by norm_num)),
          searchShells_cons_empty _ _ _ _ _ _ _
            (hprev 3 (by norm_num) (by norm_num)),
          searchShells_cons_empty _ _ _ _ _ _ _
            (hprev 4 (by norm_num) (by norm_num))]

/-- Witness for C3 on the three-node line grid whose middle node is invalid:
the query `(1.1, 0, 0)` rounds to that node, and the theorem's hypothesis is
discharged concretely. -/
theorem node_at_position_shell_search_witness :
    witSnapGrid.getNodeByIndex
      (witSnapGrid.clampedIndex ⟨11/10, 0, 0⟩).1
      (witSnapGrid.clampedIndex ⟨11/10, 0, 0⟩).2.1
      (witSnapGrid.clampedIndex ⟨11/10, 0, 0⟩).2.2 =
        some (witSnapGrid.mkNode 1 0 0) ∧
    (((witSnapGrid.mkNode 1 0 0).is_valid = true →
      witSnapGrid.getNodeAtPosition ⟨11/10, 0, 0⟩ =
        some (witSnapGrid.mkNode 1 0 0)) ∧
    ((witSnapGrid.mkNode 1 0 0).is_valid = false →
      ((∀ r ∈ ([1, 2, 3, 4, 5] : List ℤ),
          witSnapGrid.shellCandidates
            (witSnapGrid.clampedIndex ⟨11/10, 0, 0⟩).1
            (witSnapGrid.clampedIndex ⟨11/10, 0, 0⟩).2.1
            (witSnapGrid.clampedIndex ⟨11/10, 0, 0⟩).2.2 r = []) →
        witSnapGrid.getNodeAtPosition ⟨11/10, 0, 0⟩ =
          some (witSnapGrid.mkNode 1 0 0)) ∧
      (∀ r ∈ ([1, 2, 3, 4, 5] : List ℤ),
        witSnapGrid.shellCandidates
          (witSnapGrid.clampedIndex ⟨11/10, 0, 0⟩).1
          (witSnapGrid.clampedIndex ⟨11/10, 0, 0⟩).2.1
          (witSnapGrid.clampedIndex ⟨11/10, 0, 0⟩).2.2 r ≠ [] →
        (∀ r' ∈ ([1, 2, 3, 4, 5] : List ℤ), r' < r →
          witSnapGrid.shellCandidates
            (witSnapGrid.clampedIndex ⟨11/10, 0, 0⟩).1
            (witSnapGrid.clampedIndex ⟨11/10, 0, 0⟩).2.1
            (witSnapGrid.clampedIndex ⟨11/10, 0, 0⟩).2.2 r' = []) →
        ∃ m, witSnapGrid.getNodeAtPosition ⟨11/10, 0, 0⟩ = some m ∧
          m.is_valid = true ∧
          m ∈ witSnapGrid.shellCandidates
            (witSnapGrid.clampedIndex ⟨11/10, 0, 0⟩).1
            (witSnapGrid.clampedIndex ⟨11/10, 0, 0⟩).2.1
            (witSnapGrid.clampedIndex ⟨11/10, 0, 0⟩).2.2 r ∧
          ∀ m' ∈ witSnapGrid.shellCandidates
            (witSnapGrid.clampedIndex ⟨11/10, 0, 0⟩).1
            (witSnapGrid.clampedIndex ⟨11/10, 0, 0⟩).2.1
            (witSnapGrid.clampedIndex ⟨11/10, 0, 0⟩).2.2 r,
            (Vec3.sub m.position ⟨11/10, 0, 0⟩).toR.magnitude ≤
              (Vec3.sub m'.position ⟨11/10, 0, 0⟩).toR.magnitude))) := by
  have hc : witSnapGrid.clampedIndex ⟨11/10, 0, 0⟩ = (1, 0, 0) := by
    unfold Grid3D.clampedIndex pyRound
    dsimp only
    norm_num [witSnapGrid, Grid3D.nx, Grid3D.ny, Grid3D.nz, pyInt]
  have hH : witSnapGrid.getNodeByIndex
      (witSnapGrid.clampedIndex ⟨11/10, 0, 0⟩).1
      (witSnapGrid.clampedIndex ⟨11/10, 0, 0⟩).2.1
      (witSnapGrid.clampedIndex ⟨11/10, 0, 0⟩).2.2 =
        some (witSnapGrid.mkNode 1 0 0) := by
    rw [hc]
    unfold Grid3D.getNodeByIndex
    rw [if_pos]
    · rfl
    · refine ⟨by norm_num, ?_, by norm_num, ?_, by norm_num, ?_⟩ <;>
        norm_num [witSnapGrid, Grid3D.nx, Grid3D.ny, Grid3D.nz, pyInt]
  exact ⟨hH, node_at_position_shell_search witSnapGrid ⟨11/10, 0, 0⟩
    (witSnapGrid.mkNode 1 0 0) hH⟩

/-! ## C6 — dynamic airspeed of the streaming simulation -/

theorem dynamicAirspeed_bounds (wind desired : Vec3 ℝ) (base minD : ℝ)
    (hb : base ≤ 200) :
    base ≤ dynamicAirspeed wind desired base 200 minD ∧
      dynamicAirspeed wind desired base 200 minD ≤ 200 := by
  unfold dynamicAirspeed
  exact ⟨le_max_left _ _, max_le hb (min_le_left _ _)⟩

theorem streamStep_eq (wf : WindField ℝ) (base maxBoost minD ts mtr th : ℝ)
    (path : List (Vec3 ℝ)) (s : StreamState) :
    streamStep wf base maxBoost minD ts mtr th path s =
      if path.length ≤ s.state.target_waypoint_index then none
      else if path.length ≤ (streamAdv th path s).1 then none
      else some (streamNext wf base maxBoost minD ts mtr th path s) := rfl

theorem streamLoop_zero (wf : WindField ℝ)
    (base maxBoost minD ts mtr th maxT : ℝ) (path : List (Vec3 ℝ))
    (s : StreamState) :
    streamLoop wf base maxBoost minD ts mtr th maxT path 0 s =
      if s.time < maxT then (s, true) else (s, false) := rfl

theorem streamLoop_succ (wf : WindField ℝ)
    (base maxBoost minD ts mtr th maxT : ℝ) (path : List (Vec3 ℝ))
    (fuel : ℕ) (s : StreamState) :
    streamLoop wf base maxBoost minD ts mtr th maxT path (fuel + 1) s =
      if s.time < maxT then
        match streamStep wf base maxBoost minD ts mtr th path s with
        | none => (s, false)
        | some s' =>
          streamLoop wf base maxBoost minD ts mtr th maxT path fuel s'
      else (s, false) := rfl

theorem streamStep_frames {wf : WindField ℝ}
    {base maxBoost minD ts mtr th : ℝ} {path : List (Vec3 ℝ)}
    {s s' : StreamState}
    (h : streamStep wf base maxBoost minD ts mtr th path s = some s') :
    ∃ fr, s'.frames = s.frames ++ [fr] ∧
      ∃ desired : Vec3 ℝ,
        fr.airspeed = dynamicAirspeed fr.wind desired base maxBoost minD := by
  rw [streamStep_eq] at h
  split at h
  · cases h
  · split at h
    · cases h
    · cases h
      exact ⟨streamFrame wf base maxBoost minD ts mtr th path s, rfl,
        streamDesired th path s, rfl⟩

theorem streamLoop_frames (wf : WindField ℝ)
    (base maxBoost minD ts mtr th maxT : ℝ) (path : List (Vec3 ℝ)) :
    ∀ (fuel : ℕ) (s : StreamState),
      (∀ f ∈ s.frames, ∃ desired : Vec3 ℝ,
        f.airspeed = dynamicAirspeed f.wind desired base maxBoost minD) →
      ∀ f ∈ (streamLoop wf base maxBoost minD ts mtr th maxT path
          fuel s).1.frames,
        ∃ desired : Vec3 ℝ,
          f.airspeed = dynamicAirspeed f.wind desired base maxBoost minD := by
  intro fuel
  induction fuel with
  | zero =>
    intro s hs
    rw [streamLoop_zero]
    by_cases ht : s.time < maxT
    · rw [if_pos ht]
      exact hs
    · rw [if_neg ht]
      exact hs
  | succ n ih =>
    intro s hs
    rw [streamLoop_succ]
    by_cases ht : s.time < maxT
    · rw [if_pos ht]
      cases hstep : streamStep wf base maxBoost minD ts mtr th path s with
      | none =>
        exact hs
      | some s2 =>
        refine ih s2 ?_
        obtain ⟨fr, hfr, hQ⟩ := streamStep_frames hstep
        rw [hfr]
        intro f hf
        rcases List.mem_append.mp hf with hf | hf
        · exact hs f hf
        · rw [List.mem_singleton.mp hf]
          exact hQ
    · rw [if_neg ht]
      exact hs

/-- C6: every frame emitted by the streaming simulation carries the airspeed
`max(base, min(200, -wind·desired + 15))` computed by the dynamic-airspeed
clamp for that frame's wind, and therefore satisfies
`base ≤ airspeed ≤ 200` whenever `base ≤ 200`. -/
theorem stream_airspeed_clamped (wf : WindField ℝ)
    (base timestep maxTime : ℝ) (path : List (Vec3 ℝ)) (hbase : base ≤ 200) :
    ∀ f ∈ (streamSimulation wf base timestep maxTime path).frames,
      (∃ desired : Vec3 ℝ,
        f.airspeed = dynamicAirspeed f.wind desired base 200 15) ∧
      base ≤ f.airspeed ∧ f.airspeed ≤ 200 := by
  intro f hf
  have hQ : ∃ desired : Vec3 ℝ,
      f.airspeed = dynamicAirspeed f.wind desired base 200 15 := by
    unfold streamSimulation at hf
    split at hf
    · simp only [] at hf
      cases hf
    · exact streamLoop_frames wf base 200 15 timestep 360 5 maxTime path
        (⌈maxTime / timestep⌉₊) _ (by intro f hf; cases hf) f hf
  obtain ⟨d, hd⟩ := hQ
  refine ⟨⟨d, hd⟩, ?_, ?_⟩
  · rw [hd]
    exact (dynamicAirspeed_bounds f.wind d base 15 hbase).1
  · rw [hd]
    exact (dynamicAirspeed_bounds f.wind d base 15 hbase).2

/-- Witness for C6 with a concrete base airspeed below the boost ceiling. -/
theorem stream_airspeed_clamped_witness :
    (15 : ℝ) ≤ 200 ∧
    ∀ f ∈ (streamSimulation calmWindField 15 1 5 []).frames,
      (∃ desired : Vec3 ℝ,
        f.airspeed = dynamicAirspeed f.wind desired 15 200 15) ∧
      (15 : ℝ) ≤ f.airspeed ∧ f.airspeed ≤ 200 :=
  ⟨by norm_num,
   stream_airspeed_clamped calmWindField 15 1 5 [] (by norm_num)⟩

/-! ## C9 — the simulation loops terminate within the step budget -/

theorem simStep_eq (wf : WindField ℝ) (params : SimulationParams)
    (waypoints : List (Vec3 ℝ)) (ri : ℕ) (s : SimLoopState) :
    simStep wf params waypoints ri s =
      if waypoints.length ≤ s.state.target_waypoint_index then none
      else match simAdv params waypoints s with
        | none => none
        | some (idx, toT, dist) =>
          some (simNext wf params ri s idx toT dist) := rfl

theorem simLoop_zero (wf : WindField ℝ) (params : SimulationParams)
    (waypoints : List (Vec3 ℝ)) (ri : ℕ) (s : SimLoopState) :
    simLoop wf params waypoints ri 0 s =
      if s.time < params.max_time then (s, true) else (s, false) := rfl

theorem simLoop_succ (wf : WindField ℝ) (params : SimulationParams)
    (waypoints : List (Vec3 ℝ)) (ri : ℕ) (fuel : ℕ) (s : SimLoopState) :
    simLoop wf params waypoints ri (fuel + 1) s =
      if s.time < params.max_time then
        match simStep wf params waypoints ri s with
        | none => (s, false)
        | some s' => simLoop wf params waypoints ri fuel s'
      else (s, false) := rfl

theorem simStep_time {wf : WindField ℝ} {params : SimulationParams}
    {waypoints : List (Vec3 ℝ)} {ri : ℕ} {s s' : SimLoopState}
    (h : simStep wf params waypoints ri s = some s') :
    s'.time = s.time + params.timestep ∧
      s'.frames.length ≤ s.frames.length + 1 := by
  rw [simStep_eq] at h
  split at h
  · cases h
  · rcases hadv : simAdv params waypoints s with - | ⟨idx, toT, dist⟩
    · rw [hadv] at h
      cases h
    · rw [hadv] at h
      cases h
      refine ⟨rfl, ?_⟩
      have hfr : (simNext wf params ri s idx toT dist).frames =
          if s.step % ri = 0 then
            s.frames ++ [simFrame wf params s idx toT dist]
          else s.frames := rfl
      rw [hfr]
      split
      · rw [List.length_append]
        exact le_refl _
      · exact Nat.le_succ _

theorem simLoop_bound (wf : WindField ℝ) (params : SimulationParams)
    (waypoints : List (Vec3 ℝ)) (ri : ℕ) (hts : 0 < params.timestep) :
    ∀ (fuel : ℕ) (s : SimLoopState),
      params.max_time ≤ s.time + fuel * params.timestep →
      (simLoop wf params waypoints ri fuel s).2 = false ∧
      (simLoop wf params waypoints ri fuel s).1.frames.length ≤
        s.frames.length + fuel := by
  intro fuel
  induction fuel with
  | zero =>
    intro s hb
    rw [simLoop_zero, if_neg (not_lt.mpr (by simpa using hb))]
    exact ⟨rfl, Nat.le_add_right _ _⟩
  | succ n ih =>
    intro s hb
    rw [simLoop_succ]
    by_cases ht : s.time < params.max_time
    · rw [if_pos ht]
      cases hstep : simStep wf params waypoints ri s with
      | none => exact ⟨rfl, Nat.le_add_right _ _⟩
      | some s2 =>
        obtain ⟨htime, hfr⟩ := simStep_time hstep
        have hb2 : params.max_time ≤ s2.time + n * params.timestep := by
          push_cast at hb
          rw [htime]
          linarith
        obtain ⟨h2, hlen⟩ := ih s2 hb2
        exact ⟨h2, le_trans hlen (by omega)⟩
    · rw [if_neg ht]
      exact ⟨rfl, Nat.le_add_right _ _⟩

theorem streamStep_time {wf : WindField ℝ}
    {base maxBoost minD ts mtr th : ℝ} {path : List (Vec3 ℝ)}
    {s s' : StreamState}
    (h : streamStep wf base maxBoost minD ts mtr th path s = some s') :
    s'.time = s.time + ts ∧ s'.frames.length = s.frames.length + 1 := by
  rw [streamStep_eq] at h
  split at h
  · cases h
  · split at h
    · cases h
    · cases h
      refine ⟨rfl, ?_⟩
      have hfr : (streamNext wf base maxBoost minD ts mtr th path s).frames =
          s.frames ++ [streamFrame wf base maxBoost minD ts mtr th path s] := rfl
      rw [hfr, List.length_append]
      rfl

theorem streamLoop_bound (wf : WindField ℝ)
    (base maxBoost minD ts mtr th maxT : ℝ) (path : List (Vec3 ℝ))
    (hts : 0 < ts) :
    ∀ (fuel : ℕ) (s : StreamState),
      maxT ≤ s.time + fuel * ts →
      (streamLoop wf base maxBoost minD ts mtr th maxT path fuel s).2 = false ∧
      (streamLoop wf base maxBoost minD ts mtr th maxT path
        fuel s).1.frames.length ≤ s.frames.length + fuel := by
  intro fuel
  induction fuel with
  | zero =>
    intro s hb
    rw [streamLoop_zero, if_neg (not_lt.mpr (by simpa using hb))]
    exact ⟨rfl, Nat.le_add_right _ _⟩
  | succ n ih =>
    intro s hb
    rw [streamLoop_succ]
    by_cases ht : s.time < maxT
    · rw [if_pos ht]
      cases hstep : streamStep wf base maxBoost minD ts mtr th path s with
      | none => exact ⟨rfl, Nat.le_add_right _ _⟩
      | some s2 =>
        obtain ⟨htime, hfr⟩ := streamStep_time hstep
        have hb2 : maxT ≤ s2.time + n * ts := by
          push_cast at hb
          rw [htime]
          linarith
        obtain ⟨h2, hlen⟩ := ih s2 hb2
        exact ⟨h2, le_trans hlen (by omega)⟩
    · rw [if_neg ht]
      exact ⟨rfl, Nat.le_add_right _ _⟩

/-- C9: with a positive timestep, every iteration of the simulate loop that
does not break advances time by exactly one timestep, so the fuel
`⌈max_time/timestep⌉` is never exhausted (the loop terminates within that many
steps), and both the simulator and the streaming simulation emit at most
`⌈max_time/timestep⌉` frames. -/
theorem simulation_frames_bounded (wf : WindField ℝ)
    (params : SimulationParams) (waypoints : List (Vec3 ℝ)) (ri : ℕ)
    (base ts2 maxT : ℝ) (path : List (Vec3 ℝ))
    (hts : 0 < params.timestep) (hts2 : 0 < ts2) :
    (simLoop wf params waypoints ri (simFuel params)
      (simInit params waypoints)).2 = false ∧
    (simulate wf params waypoints ri).frames.length ≤
      ⌈params.max_time / params.timestep⌉₊ ∧
    (streamSimulation wf base ts2 maxT path).frames.length ≤
      ⌈maxT / ts2⌉₊ := by
  have hceil : ∀ (a b : ℝ), 0 < b → a ≤ (⌈a / b⌉₊ : ℝ) * b := by
    intro a b hb
    have h1 : a / b ≤ (⌈a / b⌉₊ : ℝ) := Nat.le_ceil _
    exact (div_le_iff hb).mp h1
  have hb1 : params.max_time ≤ (simInit params waypoints).time +
      simFuel params * params.timestep := by
    have := hceil params.max_time params.timestep hts
    calc params.max_time ≤
        (⌈params.max_time / params.timestep⌉₊ : ℝ) * params.timestep := this
      _ = (simInit params waypoints).time +
          simFuel params * params.timestep := by
        rw [show (simInit params waypoints).time = 0 from rfl]
        rw [show simFuel params = ⌈params.max_time / params.timestep⌉₊ from rfl]
        ring
  obtain ⟨hterm, hlen⟩ := simLoop_bound wf params waypoints ri hts
    (simFuel params) (simInit params waypoints) hb1
  refine ⟨hterm, ?_, ?_⟩
  · unfold simulate
    split
    · exact Nat.zero_le _
    · simp only [simInit, List.length_nil, Nat.zero_add, simFuel] at hlen
      exact hlen
  · unfold streamSimulation
    split
    · exact Nat.zero_le _
    · have hb2 : maxT ≤ (0 : ℝ) + (⌈maxT / ts2⌉₊ : ℝ) * ts2 := by
        have := hceil maxT ts2 hts2
        linarith
      obtain ⟨-, hlen2⟩ := streamLoop_bound wf base 200 15 ts2 360 5 maxT path
        hts2 (⌈maxT / ts2⌉₊)
        { time := 0, step := 0,
          state := { position := path.getD 0 Vec3.zero, velocity := Vec3.zero,
                     heading := directionTo (path.getD 0 Vec3.zero)
                       (path.getD 1 Vec3.zero),
                     airspeed := base, target_waypoint_index := 1 },
          frames := [] } hb2
      simpa using hlen2

/-- Witness for C9 at the default simulation parameters. -/
theorem simulation_frames_bounded_witness :
    ((0 : ℝ) < ({} : SimulationParams).timestep ∧ (0 : ℝ) < 1) ∧
    (simLoop calmWindField {} [] 1 (simFuel {})
      (simInit {} [])).2 = false ∧
    (simulate calmWindField {} [] 1).frames.length ≤
      ⌈({} : SimulationParams).max_time / ({} : SimulationParams).timestep⌉₊ ∧
    (streamSimulation calmWindField 15 1 600 []).frames.length ≤
      ⌈(600 : ℝ) / 1⌉₊ := by
  have h1 : (0 : ℝ) < ({} : SimulationParams).timestep := by norm_num
  have h2 : (0 : ℝ) < 1 := by norm_num
  exact ⟨⟨h1, h2⟩,
    simulation_frames_bounded calmWindField {} [] 1 15 1 600 [] h1 h2⟩

/-! ## C7 — scalar versus vectorized edge-cost precomputation -/

theorem pyClamp_eq_npClip {K : Type} [LinearOrder K] (lo hi v : K)
    (h : lo ≤ hi) : pyClamp lo hi v = npClip v lo hi := by
  unfold pyClamp npClip
  rcases le_total v lo with h1 | h1
  · rw [min_eq_right (le_trans h1 h), max_eq_left h1, min_eq_right h]
  · rcases le_total v hi with h2 | h2
    · rw [min_eq_right h2, max_eq_right h1, min_eq_right h2]
    · rw [min_eq_left h2, max_eq_right h, max_eq_right (le_trans h h2),
        min_eq_left h2]

theorem corner_clamp_agree {K : Type} [LinearOrderedField K] [FloorRing K]
    {n : ℕ} (hn : 2 ≤ n) (i : K) :
    WindField.corner (fun lo hi v => npClip v lo hi) n i =
      WindField.corner (fun lo hi v => pyClamp lo hi v) n i := by
  have hle : (0 : K) ≤ (n : K) - 1 - 1e-6 := by
    have h2 : (2 : K) ≤ (n : K) := by exact_mod_cast hn
    have : (1e-6 : K) ≤ 1 := by norm_num
    linarith
  unfold WindField.corner
  dsimp only
  rw [pyClamp_eq_npClip 0 ((n : K) - 1 - 1e-6) i hle]

theorem windBatch_eq_getWindAt {K : Type} [LinearOrderedField K] [FloorRing K]
    (wf : WindField K) (hcx : 0 < wf.cellSize.x) (hcy : 0 < wf.cellSize.y)
    (hcz : 0 < wf.cellSize.z) (hnx : 2 ≤ wf.nx) (hny : 2 ≤ wf.ny)
    (hnz : 2 ≤ wf.nz) (p : Vec3 K) :
    wf.windBatchPointwise p = wf.getWindAt p := by
  unfold WindField.windBatchPointwise WindField.getWindAt
    WindField.positionToIndexNp WindField.positionToIndex
    WindField.trilinearInterpolateWind
  dsimp only
  simp only [if_pos hcx, if_pos hcy, if_pos hcz]
  rw [corner_clamp_agree hnx, corner_clamp_agree hny, corner_clamp_agree hnz]

theorem turbBatch_eq_getTurbulenceAt {K : Type} [LinearOrderedField K]
    [FloorRing K] (wf : WindField K) (hcx : 0 < wf.cellSize.x)
    (hcy : 0 < wf.cellSize.y) (hcz : 0 < wf.cellSize.z) (hnx : 2 ≤ wf.nx)
    (hny : 2 ≤ wf.ny) (hnz : 2 ≤ wf.nz) (p : Vec3 K) :
    wf.turbulenceBatchPointwise p = wf.getTurbulenceAt p := by
  unfold WindField.turbulenceBatchPointwise WindField.getTurbulenceAt
    WindField.positionToIndexNp WindField.positionToIndex
    WindField.trilinearInterpolateTurbulence
  dsimp only
  simp only [if_pos hcx, if_pos hcy, if_pos hcz]
  rw [corner_clamp_agree hnx, corner_clamp_agree hny, corner_clamp_agree hnz]

theorem weight_if_eq {w x : ℝ} (hw : 0 ≤ w) :
    (if 0 < w then w * x else 0) = (if w = 0 then 0 else w * x) := by
  rcases eq_or_lt_of_le hw with h | h
  · rw [if_neg (by rw [← h]; exact lt_irrefl 0), if_pos h.symm]
  · rw [if_pos h, if_neg h.ne']

theorem excess_pow_eq {t th d : ℝ} {e : ℕ} (he : 0 < e) :
    (max 0 (t - th)) ^ e * d = if t ≤ th then 0 else (t - th) ^ e * d := by
  rcases le_or_lt t th with h | h
  · rw [if_pos h, max_eq_left (by linarith), zero_pow he.ne', zero_mul]
  · rw [if_neg (not_le.mpr h), max_eq_right (by linarith)]

theorem edge_cost_agree (cc : CostCalculator)
    (hwd : 0 ≤ cc.weights.distance) (hwh : 0 ≤ cc.weights.headwind)
    (hwt : 0 ≤ cc.weights.turbulence) (hexp : 0 < cc.exponent)
    (hcx : 0 < cc.wind_field.cellSize.x) (hcy : 0 < cc.wind_field.cellSize.y)
    (hcz : 0 < cc.wind_field.cellSize.z) (hnx : 2 ≤ cc.wind_field.nx)
    (hny : 2 ≤ cc.wind_field.ny) (hnz : 2 ≤ cc.wind_field.nz)
    (a b : Vec3 ℝ) (hdist : 1e-6 ≤ (b.sub a).magnitude) :
    cc.vectorizedEdgeCost a b = cc.computeEdgeCost a b := by
  have hw : cc.wind_field.windBatchPointwise = cc.wind_field.getWindAt :=
    funext (windBatch_eq_getWindAt cc.wind_field hcx hcy hcz hnx hny hnz)
  have ht : cc.wind_field.turbulenceBatchPointwise =
      cc.wind_field.getTurbulenceAt :=
    funext (turbBatch_eq_getTurbulenceAt cc.wind_field hcx hcy hcz hnx hny hnz)
  have hnlt9 : ¬((b.sub a).magnitude < 1e-9) :=
    not_lt.mpr (le_trans (by norm_num) hdist)
  have hnlt6 : ¬((b.sub a).magnitude < 1e-6) := not_lt.mpr hdist
  unfold CostCalculator.vectorizedEdgeCost CostCalculator.computeEdgeCost
    CostCalculator.headwindCost CostCalculator.turbulenceCost Vec3.normalized
  dsimp only
  rw [hw, ht, max_eq_left hdist, if_neg hnlt6, if_neg hnlt9,
    excess_pow_eq hexp, weight_if_eq hwd, weight_if_eq hwh, weight_if_eq hwt]

/-- C7 amended: with no collision checker, positive weights configuration
(non-negative weights), a positive turbulence exponent, a wind field with
positive cell sizes and at least two samples per axis, and every potential
edge at least `1e-6` long, the sequential and vectorized edge-cost
precomputations produce identical tables (same directed keys in the same
order, equal cost values). -/
theorem edge_cost_tables_agree (cc : CostCalculator) (g : Grid3D)
    (hwd : 0 ≤ cc.weights.distance) (hwh : 0 ≤ cc.weights.headwind)
    (hwt : 0 ≤ cc.weights.turbulence) (hexp : 0 < cc.exponent)
    (hcx : 0 < cc.wind_field.cellSize.x) (hcy : 0 < cc.wind_field.cellSize.y)
    (hcz : 0 < cc.wind_field.cellSize.z) (hnx : 2 ≤ cc.wind_field.nx)
    (hny : 2 ≤ cc.wind_field.ny) (hnz : 2 ≤ cc.wind_field.nz)
    (hdist : ∀ node ∈ g.validNodes, ∀ nb ∈ g.getNeighbors node,
      1e-6 ≤ ((nb.position.toR).sub (node.position.toR)).magnitude) :
    cc.precomputeEdgeCostsVectorized g none = cc.precomputeEdgeCosts g none := by
  unfold CostCalculator.precomputeEdgeCostsVectorized
    CostCalculator.precomputeEdgeCosts potentialEdges
  dsimp only
  rw [List.map_flatMap]
  apply List.flatMap_congr
  intro node hn
  rw [List.map_filterMap]
  apply List.filterMap_congr
  intro nb hnb
  rw [if_pos (neighbors_valid hnb)]
  rw [Option.map_some']
  rw [edge_cost_agree cc hwd hwh hwt hexp hcx hcy hcz hnx hny hnz
    node.position.toR nb.position.toR (hdist node hn nb hnb)]

theorem offsets_bounds : ∀ d ∈ NEIGHBOR_OFFSETS,
    -1 ≤ d.1 ∧ d.1 ≤ 1 ∧ -1 ≤ d.2.1 ∧ d.2.1 ≤ 1 ∧ -1 ≤ d.2.2 ∧ d.2.2 ≤ 1 ∧
    ¬(d.1 = 0 ∧ d.2.1 = 0 ∧ d.2.2 = 0) := by
  decide

theorem cexGrid_nx : cexGrid.nx = 2 := by
  unfold Grid3D.nx pyInt
  norm_num [cexGrid]
  decide

theorem cexGrid_ny : cexGrid.ny = 1 := by
  unfold Grid3D.ny pyInt
  norm_num [cexGrid]

theorem cexGrid_nz : cexGrid.nz = 1 := by
  unfold Grid3D.nz pyInt
  norm_num [cexGrid]

theorem cexGrid_pairs {node nb : GridNode} (hn : node ∈ cexGrid.validNodes)
    (hnb : nb ∈ cexGrid.getNeighbors node) :
    (node = cexGrid.mkNode 0 0 0 ∧ nb = cexGrid.mkNode 1 0 0) ∨
    (node = cexGrid.mkNode 1 0 0 ∧ nb = cexGrid.mkNode 0 0 0) := by
  obtain ⟨hv, ix, iy, iz, hxb, hyb, hzb, rfl⟩ := mem_validNodes.mp hn
  rw [cexGrid_nx] at hxb
  rw [cexGrid_ny] at hyb
  rw [cexGrid_nz] at hzb
  interval_cases iy
  interval_cases iz
  obtain ⟨d, hd, hb, rfl, hvnb⟩ := mem_getNeighbors.mp hnb
  obtain ⟨h1, h2, h3, h4, h5, h6⟩ := hb
  obtain ⟨o1, o2, o3, o4, o5, o6, o7⟩ := offsets_bounds d hd
  rw [cexGrid_nx] at h2
  rw [cexGrid_ny] at h4
  rw [cexGrid_nz] at h6
  have hgi : (cexGrid.mkNode ix 0 0).grid_index = (ix, 0, 0) := rfl
  rw [hgi] at h1 h2 h3 h4 h5 h6
  dsimp only at h1 h2 h3 h4 h5 h6
  have hdy : d.2.1 = 0 := by omega
  have hdz : d.2.2 = 0 := by omega
  have hdx : d.1 ≠ 0 := fun h => o7 ⟨h, hdy, hdz⟩
  interval_cases ix
  · left
    have hdx1 : d.1 = 1 := by omega
    refine ⟨rfl, ?_⟩
    have a1 : (((cexGrid.mkNode 0 0 0).grid_index.1 : ℤ) + d.1).toNat = 1 := by
      show (((0 : ℕ) : ℤ) + d.1).toNat = 1
      omega
    have a2 : (((cexGrid.mkNode 0 0 0).grid_index.2.1 : ℤ) + d.2.1).toNat = 0 := by
      show (((0 : ℕ) : ℤ) + d.2.1).toNat = 0
      omega
    have a3 : (((cexGrid.mkNode 0 0 0).grid_index.2.2 : ℤ) + d.2.2).toNat = 0 := by
      show (((0 : ℕ) : ℤ) + d.2.2).toNat = 0
      omega
    rw [a1, a2, a3]
  · right
    have hdx1 : d.1 = -1 := by omega
    refine ⟨rfl, ?_⟩
    have a1 : (((cexGrid.mkNode 1 0 0).grid_index.1 : ℤ) + d.1).toNat = 0 := by
      show (((1 : ℕ) : ℤ) + d.1).toNat = 0
      omega
    have a2 : (((cexGrid.mkNode 1 0 0).grid_index.2.1 : ℤ) + d.2.1).toNat = 0 := by
      show (((0 : ℕ) : ℤ) + d.2.1).toNat = 0
      omega
    have a3 : (((cexGrid.mkNode 1 0 0).grid_index.2.2 : ℤ) + d.2.2).toNat = 0 := by
      show (((0 : ℕ) : ℤ) + d.2.2).toNat = 0
      omega
    rw [a1, a2, a3]

theorem cexGrid_pos0 : (cexGrid.mkNode 0 0 0).position.toR = ⟨0, 0, 0⟩ := by
  show (cexGrid.posOf 0 0 0).toR = _
  unfold Grid3D.posOf Vec3.toR
  rw [Vec3.mk.injEq]
  norm_num [cexGrid]

theorem cexGrid_pos1 : (cexGrid.mkNode 1 0 0).position.toR = ⟨20, 0, 0⟩ := by
  show (cexGrid.posOf 1 0 0).toR = _
  unfold Grid3D.posOf Vec3.toR
  rw [Vec3.mk.injEq]
  norm_num [cexGrid]

theorem cexNarrow_fastClear_fwd :
    cexNarrowVoxel.fastClear ⟨0, 0, 0⟩ ⟨20, 0, 0⟩ = false := by
  unfold VoxelGrid.fastClear
  refine decide_eq_false ?_
  push_neg
  norm_num [cexNarrowVoxel]

theorem cexNarrow_fastClear_bwd :
    cexNarrowVoxel.fastClear ⟨20, 0, 0⟩ ⟨0, 0, 0⟩ = false := by
  unfold VoxelGrid.fastClear
  refine decide_eq_false ?_
  push_neg
  norm_num [cexNarrowVoxel]

theorem cexNarrow_occupied_mid :
    cexNarrowVoxel.pointOccupied ⟨5/2, 0, 0⟩ = true := by
  unfold VoxelGrid.pointOccupied
  rw [if_neg]
  · rfl
  · unfold VoxelGrid.outOfBounds
    simp only [decide_eq_true_eq, cexNarrowVoxel]
    push_neg
    norm_num

theorem cex_dda_hit_fwd :
    cexNarrowVoxel.segmentIntersects ⟨0, 0, 0⟩ ⟨20, 0, 0⟩ = true := by
  unfold VoxelGrid.segmentIntersects
  rw [if_neg (by rw [cexNarrow_fastClear_fwd]; exact Bool.false_ne_true)]
  have hlen : (Vec3.sub (⟨20, 0, 0⟩ : Vec3 ℝ) ⟨0, 0, 0⟩).magnitude = 20 := by
    unfold Vec3.sub Vec3.magnitude
    dsimp only
    rw [show ((20:ℝ) - 0) ^ 2 + (0 - 0) ^ 2 + (0 - 0) ^ 2 = 20 ^ 2 by norm_num]
    exact Real.sqrt_sq (by norm_num)
  dsimp only
  rw [hlen]
  rw [if_neg (by norm_num)]
  have hsteps : max 2 (pyInt ((20 : ℝ) / (cexNarrowVoxel.voxel_size * 0.5)) + 1)
      = 9 := by
    unfold pyInt
    norm_num [cexNarrowVoxel]
  rw [hsteps]
  rw [List.any_eq_true]
  refine ⟨1, List.mem_range.mpr (by norm_num), ?_⟩
  dsimp only
  rw [if_pos (by norm_num)]
  have hpos : (Vec3.add (⟨0, 0, 0⟩ : Vec3 ℝ)
      ((Vec3.sub (⟨20, 0, 0⟩ : Vec3 ℝ) ⟨0, 0, 0⟩).smul
        ((1 : ℕ) / (((9 : ℤ) : ℝ) - 1)))) = ⟨5/2, 0, 0⟩ := by
    unfold Vec3.add Vec3.sub Vec3.smul
    rw [Vec3.mk.injEq]
    norm_num
  rw [hpos]
  exact cexNarrow_occupied_mid

theorem cex_dda_hit_bwd :
    cexNarrowVoxel.segmentIntersects ⟨20, 0, 0⟩ ⟨0, 0, 0⟩ = true := by
  unfold VoxelGrid.segmentIntersects
  rw [if_neg (by rw [cexNarrow_fastClear_bwd]; exact Bool.false_ne_true)]
  have hlen : (Vec3.sub (⟨0, 0, 0⟩ : Vec3 ℝ) ⟨20, 0, 0⟩).magnitude = 20 := by
    unfold Vec3.sub Vec3.magnitude
    dsimp only
    rw [show ((0:ℝ) - 20) ^ 2 + (0 - 0) ^ 2 + (0 - 0) ^ 2 = 20 ^ 2 by norm_num]
    exact Real.sqrt_sq (by norm_num)
  dsimp only
  rw [hlen]
  rw [if_neg (by norm_num)]
  have hsteps : max 2 (pyInt ((20 : ℝ) / (cexNarrowVoxel.voxel_size * 0.5)) + 1)
      = 9 := by
    unfold pyInt
    norm_num [cexNarrowVoxel]
  rw [hsteps]
  rw [List.any_eq_true]
  refine ⟨7, List.mem_range.mpr (by norm_num), ?_⟩
  dsimp only
  rw [if_pos (by norm_num)]
  have hpos : (Vec3.add (⟨20, 0, 0⟩ : Vec3 ℝ)
      ((Vec3.sub (⟨0, 0, 0⟩ : Vec3 ℝ) ⟨20, 0, 0⟩).smul
        ((7 : ℕ) / (((9 : ℤ) : ℝ) - 1)))) = ⟨5/2, 0, 0⟩ := by
    unfold Vec3.add Vec3.sub Vec3.smul
    rw [Vec3.mk.injEq]
    norm_num
  rw [hpos]
  exact cexNarrow_occupied_mid

theorem cexNarrow_sampled_clear :
    cexNarrowVoxel.segmentIntersectsSampled ⟨0, 0, 0⟩ ⟨20, 0, 0⟩ 5 = false := by
  unfold VoxelGrid.segmentIntersectsSampled
  rw [if_neg (by rw [cexNarrow_fastClear_fwd]; exact Bool.false_ne_true)]
  rw [List.any_eq_false]
  have hocc : ∀ t : ℝ, 20 * t < 2 ∨ 3 < 20 * t →
      cexNarrowVoxel.pointOccupied
        (Vec3.add ⟨0, 0, 0⟩ ((Vec3.sub (⟨20, 0, 0⟩ : Vec3 ℝ) ⟨0, 0, 0⟩).smul t))
        = false := by
    intro t ht
    unfold Vec3.add Vec3.sub Vec3.smul VoxelGrid.pointOccupied
    rw [if_pos]
    unfold VoxelGrid.outOfBounds
    simp only [decide_eq_true_eq, cexNarrowVoxel]
    rcases ht with h | h
    · left
      linarith
    · right
      right
      right
      left
      linarith
  intro k hk
  rw [List.mem_range] at hk
  rw [Bool.not_eq_true]
  dsimp only
  interval_cases k <;>
    [exact hocc _ (by norm_num [VoxelGrid.sampleT]);
     exact hocc _ (by norm_num [VoxelGrid.sampleT]);
     exact hocc _ (by norm_num [VoxelGrid.sampleT]);
     exact hocc _ (by norm_num [VoxelGrid.sampleT]);
     exact hocc _ (by norm_num [VoxelGrid.sampleT])]

theorem cexGrid_mem0 : cexGrid.mkNode 0 0 0 ∈ cexGrid.validNodes := by
  refine mem_validNodes.mpr ⟨rfl, 0, 0, 0, ?_, ?_, ?_, rfl⟩
  · rw [cexGrid_nx]
    norm_num
  · rw [cexGrid_ny]
    norm_num
  · rw [cexGrid_nz]
    norm_num

theorem cexGrid_mem_nb :
    cexGrid.mkNode 1 0 0 ∈ cexGrid.getNeighbors (cexGrid.mkNode 0 0 0) := by
  refine mem_getNeighbors.mpr ⟨(1, 0, 0), by decide,
    ⟨?_, ?_, ?_, ?_, ?_, ?_⟩, ?_, rfl⟩
  · show (0 : ℤ) ≤ ((0 : ℕ) : ℤ) + 1
    norm_num
  · show ((0 : ℕ) : ℤ) + 1 < (cexGrid.nx : ℤ)
    rw [cexGrid_nx]
    norm_num
  · show (0 : ℤ) ≤ ((0 : ℕ) : ℤ) + 0
    norm_num
  · show ((0 : ℕ) : ℤ) + 0 < (cexGrid.ny : ℤ)
    rw [cexGrid_ny]
    norm_num
  · show (0 : ℤ) ≤ ((0 : ℕ) : ℤ) + 0
    norm_num
  · show ((0 : ℕ) : ℤ) + 0 < (cexGrid.nz : ℤ)
    rw [cexGrid_nz]
    norm_num
  · show cexGrid.mkNode 1 0 0 =
      cexGrid.mkNode ((((0 : ℕ) : ℤ) + 1).toNat) ((((0 : ℕ) : ℤ) + 0).toNat)
        ((((0 : ℕ) : ℤ) + 0).toNat)
    rfl

theorem cexGrid_id0 : (cexGrid.mkNode 0 0 0).id = 0 := by
  show cexGrid.idOf 0 0 0 = 0
  unfold Grid3D.idOf
  omega

theorem cexGrid_id1 : (cexGrid.mkNode 1 0 0).id = 1 := by
  show cexGrid.idOf 1 0 0 = 1
  unfold Grid3D.idOf
  rw [cexGrid_ny, cexGrid_nz]

/-- C7 counterexample: on a two-node grid whose only edge flies over a narrow
occupied voxel, with a collision checker present, the sequential
precomputation's length-dependent 9-sample segment query hits the voxel (its
sample at `x = 2.5` is inside), so the sequential table is empty, while the
vectorized precomputation's fixed 5-sample query misses it (its samples
`x ∈ {0, 5, 10, 15, 20}` all fall outside), so the vectorized table contains
the directed key `(0, 1)` — the two precomputations produce different key
sets on identical inputs. -/
theorem edge_cost_tables_differ_cex :
    CostCalculator.precomputeEdgeCosts cexCalc cexGrid (some cexChecker) = [] ∧
    (0, 1) ∈ (CostCalculator.precomputeEdgeCostsVectorized cexCalc cexGrid
      (some cexChecker)).map Prod.fst := by
  constructor
  · rw [List.eq_nil_iff_forall_not_mem]
    intro kv hkv
    unfold CostCalculator.precomputeEdgeCosts at hkv
    rw [List.mem_flatMap] at hkv
    obtain ⟨node, hn, hkv⟩ := hkv
    rw [List.mem_filterMap] at hkv
    obtain ⟨nb, hnb, hmk⟩ := hkv
    dsimp only at hmk
    by_cases hval : MeshCollisionChecker.nodeEdgeValid cexChecker node nb = true
    · rcases cexGrid_pairs hn hnb with ⟨rfl, rfl⟩ | ⟨rfl, rfl⟩
      · unfold MeshCollisionChecker.nodeEdgeValid at hval
        rw [if_neg (by
          simp [show (cexGrid.mkNode 0 0 0).is_valid = true from rfl,
            show (cexGrid.mkNode 1 0 0).is_valid = true from rfl])] at hval
        unfold MeshCollisionChecker.edgeIntersectsBuilding at hval
        rw [show cexChecker.voxel_grid = cexNarrowVoxel from rfl,
          cexGrid_pos0, cexGrid_pos1, cex_dda_hit_fwd] at hval
        simp at hval
      · unfold MeshCollisionChecker.nodeEdgeValid at hval
        rw [if_neg (by
          simp [show (cexGrid.mkNode 0 0 0).is_valid = true from rfl,
            show (cexGrid.mkNode 1 0 0).is_valid = true from rfl])] at hval
        unfold MeshCollisionChecker.edgeIntersectsBuilding at hval
        rw [show cexChecker.voxel_grid = cexNarrowVoxel from rfl,
          cexGrid_pos0, cexGrid_pos1, cex_dda_hit_bwd] at hval
        simp at hval
    · rw [if_neg hval] at hmk
      cases hmk
  · unfold CostCalculator.precomputeEdgeCostsVectorized
    dsimp only
    rw [List.map_map]
    refine List.mem_map.mpr
      ⟨((cexGrid.mkNode 0 0 0).id, (cexGrid.mkNode 1 0 0).id,
        (cexGrid.mkNode 0 0 0).position, (cexGrid.mkNode 1 0 0).position),
       ?_, ?_⟩
    · rw [List.mem_filter]
      refine ⟨mem_potentialEdges.mpr ⟨cexGrid.mkNode 0 0 0,
        cexGrid.mkNode 1 0 0, cexGrid_mem0, cexGrid_mem_nb, rfl⟩, ?_⟩
      dsimp only
      rw [show cexChecker.voxel_grid = cexNarrowVoxel from rfl,
        cexGrid_pos0, cexGrid_pos1, cexNarrow_sampled_clear]
      rfl
    · show ((cexGrid.mkNode 0 0 0).id, (cexGrid.mkNode 1 0 0).id) = (0, 1)
      rw [cexGrid_id0, cexGrid_id1]

theorem magnitude_sub_20_fwd :
    ((⟨20, 0, 0⟩ : Vec3 ℝ).sub ⟨0, 0, 0⟩).magnitude = 20 := by
  unfold Vec3.sub Vec3.magnitude
  dsimp only
  rw [show ((20:ℝ) - 0) ^ 2 + (0 - 0) ^ 2 + (0 - 0) ^ 2 = 20 ^ 2 by norm_num]
  exact Real.sqrt_sq (by norm_num)

theorem magnitude_sub_20_bwd :
    ((⟨0, 0, 0⟩ : Vec3 ℝ).sub ⟨20, 0, 0⟩).magnitude = 20 := by
  unfold Vec3.sub Vec3.magnitude
  dsimp only
  rw [show ((0:ℝ) - 20) ^ 2 + (0 - 0) ^ 2 + (0 - 0) ^ 2 = 20 ^ 2 by norm_num]
  exact Real.sqrt_sq (by norm_num)

/-- Witness for the amended C7: the agreement theorem applied to the
speed-priority calculator over a well-formed 2×2×2 wind field and the
two-node grid, discharging every hypothesis concretely. -/
theorem edge_cost_tables_agree_witness :
    ((0 : ℝ) ≤ witCalc.weights.distance ∧ (0 : ℝ) ≤ witCalc.weights.headwind ∧
     (0 : ℝ) ≤ witCalc.weights.turbulence ∧ 0 < witCalc.exponent ∧
     0 < witCalc.wind_field.cellSize.x ∧ 0 < witCalc.wind_field.cellSize.y ∧
     0 < witCalc.wind_field.cellSize.z ∧ 2 ≤ witCalc.wind_field.nx ∧
     2 ≤ witCalc.wind_field.ny ∧ 2 ≤ witCalc.wind_field.nz ∧
     (∀ node ∈ cexGrid.validNodes, ∀ nb ∈ cexGrid.getNeighbors node,
       1e-6 ≤ ((nb.position.toR).sub (node.position.toR)).magnitude)) ∧
    witCalc.precomputeEdgeCostsVectorized cexGrid none =
      witCalc.precomputeEdgeCosts cexGrid none := by
  have hwd : (0 : ℝ) ≤ witCalc.weights.distance := by
    norm_num [witCalc, WeightConfig.speedPriority]
  have hwh : (0 : ℝ) ≤ witCalc.weights.headwind := by
    norm_num [witCalc, WeightConfig.speedPriority]
  have hwt : (0 : ℝ) ≤ witCalc.weights.turbulence := by
    norm_num [witCalc, WeightConfig.speedPriority]
  have hexp : 0 < witCalc.exponent := by norm_num [witCalc]
  have hcx : 0 < witCalc.wind_field.cellSize.x := by
    norm_num [witCalc, witWindField, WindField.cellSize, WindField.cellSize1]
  have hcy : 0 < witCalc.wind_field.cellSize.y := by
    norm_num [witCalc, witWindField, WindField.cellSize, WindField.cellSize1]
  have hcz : 0 < witCalc.wind_field.cellSize.z := by
    norm_num [witCalc, witWindField, WindField.cellSize, WindField.cellSize1]
  have hnx : 2 ≤ witCalc.wind_field.nx := by norm_num [witCalc, witWindField]
  have hny : 2 ≤ witCalc.wind_field.ny := by norm_num [witCalc, witWindField]
  have hnz : 2 ≤ witCalc.wind_field.nz := by norm_num [witCalc, witWindField]
  have hdist : ∀ node ∈ cexGrid.validNodes, ∀ nb ∈ cexGrid.getNeighbors node,
      1e-6 ≤ ((nb.position.toR).sub (node.position.toR)).magnitude := by
    intro node hn nb hnb
    rcases cexGrid_pairs hn hnb with ⟨rfl, rfl⟩ | ⟨rfl, rfl⟩
    · rw [cexGrid_pos0, cexGrid_pos1, magnitude_sub_20_fwd]
      norm_num
    · rw [cexGrid_pos0, cexGrid_pos1, magnitude_sub_20_bwd]
      norm_num
  exact ⟨⟨hwd, hwh, hwt, hexp, hcx, hcy, hcz, hnx, hny, hnz, hdist⟩,
    edge_cost_tables_agree witCalc cexGrid hwd hwh hwt hexp hcx hcy hcz
      hnx hny hnz hdist⟩

/-! ## C1 — Dijkstra correctness -/

section DijkstraProof

variable {α : Type} [LinearOrderedField α] [DecidableEq α]
variable [∀ a b : α, Decidable (a < b)] [∀ a b : α, Decidable (a ≤ b)]
variable {table : ℕ → ℕ → Option α}

theorem popMin_eq_none {l : List (α × ℕ)} (h : popMin l = none) : l = [] := by
  cases l with
  | nil => rfl
  | cons e rest =>
    unfold popMin at h
    cases ht : popMin rest with
    | none =>
      rw [ht] at h
      cases h
    | some p =>
      obtain ⟨m, others⟩ := p
      rw [ht] at h
      dsimp only at h
      by_cases hc : e.1 < m.1 ∨ (e.1 = m.1 ∧ e.2 ≤ m.2)
      · rw [if_pos hc] at h
        cases h
      · rw [if_neg hc] at h
        cases h

theorem popMin_spec {l : List (α × ℕ)} {m : α × ℕ} {rest : List (α × ℕ)}
    (h : popMin l = some (m, rest)) :
    (∃ l1 l2, l = l1 ++ m :: l2 ∧ rest = l1 ++ l2) ∧ ∀ e ∈ l, m.1 ≤ e.1 := by
  induction l generalizing m rest with
  | nil => cases h
  | cons e t ih =>
    unfold popMin at h
    cases ht : popMin t with
    | none =>
      rw [ht] at h
      have hte := popMin_eq_none ht
      subst hte
      cases h
      refine ⟨⟨[], [], rfl, rfl⟩, ?_⟩
      intro x hx
      rcases List.mem_singleton.mp hx with rfl
      exact le_refl _
    | some p =>
      obtain ⟨m', others⟩ := p
      rw [ht] at h
      dsimp only at h
      by_cases hc : e.1 < m'.1 ∨ (e.1 = m'.1 ∧ e.2 ≤ m'.2)
      · rw [if_pos hc] at h
        cases h
        obtain ⟨-, hmin⟩ := ih ht
        refine ⟨⟨[], t, rfl, rfl⟩, ?_⟩
        intro x hx
        rcases List.mem_cons.mp hx with rfl | hx
        · exact le_refl _
        · have h1 : e.1 ≤ m'.1 := by
            rcases hc with h' | ⟨h', -⟩
            · exact le_of_lt h'
            · exact le_of_eq h'
          exact le_trans h1 (hmin x hx)
      · rw [if_neg hc] at h
        cases h
        obtain ⟨⟨l1, l2, hsplit, hrest⟩, hmin⟩ := ih ht
        push_neg at hc
        refine ⟨⟨e :: l1, l2, by rw [hsplit, List.cons_append],
          by rw [hrest, List.cons_append]⟩, ?_⟩
        intro x hx
        rcases List.mem_cons.mp hx with rfl | hx
        · exact hc.1
        · exact hmin x hx

theorem popMin_mem {l : List (α × ℕ)} {m : α × ℕ} {rest : List (α × ℕ)}
    (h : popMin l = some (m, rest)) : m ∈ l := by
  obtain ⟨⟨l1, l2, hsplit, -⟩, -⟩ := popMin_spec h
  rw [hsplit]
  exact List.mem_append.mpr (Or.inr (List.mem_cons_self _ _))

theorem popMin_rest_subset {l : List (α × ℕ)} {m : α × ℕ}
    {rest : List (α × ℕ)} (h : popMin l = some (m, rest)) :
    ∀ e ∈ rest, e ∈ l := by
  obtain ⟨⟨l1, l2, hsplit, hrest⟩, -⟩ := popMin_spec h
  intro e he
  rw [hsplit]
  rcases List.mem_append.mp (hrest ▸ he) with h' | h'
  · exact List.mem_append.mpr (Or.inl h')
  · exact List.mem_append.mpr (Or.inr (List.mem_cons_of_mem _ h'))

theorem popMin_mem_rest {l : List (α × ℕ)} {m : α × ℕ}
    {rest : List (α × ℕ)} (h : popMin l = some (m, rest)) :
    ∀ e ∈ l, e ≠ m → e ∈ rest := by
  obtain ⟨⟨l1, l2, hsplit, hrest⟩, -⟩ := popMin_spec h
  intro e he hne
  rw [hrest]
  rw [hsplit] at he
  rcases List.mem_append.mp he with h' | h'
  · exact List.mem_append.mpr (Or.inl h')
  · rcases List.mem_cons.mp h' with rfl | h'
    · exact absurd rfl hne
    · exact List.mem_append.mpr (Or.inr h')

theorem pathSum_cons₂ (u v : ℕ) (rest : List ℕ) :
    pathSum table (u :: v :: rest) =
      (table u v).bind fun w =>
        (pathSum table (v :: rest)).map fun d => w + d := rfl

theorem pathSum_cons₂_elim {u v : ℕ} {rest : List ℕ} {d : α}
    (h : pathSum table (u :: v :: rest) = some d) :
    ∃ w d', table u v = some w ∧ pathSum table (v :: rest) = some d' ∧
      d = w + d' := by
  rw [pathSum_cons₂] at h
  cases htuv : table u v with
  | none =>
    rw [htuv] at h
    cases h
  | some w =>
    rw [htuv] at h
    cases hps : pathSum table (v :: rest) with
    | none =>
      rw [hps] at h
      cases h
    | some d' =>
      rw [hps] at h
      dsimp only [Option.bind, Option.map] at h
      cases h
      exact ⟨w, d', rfl, rfl, rfl⟩

theorem pathSum_nonneg (hnn : ∀ u v w, table u v = some w → 0 ≤ w) :
    ∀ (l : List ℕ) (d : α), pathSum table l = some d → 0 ≤ d := by
  intro l
  induction l with
  | nil =>
    intro d h
    cases h
    exact le_refl _
  | cons u t ih =>
    intro d h
    cases t with
    | nil =>
      cases h
      exact le_refl _
    | cons v rest =>
      obtain ⟨w, d', hw, hd', rfl⟩ := pathSum_cons₂_elim h
      have := ih d' hd'
      have := hnn u v w hw
      linarith

theorem pathSum_append_single :
    ∀ (l : List ℕ) (u v : ℕ) (w d : α), l.getLast? = some u →
      pathSum table l = some d → table u v = some w →
      pathSum table (l ++ [v]) = some (d + w) := by
  intro l
  induction l with
  | nil =>
    intro u v w d hlast
    cases hlast
  | cons x t ih =>
    intro u v w d hlast hsum htab
    cases t with
    | nil =>
      rw [List.getLast?_singleton] at hlast
      cases hlast
      cases hsum
      show pathSum table [x, v] = some (0 + w)
      rw [pathSum_cons₂, htab]
      show some (w + 0) = some (0 + w)
      rw [add_comm]
    | cons y rest =>
      rw [List.getLast?_cons_cons] at hlast
      obtain ⟨w1, d1, hw1, hd1, rfl⟩ := pathSum_cons₂_elim hsum
      have hih := ih u v w d1 hlast hd1 htab
      show pathSum table (x :: ((y :: rest) ++ [v])) = some (w1 + d1 + w)
      rw [show (y :: rest) ++ [v] = y :: (rest ++ [v]) from rfl] at hih ⊢
      rw [pathSum_cons₂, hw1, hih]
      show some (w1 + (d1 + w)) = some (w1 + d1 + w)
      rw [add_assoc]

end DijkstraProof

theorem getNodeByIndex_id_lt {g : Grid3D} {i j k : ℤ} {n : GridNode}
    (h : g.getNodeByIndex i j k = some n) : n.id < g.totalNodes := by
  unfold Grid3D.getNodeByIndex at h
  split at h
  · cases h
    rename_i hb
    exact idOf_lt_totalNodes g (by omega) (by omega) (by omega)
  · cases h

theorem getNeighbors_id_lt {g : Grid3D} {n nb : GridNode}
    (h : nb ∈ g.getNeighbors n) : nb.id < g.totalNodes := by
  obtain ⟨d, -, ⟨h1, h2, h3, h4, h5, h6⟩, rfl, -⟩ := mem_getNeighbors.mp h
  exact idOf_lt_totalNodes g (by omega) (by omega) (by omega)

theorem getNeighborIds_lt {g : Grid3D} {u v : ℕ}
    (h : v ∈ g.getNeighborIds u) : v < g.totalNodes := by
  unfold Grid3D.getNeighborIds at h
  cases hn : g.getNodeById u with
  | none =>
    rw [hn] at h
    cases h
  | some n =>
    rw [hn] at h
    obtain ⟨nb, hnb, rfl⟩ := List.mem_map.mp h
    exact getNeighbors_id_lt hnb

theorem shellCandidates_id_lt {g : Grid3D} {ix iy iz r : ℤ} {m : GridNode}
    (h : m ∈ g.shellCandidates ix iy iz r) : m.id < g.totalNodes := by
  unfold Grid3D.shellCandidates at h
  simp only [List.mem_flatMap, List.mem_filterMap] at h
  obtain ⟨dx, -, dy, -, dz, -, hmk⟩ := h
  by_cases habs : |dx| = r ∨ |dy| = r ∨ |dz| = r
  · rw [if_pos habs] at hmk
    by_cases hb : 0 ≤ ix + dx ∧ ix + dx < (g.nx : ℤ) ∧ 0 ≤ iy + dy ∧
        iy + dy < (g.ny : ℤ) ∧ 0 ≤ iz + dz ∧ iz + dz < (g.nz : ℤ)
    · rw [if_pos hb] at hmk
      cases hbi : g.getNodeByIndex (ix + dx) (iy + dy) (iz + dz) with
      | none =>
        rw [hbi] at hmk
        cases hmk
      | some nb =>
        rw [hbi] at hmk
        dsimp only at hmk
        by_cases hv : nb.is_valid = true
        · rw [if_pos hv] at hmk
          cases hmk
          exact getNodeByIndex_id_lt hbi
        · rw [if_neg hv] at hmk
          cases hmk
    · rw [if_neg hb] at hmk
      cases hmk
  · rw [if_neg habs] at hmk
    cases hmk

theorem searchShells_id_lt {g : Grid3D} {p : Vec3 ℚ} {ix iy iz : ℤ} :
    ∀ (rs : List ℤ) (m : GridNode), searchShells g p ix iy iz rs = some m →
      m.id < g.totalNodes := by
  intro rs
  induction rs with
  | nil =>
    intro m h
    cases h
  | cons r rs ih =>
    intro m h
    rcases hpick : pickNearest p (g.shellCandidates ix iy iz r) with - | ⟨n0, d0⟩
    · have heq : searchShells g p ix iy iz (r :: rs) =
          searchShells g p ix iy iz rs := by
        show (match pickNearest p (g.shellCandidates ix iy iz r) with
          | some (n, _) => some n
          | none => searchShells g p ix iy iz rs) = _
        rw [hpick]
      rw [heq] at h
      exact ih m h
    · have heq : searchShells g p ix iy iz (r :: rs) = some n0 := by
        show (match pickNearest p (g.shellCandidates ix iy iz r) with
          | some (n, _) => some n
          | none => searchShells g p ix iy iz rs) = _
        rw [hpick]
      rw [heq] at h
      obtain rfl : n0 = m := by injection h
      by_cases hne : g.shellCandidates ix iy iz r = []
      · rw [hne] at hpick
        exact absurd
          (show (none : Option (GridNode × ℚ)) = some (n0, d0) from hpick)
          (by simp)
      · obtain ⟨cn, cd, hp2, hmem, -⟩ := pickNearest_spec p _ hne
        rw [hp2] at hpick
        cases hpick
        exact shellCandidates_id_lt hmem

theorem getNodeAtPosition_id_lt {g : Grid3D} {p : Vec3 ℚ} {n : GridNode}
    (h : g.getNodeAtPosition p = some n) : n.id < g.totalNodes := by
  unfold Grid3D.getNodeAtPosition at h
  dsimp only at h
  cases hbi : g.getNodeByIndex (g.clampedIndex p).1 (g.clampedIndex p).2.1
      (g.clampedIndex p).2.2 with
  | none =>
    rw [hbi] at h
    cases h
  | some n0 =>
    rw [hbi] at h
    dsimp only at h
    split at h
    · cases hss : searchShells g p (g.clampedIndex p).1 (g.clampedIndex p).2.1
          (g.clampedIndex p).2.2 [1, 2, 3, 4, 5] with
      | none =>
        rw [hss] at h
        cases h
        exact getNodeByIndex_id_lt hbi
      | some best =>
        rw [hss] at h
        cases h
        exact searchShells_id_lt _ _ hss
    · cases h
      exact getNodeByIndex_id_lt hbi

section DijkstraInv

variable {α : Type} [LinearOrderedField α] [DecidableEq α]
variable [∀ a b : α, Decidable (a < b)] [∀ a b : α, Decidable (a ≤ b)]

/-- Loop invariant of the embedded `_dijkstra` search (lazy-deletion Dijkstra
with non-negative weights). -/
structure DInv (g : Grid3D) (table : ℕ → ℕ → Option α) (startId : ℕ)
    (st : DijkstraState α) : Prop where
  nodup : st.visited.Nodup
  vis_lt : ∀ v ∈ st.visited, v < g.totalNodes
  pq_lt : ∀ e ∈ st.pq, e.2 < g.totalNodes
  pq_nonneg : ∀ e ∈ st.pq, 0 ≤ e.1
  costs_nonneg : ∀ v dv, st.costs v = some dv → 0 ≤ dv
  start_cost : st.costs startId = some 0
  dom : ∀ e ∈ st.pq, ∃ dv, st.costs e.2 = some dv ∧ dv ≤ e.1
  frontier : ∀ v dv, v ∉ st.visited → st.costs v = some dv → (dv, v) ∈ st.pq
  relaxed : ∀ u ∈ st.visited, ∀ v w, table u v = some w →
    ∃ cu dv, st.costs u = some cu ∧ st.costs v = some dv ∧ dv ≤ cu + w
  mono : ∀ v ∈ st.visited, ∀ cv, st.costs v = some cv → ∀ e ∈ st.pq, cv ≤ e.1
  settled : ∀ v ∈ st.visited, ∃ cv, st.costs v = some cv ∧
    ∀ l d, l.head? = some startId → l.getLast? = some v →
      pathSum table l = some d → cv ≤ d
  prev_vis : ∀ v u, st.previous v = some u → u ∈ st.visited
  prev_order : ∀ v ∈ st.visited, ∀ u, st.previous v = some u →
    st.visited.indexOf u < st.visited.indexOf v
  prev_cost : ∀ v u, st.previous v = some u → ∃ cu w dv,
    st.costs u = some cu ∧ table u v = some w ∧ st.costs v = some dv ∧
    dv = cu + w
  prev_none : ∀ v dv, st.costs v = some dv → st.previous v = none →
    v = startId
  start_vis : startId ∈ st.visited ∨
    (st.visited = [] ∧ st.pq = [((0 : α), startId)] ∧
     st.costs = (fun v => if v = startId then some 0 else none) ∧
     st.previous = (fun _ => none))

theorem chain_spec {g : Grid3D} {table : ℕ → ℕ → Option α} {startId : ℕ}
    {st : DijkstraState α} (inv : DInv g table startId st) :
    ∀ (fuel : ℕ) (v : ℕ) (dv : α), st.costs v = some dv →
      (if v ∈ st.visited then st.visited.indexOf v + 1
       else st.visited.length + 1) ≤ fuel →
      ∃ l, reconstructIds st.previous fuel v = v :: l ∧
        (v :: l).getLast? = some startId ∧
        pathSum table ((v :: l).reverse) = some dv := by
  intro fuel
  induction fuel with
  | zero =>
    intro v dv hc hb
    exfalso
    split at hb <;> omega
  | succ f ih =>
    intro v dv hc hb
    cases hp : st.previous v with
    | none =>
      have hveq := inv.prev_none v dv hc hp
      subst hveq
      have hdv : dv = 0 := by
        have h0 := inv.start_cost
        rw [hc] at h0
        injection h0
      subst hdv
      refine ⟨[], ?_, rfl, rfl⟩
      show reconstructIds st.previous (f + 1) v = [v]
      unfold reconstructIds
      rw [hp]
    | some u =>
      have hu_vis := inv.prev_vis v u hp
      obtain ⟨cu, w, dv', hcu, hw, hdv', heq⟩ := inv.prev_cost v u hp
      have hdd : dv' = dv := by
        rw [hc] at hdv'
        injection hdv' with h
        exact h.symm
      subst hdd
      have hmu : st.visited.indexOf u + 1 ≤ f := by
        by_cases hvv : v ∈ st.visited
        · have := inv.prev_order v hvv u hp
          rw [if_pos hvv] at hb
          omega
        · rw [if_neg hvv] at hb
          have := List.indexOf_lt_length.mpr hu_vis
          omega
      have hb' : (if u ∈ st.visited then st.visited.indexOf u + 1
          else st.visited.length + 1) ≤ f := by
        rw [if_pos hu_vis]
        exact hmu
      obtain ⟨l', hrec, hlast, hsum⟩ := ih u cu hcu hb'
      refine ⟨u :: l', ?_, ?_, ?_⟩
      · show reconstructIds st.previous (f + 1) v = v :: u :: l'
        unfold reconstructIds
        rw [hp]
        dsimp only
        rw [hrec]
      · rw [List.getLast?_cons_cons]
        exact hlast
      · rw [show (v :: u :: l').reverse = (u :: l').reverse ++ [v] from by
          rw [List.reverse_cons]]
        have hlastrev : ((u :: l').reverse).getLast? = some u := by
          rw [List.getLast?_reverse]
          rfl
        rw [heq]
        exact pathSum_append_single ((u :: l').reverse) u v w cu hlastrev
          hsum hw

end DijkstraInv

section RelaxProof

variable {α : Type} [LinearOrderedField α] [DecidableEq α]
variable [∀ a b : α, Decidable (a < b)] [∀ a b : α, Decidable (a ≤ b)]

/-- Invariant of the neighbour-relaxation fold, relative to the frozen
visited set `visited'`, the popped node `cur` with cost `c`, the queue
remainder `rest`, and the pre-relaxation costs and predecessors. -/
structure RInv (table : ℕ → ℕ → Option α) (visited' : List ℕ) (c : α)
    (cur : ℕ) (rest : List (α × ℕ)) (costs0 : ℕ → Option α)
    (prev0 : ℕ → Option ℕ) (rs : RelaxState α) : Prop where
  untouched : ∀ v ∈ visited', rs.costs v = costs0 v ∧ rs.previous v = prev0 v
  dec : ∀ v dv, costs0 v = some dv → ∃ dv', rs.costs v = some dv' ∧ dv' ≤ dv
  provC : ∀ v dv', rs.costs v = some dv' → costs0 v = some dv' ∨
    (∃ w, table cur v = some w ∧ dv' = c + w ∧ rs.previous v = some cur ∧
      v ∉ visited')
  provP : ∀ v u, rs.previous v = some u → prev0 v = some u ∨
    (u = cur ∧ v ∉ visited' ∧ ∃ w, table cur v = some w ∧
      rs.costs v = some (c + w))
  prev_persist : ∀ v u, prev0 v = some u → ∃ u', rs.previous v = some u'
  pqE : ∀ e ∈ rs.pq, e ∈ rest ∨
    (∃ w, table cur e.2 = some w ∧ e.1 = c + w ∧ e.2 ∉ visited')
  pqF : ∀ e ∈ rest, e ∈ rs.pq
  dom : ∀ e ∈ rs.pq, ∃ dv, rs.costs e.2 = some dv ∧ dv ≤ e.1
  frontier : ∀ v dv, v ∉ visited' → rs.costs v = some dv → (dv, v) ∈ rs.pq

theorem relaxOne_dec {table : ℕ → ℕ → Option α} {visited' : List ℕ} {c : α}
    {cur : ℕ} (rs : RelaxState α) (n : ℕ) :
    ∀ v dv, rs.costs v = some dv →
      ∃ dv', (relaxOne table visited' c cur rs n).costs v = some dv' ∧
        dv' ≤ dv := by
  intro v dv hv
  unfold relaxOne
  by_cases hn : n ∈ visited'
  · rw [if_pos hn]
    exact ⟨dv, hv, le_refl _⟩
  · rw [if_neg hn]
    cases ht : table cur n with
    | none => exact ⟨dv, hv, le_refl _⟩
    | some w =>
      dsimp only
      cases hcn : rs.costs n with
      | none =>
        dsimp only
        rw [if_pos rfl]
        dsimp only
        by_cases hvn : v = n
        · subst hvn
          rw [hv] at hcn
          cases hcn
        · rw [if_neg hvn]
          exact ⟨dv, hv, le_refl _⟩
      | some dn =>
        dsimp only
        by_cases himp : c + w < dn
        · rw [if_pos (by simpa using himp)]
          dsimp only
          by_cases hvn : v = n
          · subst hvn
            rw [if_pos rfl]
            rw [hv] at hcn
            injection hcn with h
            subst h
            exact ⟨c + w, rfl, le_of_lt himp⟩
          · rw [if_neg hvn]
            exact ⟨dv, hv, le_refl _⟩
        · rw [if_neg (by simpa using himp)]
          exact ⟨dv, hv, le_refl _⟩

theorem relaxAll_dec {table : ℕ → ℕ → Option α} {visited' : List ℕ} {c : α}
    {cur : ℕ} :
    ∀ (nbs : List ℕ) (rs : RelaxState α) (v : ℕ) (dv : α),
      rs.costs v = some dv →
      ∃ dv', (relaxAll table visited' c cur rs nbs).costs v = some dv' ∧
        dv' ≤ dv := by
  intro nbs
  induction nbs with
  | nil =>
    intro rs v dv hv
    exact ⟨dv, hv, le_refl _⟩
  | cons n t ih =>
    intro rs v dv hv
    obtain ⟨dv1, h1, hle1⟩ := relaxOne_dec rs n v dv hv
    obtain ⟨dv2, h2, hle2⟩ := ih (relaxOne table visited' c cur rs n) v dv1 h1
    exact ⟨dv2, h2, le_trans hle2 hle1⟩

theorem relaxOne_inv {table : ℕ → ℕ → Option α} {visited' : List ℕ} {c : α}
    {cur : ℕ} {rest : List (α × ℕ)} {costs0 : ℕ → Option α}
    {prev0 : ℕ → Option ℕ} {rs : RelaxState α}
    (h : RInv table visited' c cur rest costs0 prev0 rs) (n : ℕ) :
    RInv table visited' c cur rest costs0 prev0
      (relaxOne table visited' c cur rs n) ∧
    (n ∉ visited' → ∀ w, table cur n = some w →
      ∃ dv', (relaxOne table visited' c cur rs n).costs n = some dv' ∧
        dv' ≤ c + w) := by
  unfold relaxOne
  by_cases hn : n ∈ visited'
  · rw [if_pos hn]
    exact ⟨h, fun hnn => absurd hn hnn⟩
  · rw [if_neg hn]
    cases ht : table cur n with
    | none =>
      refine ⟨h, fun hnn w hw => ?_⟩
      cases hw
    | some w =>
      dsimp only
      have hstep : ∀ (rs' : RelaxState α),
          rs' = ⟨(c + w, n) :: rs.pq,
            fun x => if x = n then some (c + w) else rs.costs x,
            fun x => if x = n then some cur else rs.previous x⟩ →
          (∀ dn, rs.costs n = some dn → dn ≤ c + w → False) →
          RInv table visited' c cur rest costs0 prev0 rs' ∧
          (n ∉ visited' → ∀ w', (some w : Option α) = some w' →
            ∃ dv', rs'.costs n = some dv' ∧ dv' ≤ c + w') := by
        intro rs' hrs' himp
        subst hrs'
        constructor
        · constructor
          · intro v hv
            have hne : v ≠ n := fun he => hn (he ▸ hv)
            dsimp only
            rw [if_neg hne, if_neg hne]
            exact h.untouched v hv
          · intro v dv hdv
            dsimp only
            by_cases hvn : v = n
            · subst hvn
              refine ⟨c + w, by rw [if_pos rfl], ?_⟩
              obtain ⟨dv1, hdv1, hle1⟩ := h.dec v dv hdv
              by_contra hlt
              exact himp dv1 hdv1 (by push_neg at hlt; linarith)
            · rw [if_neg hvn]
              exact h.dec v dv hdv
          · intro v dv' hdv'
            dsimp only at hdv' ⊢
            by_cases hvn : v = n
            · subst hvn
              rw [if_pos rfl] at hdv'
              injection hdv' with hh
              exact Or.inr ⟨w, ht, hh.symm, by rw [if_pos rfl], hn⟩
            · rw [if_neg hvn] at hdv'
              rcases h.provC v dv' hdv' with h' | ⟨w', hw', he', hp', hv'⟩
              · exact Or.inl h'
              · exact Or.inr ⟨w', hw', he', by rw [if_neg hvn]; exact hp', hv'⟩
          · intro v u hu
            dsimp only at hu ⊢
            by_cases hvn : v = n
            · subst hvn
              rw [if_pos rfl] at hu
              injection hu with hh
              exact Or.inr ⟨hh.symm, hn, w, ht, by rw [if_pos rfl]⟩
            · rw [if_neg hvn] at hu
              rcases h.provP v u hu with h' | ⟨he', hv', w', hw', hc'⟩
              · exact Or.inl h'
              · exact Or.inr ⟨he', hv', w', hw', by rw [if_neg hvn]; exact hc'⟩
          · intro v u hu
            dsimp only
            by_cases hvn : v = n
            · subst hvn
              exact ⟨cur, by rw [if_pos rfl]⟩
            · rw [if_neg hvn]
              exact h.prev_persist v u hu
          · intro e he
            rcases List.mem_cons.mp he with rfl | he
            · exact Or.inr ⟨w, ht, rfl, hn⟩
            · exact h.pqE e he
          · intro e he
            exact List.mem_cons_of_mem _ (h.pqF e he)
          · intro e he
            dsimp only
            rcases List.mem_cons.mp he with rfl | he
            · rw [if_pos rfl]
              exact ⟨c + w, rfl, le_refl _⟩
            · obtain ⟨dv, hdv, hle⟩ := h.dom e he
              by_cases hvn : e.2 = n
              · rw [if_pos hvn]
                refine ⟨c + w, rfl, ?_⟩
                rw [hvn] at hdv
                by_contra hlt
                exact himp dv hdv (by push_neg at hlt; linarith)
              · rw [if_neg hvn]
                exact ⟨dv, hdv, hle⟩
          · intro v dv hv hdv
            dsimp only at hdv ⊢
            by_cases hvn : v = n
            · subst hvn
              rw [if_pos rfl] at hdv
              injection hdv with hh
              rw [← hh]
              exact List.mem_cons_self _ _
            · rw [if_neg hvn] at hdv
              exact List.mem_cons_of_mem _ (h.frontier v dv hv hdv)
        · intro hnn w' hw'
          injection hw' with hww
          subst hww
          dsimp only
          rw [if_pos rfl]
          exact ⟨c + w, rfl, le_refl _⟩
      cases hcn : rs.costs n with
      | none =>
        dsimp only
        rw [if_pos rfl]
        exact hstep _ rfl (fun dn hdn => by rw [hcn] at hdn; cases hdn)
      | some dn =>
        dsimp only
        by_cases himp : c + w < dn
        · rw [if_pos (by simpa using himp)]
          exact hstep _ rfl (fun dn' hdn' hle => by
            rw [hcn] at hdn'
            injection hdn' with hh
            subst hh
            exact absurd himp (not_lt.mpr hle))
        · rw [if_neg (by simpa using himp)]
          refine ⟨h, fun hnn w' hw' => ?_⟩
          injection hw' with hww
          subst hww
          exact ⟨dn, hcn, not_lt.mp himp⟩

theorem relaxAll_inv {table : ℕ → ℕ → Option α} {visited' : List ℕ} {c : α}
    {cur : ℕ} {rest : List (α × ℕ)} {costs0 : ℕ → Option α}
    {prev0 : ℕ → Option ℕ} :
    ∀ (nbs : List ℕ) (rs : RelaxState α),
      RInv table visited' c cur rest costs0 prev0 rs →
      RInv table visited' c cur rest costs0 prev0
        (relaxAll table visited' c cur rs nbs) ∧
      (∀ v ∈ nbs, v ∉ visited' → ∀ w, table cur v = some w →
        ∃ dv', (relaxAll table visited' c cur rs nbs).costs v = some dv' ∧
          dv' ≤ c + w) := by
  intro nbs
  induction nbs with
  | nil =>
    intro rs h
    exact ⟨h, fun v hv => absurd hv (List.not_mem_nil v)⟩
  | cons n t ih =>
    intro rs h
    obtain ⟨h1, h1b⟩ := relaxOne_inv h n
    obtain ⟨h2, h2b⟩ := ih (relaxOne table visited' c cur rs n) h1
    refine ⟨h2, ?_⟩
    intro v hv hnv w hw
    rcases List.mem_cons.mp hv with rfl | hv
    · obtain ⟨dv1, hdv1, hle1⟩ := h1b hnv w hw
      obtain ⟨dv2, hdv2, hle2⟩ := relaxAll_dec t _ v dv1 hdv1
      exact ⟨dv2, hdv2, le_trans hle2 hle1⟩
    · exact h2b v hv hnv w hw

end RelaxProof

section DijkstraMain

variable {α : Type} [LinearOrderedField α] [DecidableEq α]
variable [∀ a b : α, Decidable (a < b)] [∀ a b : α, Decidable (a ≤ b)]

theorem nodup_bounded_length_le {l : List ℕ} {n : ℕ} (hnd : l.Nodup)
    (hlt : ∀ x ∈ l, x < n) : l.length ≤ n := by
  have h1 : l.toFinset.card = l.length := List.toFinset_card_of_nodup hnd
  have h2 : l.toFinset ⊆ Finset.range n := by
    intro x hx
    rw [List.mem_toFinset] at hx
    exact Finset.mem_range.mpr (hlt x hx)
  have := Finset.card_le_card h2
  rw [h1, Finset.card_range] at this
  exact this

theorem dijkstra_cut {g : Grid3D} {table : ℕ → ℕ → Option α} {startId : ℕ}
    {st : DijkstraState α} (inv : DInv g table startId st)
    (hnn : ∀ u v w, table u v = some w → 0 ≤ w) :
    ∀ (l : List ℕ) (u : ℕ) (cu d : α), l.head? = some u →
      u ∈ st.visited → st.costs u = some cu → pathSum table l = some d →
      ∀ t, l.getLast? = some t → t ∉ st.visited →
      ∃ v' dv', v' ∉ st.visited ∧ st.costs v' = some dv' ∧ dv' ≤ cu + d := by
  intro l
  induction l with
  | nil =>
    intro u cu d hh
    cases hh
  | cons u0 rest ih =>
    intro u cu d hh huv hcu hsum t hlast htnv
    have hu0 : u0 = u := by injection hh
    subst hu0
    cases rest with
    | nil =>
      rw [List.getLast?_singleton] at hlast
      have hteq : t = u0 := by injection hlast with h; exact h.symm
      subst hteq
      exact absurd huv htnv
    | cons v rest' =>
      obtain ⟨w, d', hw, hd', rfl⟩ := pathSum_cons₂_elim hsum
      obtain ⟨cu0, dv, hcu0, hdv, hled⟩ := inv.relaxed u0 huv v w hw
      have hcueq : cu0 = cu := by
        rw [hcu] at hcu0
        injection hcu0 with h
        exact h.symm
      subst hcueq
      have hd'0 : 0 ≤ d' := pathSum_nonneg hnn _ _ hd'
      by_cases hv : v ∈ st.visited
      · rw [List.getLast?_cons_cons] at hlast
        obtain ⟨v', dv', hv'nv, hcv', hle⟩ :=
          ih v dv d' rfl hv hdv hd' t hlast htnv
        exact ⟨v', dv', hv'nv, hcv', by linarith⟩
      · exact ⟨v, dv, hv, hdv, by linarith⟩

theorem dijkstraLoop_success {g : Grid3D} {table : ℕ → ℕ → Option α}
    {startId endId : ℕ} {capture : Bool} {ci : ℕ}
    (hnn : ∀ u v w, table u v = some w → 0 ≤ w)
    (htnb : ∀ u v w, table u v = some w → v ∈ g.getNeighborIds u) :
    ∀ (fuel : ℕ) (st : DijkstraState α), DInv g table startId st →
    ∀ r : PathResult α,
      dijkstraLoop g table startId endId capture ci fuel st = some r →
      r.success = true →
      ∃ c : α, pathSum table r.path_node_ids = some c ∧
        r.total_cost = (c : WithTop α) ∧
        r.path_node_ids.head? = some startId ∧
        r.path_node_ids.getLast? = some endId ∧
        ∀ l d, l.head? = some startId → l.getLast? = some endId →
          pathSum table l = some d → c ≤ d := by
  intro fuel
  induction fuel with
  | zero =>
    intro st inv r hrun hsuc
    unfold dijkstraLoop at hrun
    cases hpop : popMin st.pq with
    | none =>
      rw [hpop] at hrun
      cases hrun
      cases hsuc
    | some p =>
      obtain ⟨⟨c, cur⟩, rest⟩ := p
      rw [hpop] at hrun
      cases hrun
  | succ f ih =>
    intro st inv r hrun hsuc
    unfold dijkstraLoop at hrun
    cases hpop : popMin st.pq with
    | none =>
      rw [hpop] at hrun
      cases hrun
      cases hsuc
    | some p =>
      obtain ⟨⟨c, cur⟩, rest⟩ := p
      rw [hpop] at hrun
      dsimp only at hrun
      have hcpq : (c, cur) ∈ st.pq := popMin_mem hpop
      have hc0 : 0 ≤ c := inv.pq_nonneg _ hcpq
      by_cases hvis : cur ∈ st.visited
      · rw [if_pos hvis] at hrun
        refine ih { st with pq := rest } ?_ r hrun hsuc
        rcases inv.start_vis with hsv | ⟨hve, -, -, -⟩
        · exact
          { nodup := inv.nodup
            vis_lt := inv.vis_lt
            pq_lt := fun e he => inv.pq_lt e (popMin_rest_subset hpop e he)
            pq_nonneg := fun e he =>
              inv.pq_nonneg e (popMin_rest_subset hpop e he)
            costs_nonneg := inv.costs_nonneg
            start_cost := inv.start_cost
            dom := fun e he => inv.dom e (popMin_rest_subset hpop e he)
            frontier := fun v dv hv hdv => by
              refine popMin_mem_rest hpop _ (inv.frontier v dv hv hdv) ?_
              intro he
              injection he with h1 h2
              exact hv (by rw [h2]; exact hvis)
            relaxed := inv.relaxed
            mono := fun v hv cv hcv e he =>
              inv.mono v hv cv hcv e (popMin_rest_subset hpop e he)
            settled := inv.settled
            prev_vis := inv.prev_vis
            prev_order := inv.prev_order
            prev_cost := inv.prev_cost
            prev_none := inv.prev_none
            start_vis := Or.inl hsv }
        · exact absurd hvis (by rw [hve]; exact List.not_mem_nil cur)
      · rw [if_neg hvis] at hrun
        have hccur : st.costs cur = some c := by
          obtain ⟨dcur, hdcur, hle1⟩ := inv.dom _ hcpq
          have hfr := inv.frontier cur dcur hvis hdcur
          have hle2 := (popMin_spec hpop).2 (dcur, cur) hfr
          rw [hdcur]
          rw [le_antisymm hle1 hle2]
        have hsettle_cur : ∀ l d, l.head? = some startId →
            l.getLast? = some cur → pathSum table l = some d → c ≤ d := by
          intro l d hh hl hs
          rcases inv.start_vis with hsv | ⟨hve, hpq, hcosts, hprev⟩
          · obtain ⟨v', dv', hv'nv, hcv', hle⟩ := dijkstra_cut inv hnn l
              startId 0 d hh hsv inv.start_cost hs cur hl hvis
            have hfr := inv.frontier v' dv' hv'nv hcv'
            have hmin := (popMin_spec hpop).2 (dv', v') hfr
            have : (0 : α) + d = d := zero_add d
            dsimp only at hmin
            linarith
          · rw [hpq] at hpop
            have hone : popMin [((0 : α), startId)] =
                some (((0 : α), startId), []) := rfl
            rw [hone] at hpop
            injection hpop with h1
            injection h1 with h3 h4
            injection h3 with h5 h6
            rw [← h5]
            exact pathSum_nonneg hnn l d hs
        by_cases hend : cur = endId
        · rw [if_pos hend] at hrun
          subst hend
          have hlen : st.visited.length ≤ g.totalNodes :=
            nodup_bounded_length_le inv.nodup inv.vis_lt
          obtain ⟨lch, hrec, hlast, hsum⟩ := chain_spec inv
            (g.totalNodes + 1) cur c hccur (by rw [if_neg hvis]; omega)
          cases hrun
          refine ⟨c, ?_, rfl, ?_, ?_, hsettle_cur⟩
          · show pathSum table
              ((reconstructIds st.previous (g.totalNodes + 1) cur).reverse) =
                some c
            rw [hrec]
            exact hsum
          · show ((reconstructIds st.previous (g.totalNodes + 1)
              cur).reverse).head? = some startId
            rw [hrec, List.head?_reverse]
            exact hlast
          · show ((reconstructIds st.previous (g.totalNodes + 1)
              cur).reverse).getLast? = some cur
            rw [hrec, List.getLast?_reverse]
            rfl
        · rw [if_neg hend] at hrun
          refine ih _ ?_ r hrun hsuc
          set visited' := st.visited ++ [cur] with hvisited'
          have hR0 : RInv table visited' c cur rest st.costs st.previous
              ⟨rest, st.costs, st.previous⟩ :=
            { untouched := fun v hv => ⟨rfl, rfl⟩
              dec := fun v dv hdv => ⟨dv, hdv, le_refl _⟩
              provC := fun v dv' hdv' => Or.inl hdv'
              provP := fun v u hu => Or.inl hu
              prev_persist := fun v u hu => ⟨u, hu⟩
              pqE := fun e he => Or.inl he
              pqF := fun e he => he
              dom := fun e he => inv.dom e (popMin_rest_subset hpop e he)
              frontier := fun v dv hv hdv => by
                have hvn : v ∉ st.visited := fun h =>
                  hv (List.mem_append.mpr (Or.inl h))
                have hne : v ≠ cur := by
                  intro h
                  apply hv
                  rw [h]
                  exact List.mem_append.mpr (Or.inr (List.mem_singleton_self cur))
                refine popMin_mem_rest hpop _ (inv.frontier v dv hvn hdv) ?_
                intro he
                injection he with h1 h2
                exact hne h2 }
          obtain ⟨hR, hRelaxed⟩ := relaxAll_inv (g.getNeighborIds cur)
            ⟨rest, st.costs, st.previous⟩ hR0
          have hcur_vis' : cur ∈ visited' :=
            List.mem_append.mpr (Or.inr (List.mem_singleton_self cur))
          have hRcur : (relaxAll table visited' c cur
              ⟨rest, st.costs, st.previous⟩ (g.getNeighborIds cur)).costs cur
              = some c := by
            rw [(hR.untouched cur hcur_vis').1]
            exact hccur
          have hsub : ∀ v ∈ st.visited, v ∈ visited' := fun v hv =>
            List.mem_append.mpr (Or.inl hv)
          have hcur_ne : ∀ u ∈ st.visited, u ≠ cur := fun u hu he =>
            hvis (he ▸ hu)
          exact
            { nodup := by
                rw [hvisited', List.nodup_append]
                exact ⟨inv.nodup, List.nodup_singleton cur,
                  fun a ha hb => by
                    rw [List.mem_singleton] at hb
                    subst hb
                    exact hvis ha⟩
              vis_lt := by
                dsimp only
                intro v hv
                rcases List.mem_append.mp hv with hv | hv
                · exact inv.vis_lt v hv
                · rw [List.mem_singleton] at hv
                  subst hv
                  exact inv.pq_lt _ hcpq
              pq_lt := by
                dsimp only
                intro e he
                rcases hR.pqE e he with he' | ⟨w, hw, -, -⟩
                · exact inv.pq_lt e (popMin_rest_subset hpop e he')
                · exact getNeighborIds_lt (htnb cur e.2 w hw)
              pq_nonneg := by
                dsimp only
                intro e he
                rcases hR.pqE e he with he' | ⟨w, hw, heq, -⟩
                · exact inv.pq_nonneg e (popMin_rest_subset hpop e he')
                · rw [heq]
                  have := hnn cur e.2 w hw
                  linarith
              costs_nonneg := by
                dsimp only
                intro v dv hdv
                rcases hR.provC v dv hdv with h' | ⟨w, hw, heq, -, -⟩
                · exact inv.costs_nonneg v dv h'
                · rw [heq]
                  have := hnn cur v w hw
                  linarith
              start_cost := by
                dsimp only
                by_cases hs : startId ∈ visited'
                · rw [(hR.untouched startId hs).1]
                  exact inv.start_cost
                · obtain ⟨dv', hdv', hle⟩ := hR.dec startId 0 inv.start_cost
                  have h0 : 0 ≤ dv' := by
                    rcases hR.provC startId dv' hdv' with h' | ⟨w, hw, heq, -, -⟩
                    · exact inv.costs_nonneg startId dv' h'
                    · rw [heq]
                      have := hnn cur startId w hw
                      linarith
                  rw [hdv', le_antisymm hle h0]
              dom := by
                dsimp only
                exact hR.dom
              frontier := by
                dsimp only
                exact hR.frontier
              relaxed := by
                dsimp only
                intro u hu v w hw
                rcases List.mem_append.mp hu with hu' | hu'
                · obtain ⟨cu, dv, hcu, hdv, hle⟩ := inv.relaxed u hu' v w hw
                  obtain ⟨dv', hdv', hle'⟩ := hR.dec v dv hdv
                  refine ⟨cu, dv', ?_, hdv', by linarith⟩
                  rw [(hR.untouched u (hsub u hu')).1]
                  exact hcu
                · rw [List.mem_singleton] at hu'
                  subst hu'
                  by_cases hv' : v ∈ visited'
                  · have huntv := (hR.untouched v hv').1
                    rcases List.mem_append.mp hv' with hv'' | hv''
                    · obtain ⟨cv, hcv, -⟩ := inv.settled v hv''
                      refine ⟨c, cv, hRcur, ?_, ?_⟩
                      · rw [huntv]; exact hcv
                      · have := inv.mono v hv'' cv hcv (c, u) hcpq
                        have hw0 := hnn u v w hw
                        dsimp only at this
                        linarith
                    · rw [List.mem_singleton] at hv''
                      subst hv''
                      refine ⟨c, c, hRcur, ?_, ?_⟩
                      · rw [huntv]; exact hccur
                      · have hw0 := hnn _ _ w hw
                        linarith
                  · obtain ⟨dv', hdv', hle'⟩ := hRelaxed v
                      (htnb u v w hw) hv' w hw
                    exact ⟨c, dv', hRcur, hdv', hle'⟩
              mono := by
                dsimp only
                intro v hv cv hcv e he
                have hvcosts : st.costs v = some cv := by
                  rw [← (hR.untouched v hv).1]
                  exact hcv
                have hcvc : cv ≤ c := by
                  rcases List.mem_append.mp hv with hv' | hv'
                  · have := inv.mono v hv' cv hvcosts (c, cur) hcpq
                    dsimp only at this
                    exact this
                  · rw [List.mem_singleton] at hv'
                    subst hv'
                    rw [hccur] at hvcosts
                    injection hvcosts with h
                    rw [h]
                rcases hR.pqE e he with he' | ⟨w, hw, heq, -⟩
                · rcases List.mem_append.mp hv with hv' | hv'
                  · exact inv.mono v hv' cv hvcosts e
                      (popMin_rest_subset hpop e he')
                  · rw [List.mem_singleton] at hv'
                    subst hv'
                    rw [hccur] at hvcosts
                    injection hvcosts with h
                    rw [← h]
                    exact (popMin_spec hpop).2 e
                      (popMin_rest_subset hpop e he')
                · rw [heq]
                  have := hnn cur e.2 w hw
                  linarith
              settled := by
                dsimp only
                intro v hv
                rcases List.mem_append.mp hv with hv' | hv'
                · obtain ⟨cv, hcv, hbound⟩ := inv.settled v hv'
                  refine ⟨cv, ?_, hbound⟩
                  rw [(hR.untouched v (hsub v hv')).1]
                  exact hcv
                · rw [List.mem_singleton] at hv'
                  subst hv'
                  exact ⟨c, hRcur, hsettle_cur⟩
              prev_vis := by
                dsimp only
                intro v u hu
                rcases hR.provP v u hu with h' | ⟨rfl, -, -⟩
                · exact hsub u (inv.prev_vis v u h')
                · exact hcur_vis'
              prev_order := by
                dsimp only
                intro v hv u hu
                have hidx_cur : visited'.indexOf cur = st.visited.length := by
                  rw [hvisited', List.indexOf_append_of_not_mem hvis]
                  rw [List.indexOf_cons_self]
                  omega
                rcases List.mem_append.mp hv with hv' | hv'
                · have hpv : st.previous v = some u := by
                    rw [← (hR.untouched v (hsub v hv')).2]
                    exact hu
                  have := inv.prev_order v hv' u hpv
                  have huv := inv.prev_vis v u hpv
                  rw [hvisited', List.indexOf_append_of_mem huv,
                    List.indexOf_append_of_mem hv']
                  exact this
                · rw [List.mem_singleton] at hv'
                  subst hv'
                  have hpv : st.previous v = some u := by
                    rw [← (hR.untouched v hcur_vis').2]
                    exact hu
                  have huv := inv.prev_vis v u hpv
                  rw [hidx_cur, List.indexOf_append_of_mem huv]
                  exact List.indexOf_lt_length.mpr huv
              prev_cost := by
                dsimp only
                intro v u hu
                rcases hR.provP v u hu with h' | ⟨rfl, hv', w, hw, hc'⟩
                · obtain ⟨cu, w, dv, hcu, hw, hdv, heq⟩ := inv.prev_cost v u h'
                  have huvis := inv.prev_vis v u h'
                  have hune : u ≠ cur := hcur_ne u huvis
                  refine ⟨cu, w, dv, ?_, hw, ?_, heq⟩
                  · rw [(hR.untouched u (hsub u huvis)).1]
                    exact hcu
                  · obtain ⟨dv2, hdv2, hle2⟩ := hR.dec v dv hdv
                    rcases hR.provC v dv2 hdv2 with h2 | ⟨w2, hw2, he2, hp2, -⟩
                    · rw [hdv2]
                      rw [h2] at hdv
                      injection hdv with h3
                      rw [h3]
                    · rw [hp2] at hu
                      injection hu with h3
                      exact absurd h3.symm hune
                · exact ⟨c, w, c + w, hRcur, hw, hc', rfl⟩
              prev_none := by
                dsimp only
                intro v dv hdv hp
                rcases hR.provC v dv hdv with h' | ⟨w, hw, heq, hpc, -⟩
                · cases hpold : st.previous v with
                  | none => exact inv.prev_none v dv h' hpold
                  | some u =>
                    obtain ⟨u', hu'⟩ := hR.prev_persist v u hpold
                    rw [hp] at hu'
                    cases hu'
                · rw [hpc] at hp
                  cases hp
              start_vis := by
                dsimp only
                rcases inv.start_vis with hsv | ⟨hve, hpq, hcosts, hprev⟩
                · exact Or.inl (hsub startId hsv)
                · rw [hpq] at hpop
                  have hone : popMin [((0 : α), startId)] =
                      some (((0 : α), startId), []) := rfl
                  rw [hone] at hpop
                  injection hpop with h1
                  injection h1 with h3 h4
                  injection h3 with h5 h6
                  exact Or.inl (by rw [h6]; exact hcur_vis') }

theorem initState_inv {g : Grid3D} {table : ℕ → ℕ → Option α} {startId : ℕ}
    (hs : startId < g.totalNodes) :
    DInv g table startId (initState startId : DijkstraState α) := by
  refine
    { nodup := List.nodup_nil
      vis_lt := by intro v hv; cases hv
      pq_lt := by
        intro e he
        dsimp only [initState] at he
        rw [List.mem_singleton] at he
        subst he
        exact hs
      pq_nonneg := by
        intro e he
        dsimp only [initState] at he
        rw [List.mem_singleton] at he
        subst he
        exact le_refl 0
      costs_nonneg := by
        intro v dv h
        dsimp only [initState] at h
        by_cases hv : v = startId
        · rw [if_pos hv] at h
          injection h with h'
          rw [← h']
        · rw [if_neg hv] at h
          cases h
      start_cost := by
        dsimp only [initState]
        rw [if_pos rfl]
      dom := by
        intro e he
        dsimp only [initState] at he
        rw [List.mem_singleton] at he
        subst he
        refine ⟨0, ?_, le_refl 0⟩
        dsimp only [initState]
        rw [if_pos rfl]
      frontier := by
        intro v dv hv h
        dsimp only [initState] at h ⊢
        by_cases hveq : v = startId
        · subst hveq
          rw [if_pos rfl] at h
          injection h with h'
          rw [← h']
          exact List.mem_singleton_self _
        · rw [if_neg hveq] at h
          cases h
      relaxed := by intro u hu; cases hu
      mono := by intro v hv; cases hv
      settled := by intro v hv; cases hv
      prev_vis := by intro v u h; exact Option.noConfusion h
      prev_order := by intro v hv; cases hv
      prev_cost := by intro v u h; exact Option.noConfusion h
      prev_none := by
        intro v dv h hp
        dsimp only [initState] at h
        by_cases hveq : v = startId
        · exact hveq
        · rw [if_neg hveq] at h
          cases h
      start_vis := Or.inr ⟨rfl, rfl, rfl, rfl⟩ }

theorem dijkstraRun_optimal {g : Grid3D} {table : ℕ → ℕ → Option α}
    {startId endId : ℕ} {capture : Bool} {ci : ℕ}
    (hnn : ∀ u v w, table u v = some w → 0 ≤ w)
    (htnb : ∀ u v w, table u v = some w → v ∈ g.getNeighborIds u)
    (hs : startId < g.totalNodes) :
    ∀ r : PathResult α, dijkstraRun g table startId endId capture ci = r →
      r.success = true →
      ∃ c : α, pathSum table r.path_node_ids = some c ∧
        r.total_cost = (c : WithTop α) ∧
        r.path_node_ids.head? = some startId ∧
        r.path_node_ids.getLast? = some endId ∧
        ∀ l d, l.head? = some startId → l.getLast? = some endId →
          pathSum table l = some d → c ≤ d := by
  intro r hr hsuc
  unfold dijkstraRun at hr
  cases hrun : dijkstraLoop g table startId endId capture ci (dijkstraFuel g)
      (initState startId) with
  | none =>
    rw [hrun] at hr
    rw [← hr] at hsuc
    exact Bool.noConfusion hsuc
  | some r0 =>
    rw [hrun] at hr
    rw [← hr] at hsuc ⊢
    exact dijkstraLoop_success hnn htnb (dijkstraFuel g) (initState startId)
      (initState_inv hs) r0 hrun hsuc



/-- C1: a successful `find_path` call returns a `total_cost` equal to the sum
of the stored directed edge costs along the returned node-id sequence, which
runs from the snapped start node to the snapped end node; and, provided every
stored edge cost is non-negative and every stored edge joins 26-neighbours of
the grid (both true of every table the cost precomputation produces), no other
node sequence joined by stored edges from the snapped start node to the
snapped end node has a strictly smaller edge-cost sum. -/
theorem dijkstra_findPath_optimal {g : Grid3D} {table : ℕ → ℕ → Option α}
    (start endP : Vec3 ℚ) (capture : Bool) (ci : ℕ)
    (hnn : ∀ u v w, table u v = some w → 0 ≤ w)
    (htnb : ∀ u v w, table u v = some w → v ∈ g.getNeighborIds u) :
    (findPath g table start endP capture ci).success = false ∨
    ∃ sn en, g.getNodeAtPosition start = some sn ∧
      g.getNodeAtPosition endP = some en ∧
      ∃ c : α,
        pathSum table (findPath g table start endP capture ci).path_node_ids
          = some c ∧
        (findPath g table start endP capture ci).total_cost
          = (c : WithTop α) ∧
        (findPath g table start endP capture ci).path_node_ids.head?
          = some sn.id ∧
        (findPath g table start endP capture ci).path_node_ids.getLast?
          = some en.id ∧
        ∀ l d, l.head? = some sn.id → l.getLast? = some en.id →
          pathSum table l = some d → c ≤ d := by
  unfold findPath
  cases hsn : g.getNodeAtPosition start with
  | none => exact Or.inl rfl
  | some sn =>
    cases hen : g.getNodeAtPosition endP with
    | none => exact Or.inl rfl
    | some en =>
      dsimp only
      by_cases hsv : sn.is_valid = false
      · rw [if_pos hsv]
        exact Or.inl rfl
      · rw [if_neg hsv]
        by_cases hev : en.is_valid = false
        · rw [if_pos hev]
          exact Or.inl rfl
        · rw [if_neg hev]
          have hs := getNodeAtPosition_id_lt hsn
          by_cases hcond :
              (dijkstraRun g table sn.id en.id capture ci : PathResult α).success
                = true ∧
              (dijkstraRun g table sn.id en.id capture ci : PathResult α).path
                ≠ []
          · obtain ⟨c, h1, h2, h3, h4, h5⟩ :=
              dijkstraRun_optimal hnn htnb hs _ rfl hcond.1
            refine Or.inr ⟨sn, en, rfl, rfl, c, ?_, ?_, ?_, ?_, h5⟩
            · rw [if_pos hcond]
              exact h1
            · rw [if_pos hcond]
              exact h2
            · rw [if_pos hcond]
              exact h3
            · rw [if_pos hcond]
              exact h4
          · rw [if_neg hcond]
            rcases Bool.eq_false_or_eq_true
                ((dijkstraRun g table sn.id en.id capture ci :
                  PathResult α).success) with hst | hsf
            · obtain ⟨c, h1, h2, h3, h4, h5⟩ :=
                dijkstraRun_optimal hnn htnb hs _ rfl hst
              exact Or.inr ⟨sn, en, rfl, rfl, c, h1, h2, h3, h4, h5⟩
            · exact Or.inl hsf



theorem witRoute_nx : witRouteGrid.nx = 3 := by
  unfold Grid3D.nx pyInt
  norm_num [witRouteGrid]
  decide

theorem witRoute_ny : witRouteGrid.ny = 1 := by
  unfold Grid3D.ny pyInt
  norm_num [witRouteGrid]

theorem witRoute_nz : witRouteGrid.nz = 1 := by
  unfold Grid3D.nz pyInt
  norm_num [witRouteGrid]

theorem witRoute_total : witRouteGrid.totalNodes = 3 := by
  unfold Grid3D.totalNodes
  rw [witRoute_nx, witRoute_ny, witRoute_nz]

theorem witRoute_indexOfId (i : ℕ) :
    witRouteGrid.indexOfId i = (i, 0, 0) := by
  unfold Grid3D.indexOfId
  rw [witRoute_ny, witRoute_nz]
  simp [Nat.mod_one]

theorem witRoute_id (ix : ℕ) : (witRouteGrid.mkNode ix 0 0).id = ix := by
  show witRouteGrid.idOf ix 0 0 = ix
  unfold Grid3D.idOf
  rw [witRoute_ny, witRoute_nz]
  ring

theorem witRoute_getNodeById (i : ℕ) (h : i < 3) :
    witRouteGrid.getNodeById i = some (witRouteGrid.mkNode i 0 0) := by
  unfold Grid3D.getNodeById
  rw [if_pos (by rw [witRoute_total]; exact h), witRoute_indexOfId]



theorem witRoute_mem_nb01 : (1 : ℕ) ∈ witRouteGrid.getNeighborIds 0 := by
  unfold Grid3D.getNeighborIds
  rw [witRoute_getNodeById 0 (by norm_num)]
  dsimp only
  refine List.mem_map.mpr ⟨witRouteGrid.mkNode 1 0 0, ?_, witRoute_id 1⟩
  refine mem_getNeighbors.mpr ⟨(1, 0, 0), by decide,
    ⟨?_, ?_, ?_, ?_, ?_, ?_⟩, ?_, rfl⟩
  · show (0 : ℤ) ≤ ((0 : ℕ) : ℤ) + 1
    norm_num
  · show ((0 : ℕ) : ℤ) + 1 < (witRouteGrid.nx : ℤ)
    rw [witRoute_nx]
    norm_num
  · show (0 : ℤ) ≤ ((0 : ℕ) : ℤ) + 0
    norm_num
  · show ((0 : ℕ) : ℤ) + 0 < (witRouteGrid.ny : ℤ)
    rw [witRoute_ny]
    norm_num
  · show (0 : ℤ) ≤ ((0 : ℕ) : ℤ) + 0
    norm_num
  · show ((0 : ℕ) : ℤ) + 0 < (witRouteGrid.nz : ℤ)
    rw [witRoute_nz]
    norm_num
  · show witRouteGrid.mkNode 1 0 0 =
      witRouteGrid.mkNode ((((0 : ℕ) : ℤ) + 1).toNat)
        ((((0 : ℕ) : ℤ) + 0).toNat) ((((0 : ℕ) : ℤ) + 0).toNat)
    rfl

theorem witRoute_mem_nb10 : (0 : ℕ) ∈ witRouteGrid.getNeighborIds 1 := by
  unfold Grid3D.getNeighborIds
  rw [witRoute_getNodeById 1 (by norm_num)]
  dsimp only
  refine List.mem_map.mpr ⟨witRouteGrid.mkNode 0 0 0, ?_, witRoute_id 0⟩
  refine mem_getNeighbors.mpr ⟨(-1, 0, 0), by decide,
    ⟨?_, ?_, ?_, ?_, ?_, ?_⟩, ?_, rfl⟩
  · show (0 : ℤ) ≤ ((1 : ℕ) : ℤ) + (-1)
    norm_num
  · show ((1 : ℕ) : ℤ) + (-1) < (witRouteGrid.nx : ℤ)
    rw [witRoute_nx]
    norm_num
  · show (0 : ℤ) ≤ ((0 : ℕ) : ℤ) + 0
    norm_num
  · show ((0 : ℕ) : ℤ) + 0 < (witRouteGrid.ny : ℤ)
    rw [witRoute_ny]
    norm_num
  · show (0 : ℤ) ≤ ((0 : ℕ) : ℤ) + 0
    norm_num
  · show ((0 : ℕ) : ℤ) + 0 < (witRouteGrid.nz : ℤ)
    rw [witRoute_nz]
    norm_num
  · show witRouteGrid.mkNode 0 0 0 =
      witRouteGrid.mkNode ((((1 : ℕ) : ℤ) + (-1)).toNat)
        ((((0 : ℕ) : ℤ) + 0).toNat) ((((0 : ℕ) : ℤ) + 0).toNat)
    rfl

theorem witRoute_mem_nb12 : (2 : ℕ) ∈ witRouteGrid.getNeighborIds 1 := by
  unfold Grid3D.getNeighborIds
  rw [witRoute_getNodeById 1 (by norm_num)]
  dsimp only
  refine List.mem_map.mpr ⟨witRouteGrid.mkNode 2 0 0, ?_, witRoute_id 2⟩
  refine mem_getNeighbors.mpr ⟨(1, 0, 0), by decide,
    ⟨?_, ?_, ?_, ?_, ?_, ?_⟩, ?_, rfl⟩
  · show (0 : ℤ) ≤ ((1 : ℕ) : ℤ) + 1
    norm_num
  · show ((1 : ℕ) : ℤ) + 1 < (witRouteGrid.nx : ℤ)
    rw [witRoute_nx]
    norm_num
  · show (0 : ℤ) ≤ ((0 : ℕ) : ℤ) + 0
    norm_num
  · show ((0 : ℕ) : ℤ) + 0 < (witRouteGrid.ny : ℤ)
    rw [witRoute_ny]
    norm_num
  · show (0 : ℤ) ≤ ((0 : ℕ) : ℤ) + 0
    norm_num
  · show ((0 : ℕ) : ℤ) + 0 < (witRouteGrid.nz : ℤ)
    rw [witRoute_nz]
    norm_num
  · show witRouteGrid.mkNode 2 0 0 =
      witRouteGrid.mkNode ((((1 : ℕ) : ℤ) + 1).toNat)
        ((((0 : ℕ) : ℤ) + 0).toNat) ((((0 : ℕ) : ℤ) + 0).toNat)
    rfl

theorem witRoute_mem_nb21 : (1 : ℕ) ∈ witRouteGrid.getNeighborIds 2 := by
  unfold Grid3D.getNeighborIds
  rw [witRoute_getNodeById 2 (by norm_num)]
  dsimp only
  refine List.mem_map.mpr ⟨witRouteGrid.mkNode 1 0 0, ?_, witRoute_id 1⟩
  refine mem_getNeighbors.mpr ⟨(-1, 0, 0), by decide,
    ⟨?_, ?_, ?_, ?_, ?_, ?_⟩, ?_, rfl⟩
  · show (0 : ℤ) ≤ ((2 : ℕ) : ℤ) + (-1)
    norm_num
  · show ((2 : ℕ) : ℤ) + (-1) < (witRouteGrid.nx : ℤ)
    rw [witRoute_nx]
    norm_num
  · show (0 : ℤ) ≤ ((0 : ℕ) : ℤ) + 0
    norm_num
  · show ((0 : ℕ) : ℤ) + 0 < (witRouteGrid.ny : ℤ)
    rw [witRoute_ny]
    norm_num
  · show (0 : ℤ) ≤ ((0 : ℕ) : ℤ) + 0
    norm_num
  · show ((0 : ℕ) : ℤ) + 0 < (witRouteGrid.nz : ℤ)
    rw [witRoute_nz]
    norm_num
  · show witRouteGrid.mkNode 1 0 0 =
      witRouteGrid.mkNode ((((2 : ℕ) : ℤ) + (-1)).toNat)
        ((((0 : ℕ) : ℤ) + 0).toNat) ((((0 : ℕ) : ℤ) + 0).toNat)
    rfl



/-- Witness for the optimality theorem: the three-node line grid with its
unit-cost table satisfies both table hypotheses. -/
theorem dijkstra_findPath_optimal_witness :
    (∀ u v w, witRouteTable u v = some w → (0 : ℚ) ≤ w) ∧
    (∀ u v w, witRouteTable u v = some w →
      v ∈ witRouteGrid.getNeighborIds u) ∧
    ((findPath witRouteGrid witRouteTable ⟨0, 0, 0⟩ ⟨2, 0, 0⟩ true 20).success
        = false ∨
     ∃ sn en, witRouteGrid.getNodeAtPosition ⟨0, 0, 0⟩ = some sn ∧
       witRouteGrid.getNodeAtPosition ⟨2, 0, 0⟩ = some en ∧
       ∃ c : ℚ,
         pathSum witRouteTable
           (findPath witRouteGrid witRouteTable ⟨0, 0, 0⟩ ⟨2, 0, 0⟩ true
             20).path_node_ids = some c ∧
         (findPath witRouteGrid witRouteTable ⟨0, 0, 0⟩ ⟨2, 0, 0⟩ true
             20).total_cost = (c : WithTop ℚ) ∧
         (findPath witRouteGrid witRouteTable ⟨0, 0, 0⟩ ⟨2, 0, 0⟩ true
             20).path_node_ids.head? = some sn.id ∧
         (findPath witRouteGrid witRouteTable ⟨0, 0, 0⟩ ⟨2, 0, 0⟩ true
             20).path_node_ids.getLast? = some en.id ∧
         ∀ l d, l.head? = some sn.id → l.getLast? = some en.id →
           pathSum witRouteTable l = some d → c ≤ d) := by
  have hnn : ∀ u v w, witRouteTable u v = some w → (0 : ℚ) ≤ w := by
    intro u v w h
    unfold witRouteTable at h
    split_ifs at h with h1 h2 h3 h4
    · injection h with h'
      rw [← h']
      norm_num
    · injection h with h'
      rw [← h']
      norm_num
    · injection h with h'
      rw [← h']
      norm_num
    · injection h with h'
      rw [← h']
      norm_num
  have htnb : ∀ u v w, witRouteTable u v = some w →
      v ∈ witRouteGrid.getNeighborIds u := by
    intro u v w h
    unfold witRouteTable at h
    split_ifs at h with h1 h2 h3 h4
    · simp only [Prod.mk.injEq] at h1
      obtain ⟨rfl, rfl⟩ := h1
      exact witRoute_mem_nb01
    · simp only [Prod.mk.injEq] at h2
      obtain ⟨rfl, rfl⟩ := h2
      exact witRoute_mem_nb10
    · simp only [Prod.mk.injEq] at h3
      obtain ⟨rfl, rfl⟩ := h3
      exact witRoute_mem_nb12
    · simp only [Prod.mk.injEq] at h4
      obtain ⟨rfl, rfl⟩ := h4
      exact witRoute_mem_nb21
  exact ⟨hnn, htnb,
    dijkstra_findPath_optimal ⟨0, 0, 0⟩ ⟨2, 0, 0⟩ true 20 hnn htnb⟩


end DijkstraMain

end DroneRouting
